import Mathlib

/-!
# Connection state reconciliation (steampipe, `pkg/steampipeconfig`)

A shallow embedding of `connection_updates.go`:

* Go maps with string keys are association lists (`GoMap`); a `range` loop visits the
  entries in list order, so a statement proved for every list covers every iteration
  order the Go runtime may choose.
* `ConnectionStateMap` is `map[string]*ConnectionState`: its values are pointers.  The
  objects live in an explicit `Heap`, so that the writes the code makes through one map
  (`requiredConnectionData.ConnectionModTime = modTime`, `v.SchemaHash = ...`) are seen
  through every other map holding the same pointer.
* Functions of other packages (`Equals`, `Connections`, `CreateConnectionPlugins`,
  `GetMD5Hash`) are parameters.
* A nil dereference (a runtime panic) is the result `none`.
-/

set_option linter.dupNamespace false

namespace Steampipe

/-! ## Go maps keyed by strings -/

/-- A Go `map[string]V`, as the list of its entries. -/
abbrev GoMap (V : Type) := List (String × V)

namespace GoMap

variable {V : Type}

/-- The lookup `m[k]` with its `ok` flag: the value of the first entry for `k`. -/
def get? : GoMap V → String → Option V
  | [], _ => none
  | (k', v) :: rest, k => if k' = k then some v else get? rest k

/-- The keys of the map, in iteration order. -/
def keys (m : GoMap V) : List String := m.map Prod.fst

/-- The builtin `delete(m, k)`. -/
def delete (m : GoMap V) (k : String) : GoMap V := m.filter (fun e => decide (e.1 ≠ k))

/-- The assignment `m[k] = v`: the entry for `k` is replaced. -/
def set (m : GoMap V) (k : String) (v : V) : GoMap V := (k, v) :: m.delete k

end GoMap

/-- The helper `helpers.StringSliceContains` of go-kit. -/
def StringSliceContains (slice : List String) (val : String) : Bool := decide (val ∈ slice)

/-! ## Data model -/

/-- The type `modconfig.Connection`, with the fields the code reads: the name, the
connection type and, for an aggregator, the child connections. The sources at hand do not
hold this type; the list holds the children, whether they are a slice or a Go map, and
which of them a `range` yields first is not read off the list (see `rangeFirst`). -/
structure Connection where
  Name : String
  Type_ : String
  Connections : List Connection

/-- The type `ConnectionState`, with the fields the code reads and writes.
`ConnectionModTime` is a `time.Time`, here a number. -/
structure ConnectionState where
  ConnectionName : String
  Type_ : String
  Plugin : String
  State : String
  ConnectionError : Option String
  SchemaMode : String
  SchemaHash : String
  ConnectionModTime : Nat
deriving DecidableEq

/-- The address of a `ConnectionState` object. -/
abbrev Ptr := Nat

/-- The `ConnectionState` objects, by address. -/
abbrev Heap := Ptr → ConnectionState

/-- A write of a whole object through a pointer. -/
def Heap.set (h : Heap) (p : Ptr) (s : ConnectionState) : Heap :=
  fun q => if q = p then s else h q

/-- The type `ConnectionStateMap`, a `map[string]*ConnectionState`. -/
abbrev ConnectionStateMap := GoMap Ptr

/-- A column of a table schema (`proto.ColumnDefinition`): its name and the number of its
type (`proto.ColumnType`, an `int32` enumeration). -/
structure ColumnDefinition where
  Name : String
  Type_ : Int
deriving DecidableEq

/-- A table schema (`proto.TableSchema`): the columns in the order the plugin reports. -/
structure TableSchema where
  Columns : List ColumnDefinition
deriving DecidableEq

/-- A plugin schema (`proto.Schema`): the tables by name, the schema mode and the
protocol version. -/
structure Schema where
  Schema : GoMap TableSchema
  Mode : String
  ProtocolVersion : Int
deriving DecidableEq

/-- The data a connection plugin holds for one connection (`ConnectionPluginData`). -/
structure ConnectionPluginData where
  Schema : Schema
deriving DecidableEq

/-- The type `ConnectionPlugin`: the plugin name and the connections it serves. -/
structure ConnectionPlugin where
  PluginName : String
  ConnectionMap : GoMap ConnectionPluginData
deriving DecidableEq

/-- The type `ConnectionUpdates` (connection_updates.go, lines 22-31). -/
structure ConnectionUpdates where
  Update : ConnectionStateMap
  Delete : GoMap Unit
  MissingPlugins : GoMap (List Connection)
  FinalConnectionState : ConnectionStateMap
  ConnectionPlugins : GoMap ConnectionPlugin
  CurrentConnectionState : ConnectionStateMap

/-- The type `RefreshConnectionResult`, with the fields the code reads and writes. -/
structure RefreshConnectionResult where
  Error : Option String
  FailedConnections : GoMap String
  Updates : Option ConnectionUpdates

/-- The constructor `NewErrorRefreshConnectionResult`. -/
def NewErrorRefreshConnectionResult (err : String) : RefreshConnectionResult :=
  { Error := some err, FailedConnections := [], Updates := none }

/-- Modelled from the spec: the constant `plugin.SchemaModeDynamic` of the plugin SDK
(schema mode is `static` | `dynamic`). -/
def SchemaModeDynamic : String := "dynamic"

/-- Modelled from the spec: the constant `plugin.SchemaModeStatic` of the plugin SDK. -/
def SchemaModeStatic : String := "static"

/-- Modelled from the spec: the constant `constants.ConnectionStateError`
(health is `pending` | `ready` | `error`). -/
def ConnectionStateError : String := "error"

/-- Modelled from the spec: the method `ConnectionState.SetError`, which is not in the
sources at hand; it records the failure reason as the error detail of the state. -/
def ConnectionState.SetError (d : ConnectionState) (err : String) : ConnectionState :=
  { d with ConnectionError := some err }

/-! ## The schema hasher (`pluginSchemaHash`, lines 309-332) -/

/-- The order of `sort.Strings`: strings compared character by character. -/
def strLE (a b : String) : Prop := a.toList ≤ b.toList

instance strLE.decidable : DecidableRel strLE :=
  fun a b => inferInstanceAs (Decidable (a.toList ≤ b.toList))

/-- The function `sort.Strings`. -/
def sortStrings (l : List String) : List String := List.insertionSort strLE l

/-- The inner loop of `pluginSchemaHash` (lines 325-328): what the columns of one table
write to the string builder, the name of each followed by its type number in decimal. -/
def columnsString : List ColumnDefinition → String
  | [] => ""
  | c :: rest => c.Name ++ toString c.Type_ ++ columnsString rest

/-- The outer loop of `pluginSchemaHash` (lines 322-329) over the sorted table names. A
name that is not in the map writes only itself (`tables` holds keys of the map, so this
does not occur). -/
def tablesString (schema : GoMap TableSchema) : List String → String
  | [] => ""
  | tableName :: rest =>
    (tableName ++
      match schema.get? tableName with
      | some tableSchema => columnsString tableSchema.Columns
      | none => "") ++ tablesString schema rest

/-- The string `str` that `pluginSchemaHash` passes to the digest (line 330). -/
def schemaString (s : Schema) : String :=
  tablesString s.Schema (sortStrings (GoMap.keys s.Schema))

/-- The function `pluginSchemaHash`; `GetMD5Hash` is the digest of go-kit. -/
def pluginSchemaHash (GetMD5Hash : String → String) (s : Schema) : String :=
  GetMD5Hash (schemaString s)

/-! ## The dynamic-schema prober (`getSchemaHashesForDynamicSchemas`, lines 275-307) -/

/-- The first loop of `getSchemaHashesForDynamicSchemas` (lines 282-292): the map
`connectionsWithDynamicSchema` that is passed to `CreateConnectionPlugins`. -/
def connectionsWithDynamicSchema (heap : Heap) (connectionState : ConnectionStateMap) :
    ConnectionStateMap → ConnectionStateMap → ConnectionStateMap
  | [], acc => acc
  | (requiredConnectionName, requiredConnection) :: rest, acc =>
    match connectionState.get? requiredConnectionName with
    | some existingConnection =>
      if (heap existingConnection).SchemaMode = SchemaModeDynamic then
        connectionsWithDynamicSchema heap connectionState rest
          (acc.set requiredConnectionName requiredConnection)
      else connectionsWithDynamicSchema heap connectionState rest acc
    | none => connectionsWithDynamicSchema heap connectionState rest acc

/-- The second loop of `getSchemaHashesForDynamicSchemas` (lines 300-305); `none` is the
nil dereference of `c.ConnectionMap[name].Schema` when `c` does not serve `name`. -/
def schemaHashMap (GetMD5Hash : String → String) :
    GoMap ConnectionPlugin → GoMap String → Option (GoMap String)
  | [], hashMap => some hashMap
  | (name, c) :: rest, hashMap =>
    match c.ConnectionMap.get? name with
    | none => none
    | some d =>
      schemaHashMap GetMD5Hash rest (hashMap.set name (pluginSchemaHash GetMD5Hash d.Schema))

/-- The function `getSchemaHashesForDynamicSchemas`. `Connections` is the method
`ConnectionStateMap.Connections`; the result is `none` on a nil dereference and an
`Except.error` when `CreateConnectionPlugins` returns an error. -/
def getSchemaHashesForDynamicSchemas (GetMD5Hash : String → String)
    (Connections : Heap → ConnectionStateMap → List Connection)
    (CreateConnectionPlugins : List Connection → GoMap ConnectionPlugin × RefreshConnectionResult)
    (heap : Heap) (requiredConnectionData connectionState : ConnectionStateMap) :
    Option (Except String (GoMap String × GoMap ConnectionPlugin)) :=
  let selected := connectionsWithDynamicSchema heap connectionState requiredConnectionData []
  let created := CreateConnectionPlugins (Connections heap selected)
  match created.2.Error with
  | some err => some (Except.error err)
  | none =>
    match schemaHashMap GetMD5Hash created.1 [] with
    | none => none
    | some hashMap => some (Except.ok (hashMap, created.1))

/-! ## The diff stage of `NewConnectionUpdates` (lines 93-140) -/

/-- The condition of lines 99-101: the name is forced, or has no entry in the current
state, or its current entry is not `Equals` to its required entry. The operator `||` of
Go does not evaluate `Equals` when there is no current entry. -/
def outOfDate (Equals : ConnectionState → ConnectionState → Bool)
    (forceUpdateConnectionNames : List String) (currentConnectionState : ConnectionStateMap)
    (heap : Heap) (entry : String × Ptr) : Bool :=
  StringSliceContains forceUpdateConnectionNames entry.1 ||
    match currentConnectionState.get? entry.1 with
    | none => true
    | some currentConnectionData => !(Equals (heap currentConnectionData) (heap entry.2))

/-- The body of the loop of lines 95-108, for one entry of the required state. -/
def identifyUpdate (Equals : ConnectionState → ConnectionState → Bool)
    (forceUpdateConnectionNames : List String) (currentConnectionState : ConnectionStateMap)
    (modTime : Nat) (acc : ConnectionStateMap × Heap) (entry : String × Ptr) :
    ConnectionStateMap × Heap :=
  let name := entry.1
  let requiredConnectionData := entry.2
  if outOfDate Equals forceUpdateConnectionNames currentConnectionState acc.2 entry then
    (acc.1.set name requiredConnectionData,
      acc.2.set requiredConnectionData
        { acc.2 requiredConnectionData with ConnectionModTime := modTime })
  else acc

/-- The body of the loop of lines 112-117, for one entry of the current state. -/
def identifyDelete (requiredConnectionState : ConnectionStateMap) (del : GoMap Unit)
    (entry : String × Ptr) : GoMap Unit :=
  match requiredConnectionState.get? entry.1 with
  | none => del.set entry.1 ()
  | some _ => del

/-- The body of the loop of lines 121-128, for one foreign schema name. -/
def identifyForeignDelete (requiredConnectionState currentConnectionState : ConnectionStateMap)
    (del : GoMap Unit) (name : String) : GoMap Unit :=
  let existsInCurrentState := (currentConnectionState.get? name).isSome
  let existsInRequiredState := (requiredConnectionState.get? name).isSome
  if !existsInCurrentState && !existsInRequiredState then del.set name () else del

/-- The body of the loop of lines 133-140, for one entry of the dynamic schema hash map. -/
def identifyDynamicUpdate (heap : Heap) (currentConnectionState : ConnectionStateMap)
    (upd : ConnectionStateMap) (entry : String × String) : ConnectionStateMap :=
  match currentConnectionState.get? entry.1 with
  | some connectionData =>
    if (heap connectionData).SchemaHash ≠ entry.2 then upd.set entry.1 connectionData else upd
  | none => upd

/-- The diff stage of `NewConnectionUpdates`: the value built at lines 71-79 and the four
loops of lines 93-140, run on the heap `heap`. -/
def diffStage (Equals : ConnectionState → ConnectionState → Bool)
    (requiredConnectionState currentConnectionState : ConnectionStateMap)
    (missingPlugins : GoMap (List Connection))
    (forceUpdateConnectionNames : List String) (dynamicSchemaHashMap : GoMap String)
    (foreignSchemaNames : List String) (modTime : Nat) (heap : Heap) :
    ConnectionUpdates × Heap :=
  let updated := requiredConnectionState.foldl
    (identifyUpdate Equals forceUpdateConnectionNames currentConnectionState modTime) ([], heap)
  let del1 := currentConnectionState.foldl (identifyDelete requiredConnectionState) []
  let del2 := foreignSchemaNames.foldl
    (identifyForeignDelete requiredConnectionState currentConnectionState) del1
  let upd2 := dynamicSchemaHashMap.foldl
    (identifyDynamicUpdate updated.2 currentConnectionState) updated.1
  ({ Update := upd2
     Delete := del2
     MissingPlugins := missingPlugins
     FinalConnectionState := requiredConnectionState
     ConnectionPlugins := []
     CurrentConnectionState := currentConnectionState }, updated.2)

/-! ## Plugin loading (`populateConnectionPlugins`, `getConnectionsToCreate`, `setError`) -/

/-- The inner loop of `getConnectionsToCreate` (lines 219-221) over the children. -/
def addChildren (connectionMap : GoMap Connection) (children : List Connection) :
    GoMap Connection :=
  children.foldl (fun m child => m.set child.Name child) connectionMap

/-- The body of the loop of lines 215-222, for one connection of `Update`. -/
def addConnection (connectionMap : GoMap Connection) (connection : Connection) :
    GoMap Connection :=
  addChildren (connectionMap.set connection.Name connection) connection.Connections

/-- The function `getConnectionsToCreate` (lines 211-238); `Connections` is the method
`ConnectionStateMap.Connections`. The result holds the values of `connectionMap` in the
iteration order of this model. -/
def getConnectionsToCreate (Connections : Heap → ConnectionStateMap → List Connection)
    (heap : Heap) (u : ConnectionUpdates)
    (alreadyCreatedConnectionPlugins : GoMap ConnectionPlugin) : List Connection :=
  let updateConnections := Connections heap u.Update
  let connectionMap := updateConnections.foldl addConnection []
  let remaining := alreadyCreatedConnectionPlugins.foldl
    (fun m entry => m.delete entry.1) connectionMap
  remaining.map Prod.snd

/-- The method `setError` (lines 264-273). -/
def setError (acc : ConnectionUpdates × Heap) (connectionName : String) (error : String) :
    ConnectionUpdates × Heap :=
  match acc.1.FinalConnectionState.get? connectionName with
  | none => acc
  | some failedConnection =>
    let heap1 := acc.2.set failedConnection
      { acc.2 failedConnection with State := ConnectionStateError }
    let heap2 := heap1.set failedConnection ((heap1 failedConnection).SetError error)
    ({ acc.1 with Update := acc.1.Update.delete connectionName }, heap2)

/-- The method `populateConnectionPlugins` (lines 184-209). -/
def populateConnectionPlugins
    (Connections : Heap → ConnectionStateMap → List Connection)
    (CreateConnectionPlugins : List Connection → GoMap ConnectionPlugin × RefreshConnectionResult)
    (acc : ConnectionUpdates × Heap) (alreadyCreatedConnectionPlugins : GoMap ConnectionPlugin) :
    (ConnectionUpdates × Heap) × RefreshConnectionResult :=
  let connectionsToCreate :=
    getConnectionsToCreate Connections acc.2 acc.1 alreadyCreatedConnectionPlugins
  let created := CreateConnectionPlugins connectionsToCreate
  let failed := created.2.FailedConnections.foldl
    (fun a entry => setError a entry.1 entry.2) acc
  match created.2.Error with
  | some _ => (failed, created.2)
  | none =>
    let connectionPlugins := alreadyCreatedConnectionPlugins.foldl
      (fun m entry => m.set entry.1 entry.2) created.1
    (({ failed.1 with ConnectionPlugins := connectionPlugins }, failed.2), created.2)

/-! ## The final merge (`updateRequiredStateWithSchemaProperties`, lines 158-182) -/

/-- The body of the loop of lines 160-181, for one entry `(k, v)` of
`FinalConnectionState`; `none` is the nil dereference of
`connectionPlugin.ConnectionMap[k].Schema` when the plugin does not serve `k`. -/
def updateSchemaProperties (GetMD5Hash : String → String) (u : ConnectionUpdates)
    (dynamicSchemaHashMap : GoMap String) (heap : Heap) (entry : String × Ptr) : Option Heap :=
  let k := entry.1
  let v := entry.2
  let heap1 : Heap :=
    match u.CurrentConnectionState.get? k with
    | some currentConectionState =>
      let h := heap.set v { heap v with SchemaHash := (heap currentConectionState).SchemaHash }
      h.set v { h v with SchemaMode := (h currentConectionState).SchemaMode }
    | none => heap
  let heap2 : Heap :=
    match dynamicSchemaHashMap.get? k with
    | some schemaHash => heap1.set v { heap1 v with SchemaHash := schemaHash }
    | none => heap1
  match u.ConnectionPlugins.get? k with
  | some connectionPlugin =>
    match connectionPlugin.ConnectionMap.get? k with
    | none => none
    | some d =>
      let heap3 := heap2.set v { heap2 v with SchemaMode := d.Schema.Mode }
      if (heap3 v).SchemaMode = SchemaModeDynamic ∧ (heap3 v).SchemaHash = "" then
        some (heap3.set v { heap3 v with SchemaHash := pluginSchemaHash GetMD5Hash d.Schema })
      else some heap3
  | none => some heap2

/-- The loop of `updateRequiredStateWithSchemaProperties` over the entries `entries`. -/
def updateSchemaPropertiesLoop (GetMD5Hash : String → String) (u : ConnectionUpdates)
    (dynamicSchemaHashMap : GoMap String) : List (String × Ptr) → Heap → Option Heap
  | [], heap => some heap
  | entry :: rest, heap =>
    match updateSchemaProperties GetMD5Hash u dynamicSchemaHashMap heap entry with
    | none => none
    | some heap1 => updateSchemaPropertiesLoop GetMD5Hash u dynamicSchemaHashMap rest heap1

/-- The method `updateRequiredStateWithSchemaProperties`. -/
def updateRequiredStateWithSchemaProperties (GetMD5Hash : String → String)
    (u : ConnectionUpdates) (dynamicSchemaHashMap : GoMap String) (heap : Heap) : Option Heap :=
  updateSchemaPropertiesLoop GetMD5Hash u dynamicSchemaHashMap u.FinalConnectionState heap

/-! ## The orchestrator (`NewConnectionUpdates`, lines 34-154) -/

/-- What the collaborators of `NewConnectionUpdates` return in one run: the error of
`pool.Acquire`, the results of `LoadForeignSchemaNames`, `LoadConnectionState` and
`NewConnectionStateMap`, and the time `time.Now()`. -/
structure Loaded where
  acquireError : Option String
  foreignSchemaNames : Except String (List String)
  currentConnectionState : Except String ConnectionStateMap
  requiredConnectionState : Except String (ConnectionStateMap × GoMap (List Connection))
  modTime : Nat

/-- The result of `NewConnectionUpdates`: the two returned values and the heap. -/
structure Outcome where
  updates : Option ConnectionUpdates
  res : RefreshConnectionResult
  heap : Heap

/-- The function `NewConnectionUpdates`. `probePlugins` and `loadPlugins` are the two
calls of `CreateConnectionPlugins` (in `getSchemaHashesForDynamicSchemas` and in
`populateConnectionPlugins`); the result is `none` on a nil dereference. -/
def NewConnectionUpdates (Equals : ConnectionState → ConnectionState → Bool)
    (GetMD5Hash : String → String)
    (Connections : Heap → ConnectionStateMap → List Connection)
    (probePlugins loadPlugins : List Connection → GoMap ConnectionPlugin × RefreshConnectionResult)
    (loaded : Loaded) (heap : Heap) (forceUpdateConnectionNames : List String) :
    Option Outcome :=
  match loaded.acquireError with
  | some err => some ⟨none, NewErrorRefreshConnectionResult err, heap⟩
  | none =>
  match loaded.foreignSchemaNames with
  | Except.error err => some ⟨none, NewErrorRefreshConnectionResult err, heap⟩
  | Except.ok foreignSchemaNames =>
  match loaded.currentConnectionState with
  | Except.error err => some ⟨none, NewErrorRefreshConnectionResult err, heap⟩
  | Except.ok currentConnectionState =>
  match loaded.requiredConnectionState with
  | Except.error err => some ⟨none, NewErrorRefreshConnectionResult err, heap⟩
  | Except.ok (requiredConnectionState, missingPlugins) =>
  match getSchemaHashesForDynamicSchemas GetMD5Hash Connections probePlugins heap
      requiredConnectionState currentConnectionState with
  | none => none
  | some (Except.error err) => some ⟨none, NewErrorRefreshConnectionResult err, heap⟩
  | some (Except.ok (dynamicSchemaHashMap, connectionsPluginsWithDynamicSchema)) =>
    let diffed := diffStage Equals requiredConnectionState currentConnectionState missingPlugins
      forceUpdateConnectionNames dynamicSchemaHashMap foreignSchemaNames loaded.modTime heap
    let populated := populateConnectionPlugins Connections loadPlugins diffed
      connectionsPluginsWithDynamicSchema
    match populated.2.Error with
    | some _ => some ⟨none, populated.2, populated.1.2⟩
    | none =>
      match updateRequiredStateWithSchemaProperties GetMD5Hash populated.1.1
          dynamicSchemaHashMap populated.1.2 with
      | none => none
      | some heap1 =>
        some ⟨some populated.1.1, { populated.2 with Updates := some populated.1.1 }, heap1⟩

/-! ## Predicates and data used in the statements -/

/-- The heap `h2` differs from `h1` at most in the field `ConnectionModTime` of its
objects. -/
def Heap.SameUpToModTime (h1 h2 : Heap) : Prop :=
  ∀ p, ∃ t, h2 p = { h1 p with ConnectionModTime := t }

/-- The comparison `Equals` does not read the field `ConnectionModTime`. -/
def IgnoresModTime (Equals : ConnectionState → ConnectionState → Bool) : Prop :=
  ∀ a b t, Equals { a with ConnectionModTime := t } b = Equals a b ∧
    Equals a { b with ConnectionModTime := t } = Equals a b

/-- Modelled from the spec: the method `ConnectionState.Equals`, which is not in the
sources at hand; equality is structural on all fields except the timestamp. -/
def ConnectionState.Equals (d other : ConnectionState) : Bool :=
  decide ({ d with ConnectionModTime := 0 } = { other with ConnectionModTime := 0 })

/-- A connection state in health `ready`, without error. -/
def sampleState (name plugin mode hash : String) (modTime : Nat) : ConnectionState :=
  { ConnectionName := name, Type_ := "", Plugin := plugin, State := "ready",
    ConnectionError := none, SchemaMode := mode, SchemaHash := hash,
    ConnectionModTime := modTime }

/-- A heap with two objects for a connection `d` of mode `dynamic` whose configuration
has not changed: at address 1 the required state, at address 2 the current state, both
with the stored hash `old`. -/
def driftHeap : Heap := fun p =>
  if p = 1 then sampleState "d" "chaos" "dynamic" "old" 5
  else sampleState "d" "chaos" "dynamic" "old" 3

/-- A heap with two objects for a connection `d` of mode `dynamic` whose plugin has
changed: at address 1 the required state (plugin `chaos2`), at address 2 the current
state (plugin `chaos`), both with the stored hash `old`. -/
def changedHeap : Heap := fun p =>
  if p = 1 then sampleState "d" "chaos2" "dynamic" "old" 5
  else sampleState "d" "chaos" "dynamic" "old" 3

/-- The heap of the scenario "A unchanged, B new": at address 1 the required state of
`A`, at address 2 its current state (mode `static`, hash `h1`), at address 3 the required
state of the new connection `B`, whose mode and hash are not known yet. -/
def scenarioHeap : Heap := fun p =>
  if p = 1 then sampleState "A" "chaos" "static" "h1" 5
  else if p = 2 then sampleState "A" "chaos" "static" "h1" 5
  else sampleState "B" "chaos" "" "" 0

/-- A stand-in for `ConnectionStateMap.Connections`: one connection without children for
each name of the map. -/
def sampleConnections (_heap : Heap) (m : ConnectionStateMap) : List Connection :=
  m.map (fun e => { Name := e.1, Type_ := "", Connections := [] })

/-- A stand-in for `CreateConnectionPlugins`: every connection asked for gets a plugin
that serves it with an empty schema of mode `static`, and nothing fails. -/
def samplePlugins (connections : List Connection) :
    GoMap ConnectionPlugin × RefreshConnectionResult :=
  (connections.map (fun c =>
      (c.Name, { PluginName := "chaos",
                 ConnectionMap := [(c.Name, { Schema := { Schema := [], Mode := "static",
                                                          ProtocolVersion := 0 } })] })),
    { Error := none, FailedConnections := [], Updates := none })

/-- A schema with the tables `accounts` and `users`, enumerated in this order. -/
def schemaAccountsUsers : Schema :=
  { Schema := [("accounts", { Columns := [{ Name := "id", Type_ := 1 }] }),
               ("users", { Columns := [{ Name := "name", Type_ := 2 },
                                       { Name := "age", Type_ := 1 }] })],
    Mode := "dynamic", ProtocolVersion := 0 }

/-- The schema `schemaAccountsUsers` with its tables enumerated in the other order. -/
def schemaUsersAccounts : Schema :=
  { Schema := [("users", { Columns := [{ Name := "name", Type_ := 2 },
                                       { Name := "age", Type_ := 1 }] }),
               ("accounts", { Columns := [{ Name := "id", Type_ := 1 }] })],
    Mode := "dynamic", ProtocolVersion := 0 }

/-- The number that the decimal digits `l` stand for when read after the digits of
`acc`. -/
def digitsValue (acc : Nat) (l : List Char) : Nat :=
  l.foldl (fun a c => 10 * a + (c.toNat - 48)) acc

/-- The integer that a decimal numeral with an optional leading minus sign stands for. -/
def decimalValue (l : List Char) : Int :=
  match l with
  | [] => 0
  | c :: rest => if c = '-' then -((digitsValue 0 rest : Nat) : Int) else digitsValue 0 (c :: rest)

/-- A schema with one table `a` whose column is `bc`. -/
def schemaTableA : Schema :=
  { Schema := [("a", { Columns := [{ Name := "bc", Type_ := 1 }] })],
    Mode := "dynamic", ProtocolVersion := 0 }

/-- A schema with one table `ab` whose column is `c`. -/
def schemaTableAB : Schema :=
  { Schema := [("ab", { Columns := [{ Name := "c", Type_ := 1 }] })],
    Mode := "dynamic", ProtocolVersion := 0 }

/-- A schema with one table `t` whose columns `x` and `1` have the type codes 1 and 11. -/
def schemaTypes1 : Schema :=
  { Schema := [("t", { Columns := [{ Name := "x", Type_ := 1 }, { Name := "1", Type_ := 11 }] })],
    Mode := "dynamic", ProtocolVersion := 0 }

/-- The schema `schemaTypes1` with the type codes 11 and 1. -/
def schemaTypes2 : Schema :=
  { Schema := [("t", { Columns := [{ Name := "x", Type_ := 11 }, { Name := "1", Type_ := 1 }] })],
    Mode := "dynamic", ProtocolVersion := 0 }

/-- The schema `schemaAccountsUsers` with the type code of the column `age` of the table
`users` changed from 1 to 3. -/
def schemaAgeChanged : Schema :=
  { Schema := [("accounts", { Columns := [{ Name := "id", Type_ := 1 }] }),
               ("users", { Columns := [{ Name := "name", Type_ := 2 },
                                       { Name := "age", Type_ := 3 }] })],
    Mode := "dynamic", ProtocolVersion := 0 }

/-- A schema with the two tables `a` and `b`, without columns. -/
def schemaTablesAB : Schema :=
  { Schema := [("a", { Columns := [] }), ("b", { Columns := [] })],
    Mode := "dynamic", ProtocolVersion := 0 }

/-- A schema with the single table `ab`, without columns. -/
def schemaTableABEmpty : Schema :=
  { Schema := [("ab", { Columns := [] })], Mode := "dynamic", ProtocolVersion := 0 }

/-- The columns `cols2` are the columns `cols1` with one column changed, either in its
name and not in its type code, or in its type code and not in its name. -/
def OneColumnChanged (cols1 cols2 : List ColumnDefinition) : Prop :=
  ∃ cpre cpost n1 n2 ty1 ty2,
    cols1 = cpre ++ { Name := n1, Type_ := ty1 } :: cpost ∧
    cols2 = cpre ++ { Name := n2, Type_ := ty2 } :: cpost ∧
    ((n1 = n2 ∧ ty1 ≠ ty2) ∨ (n1 ≠ n2 ∧ ty1 = ty2))

/-- The columns `cols2` are the columns `cols1` with one column more. -/
def OneColumnAdded (cols1 cols2 : List ColumnDefinition) : Prop :=
  ∃ cpre c cpost, cols1 = cpre ++ cpost ∧ cols2 = cpre ++ c :: cpost

/-- The schema `s2` is the schema `s1` after a single change: one column of one table
changed in its name or in its type code, one column added to one table, or one table
added whose name is not empty or that has a column. -/
def SingleChange (s1 s2 : Schema) : Prop :=
  (∃ pre post t cols1 cols2,
    s1.Schema = pre ++ (t, { Columns := cols1 }) :: post ∧
    s2.Schema = pre ++ (t, { Columns := cols2 }) :: post ∧
    (OneColumnChanged cols1 cols2 ∨ OneColumnAdded cols1 cols2)) ∨
  (∃ pre post t tableSchema,
    s1.Schema = pre ++ post ∧ s2.Schema = pre ++ (t, tableSchema) :: post ∧
    (t ≠ "" ∨ tableSchema.Columns ≠ []))

/-- A schema with one table `t` whose columns `1` and `11` have the type codes 1 and
11. -/
def schemaOrder1 : Schema :=
  { Schema := [("t", { Columns := [{ Name := "1", Type_ := 1 }, { Name := "11", Type_ := 11 }] })],
    Mode := "dynamic", ProtocolVersion := 0 }

/-- The schema `schemaOrder1` with its two columns in the other order. -/
def schemaOrder2 : Schema :=
  { Schema := [("t", { Columns := [{ Name := "11", Type_ := 11 }, { Name := "1", Type_ := 1 }] })],
    Mode := "dynamic", ProtocolVersion := 0 }

/-- A schema with the two tables `ab` and `aba`, without columns. -/
def schemaRename1 : Schema :=
  { Schema := [("ab", { Columns := [] }), ("aba", { Columns := [] })],
    Mode := "dynamic", ProtocolVersion := 0 }

/-- The schema `schemaRename1` with the table `ab` renamed to `ba`. -/
def schemaRename2 : Schema :=
  { Schema := [("ba", { Columns := [] }), ("aba", { Columns := [] })],
    Mode := "dynamic", ProtocolVersion := 0 }

/-- A schema with one table `t` whose column `c1` has the type code 2. -/
def schemaColumn1 : Schema :=
  { Schema := [("t", { Columns := [{ Name := "c1", Type_ := 2 }] })],
    Mode := "dynamic", ProtocolVersion := 0 }

/-- The schema `schemaColumn1` with the column renamed to `c` and its type code changed
to 12. -/
def schemaColumn2 : Schema :=
  { Schema := [("t", { Columns := [{ Name := "c", Type_ := 12 }] })],
    Mode := "dynamic", ProtocolVersion := 0 }

/-- The schema `schemaAccountsUsers` with the column `age` of the table `users` renamed
to `years`. -/
def schemaAgeRenamed : Schema :=
  { Schema := [("accounts", { Columns := [{ Name := "id", Type_ := 1 }] }),
               ("users", { Columns := [{ Name := "name", Type_ := 2 },
                                       { Name := "years", Type_ := 1 }] })],
    Mode := "dynamic", ProtocolVersion := 0 }

/-- The schema `schemaAccountsUsers` with the column `email` added to the table
`users`. -/
def schemaEmailAdded : Schema :=
  { Schema := [("accounts", { Columns := [{ Name := "id", Type_ := 1 }] }),
               ("users", { Columns := [{ Name := "name", Type_ := 2 },
                                       { Name := "email", Type_ := 2 },
                                       { Name := "age", Type_ := 1 }] })],
    Mode := "dynamic", ProtocolVersion := 0 }

/-- The schema `schemaAccountsUsers` with the table `orders` added. -/
def schemaOrdersAdded : Schema :=
  { Schema := [("accounts", { Columns := [{ Name := "id", Type_ := 1 }] }),
               ("orders", { Columns := [] }),
               ("users", { Columns := [{ Name := "name", Type_ := 2 },
                                       { Name := "age", Type_ := 1 }] })],
    Mode := "dynamic", ProtocolVersion := 0 }

/-- A heap for a connection `legacy` whose plugin never reported a schema mode: at
address 1 the required state, at address 2 the current state, both with the empty mode. -/
def legacyHeap : Heap := fun p =>
  if p = 1 then sampleState "legacy" "old_sdk" "" "" 5
  else sampleState "legacy" "old_sdk" "" "h0" 5

/-- A connection without children. -/
def standalone (name : String) : Connection :=
  { Name := name, Type_ := "", Connections := [] }

/-- The aggregator `agg` of `aggregatorConfig`. -/
def aggregatorAgg : Connection :=
  { Name := "agg", Type_ := "aggregator", Connections := [standalone "c1", standalone "c2"] }

/-- A configuration with the aggregator `agg`, whose children are `c1` and `c2`. -/
def aggregatorConfig : GoMap Connection :=
  [("agg", aggregatorAgg), ("c1", standalone "c1"), ("c2", standalone "c2")]

/-- A stand-in for `ConnectionStateMap.Connections`: the connections that the
configuration `config` holds for the names of the map. -/
def configConnections (config : GoMap Connection) (_heap : Heap) (m : ConnectionStateMap) :
    List Connection :=
  m.filterMap (fun e => config.get? e.1)

/-- A `ConnectionUpdates` value whose Update is `update`, the other fields empty. -/
def updatesOf (update : ConnectionStateMap) : ConnectionUpdates :=
  { Update := update, Delete := [], MissingPlugins := [], FinalConnectionState := update,
    ConnectionPlugins := [], CurrentConnectionState := [] }

/-- The names of a list of connections. -/
def connectionNames (l : List Connection) : List String := l.map (fun c => c.Name)

/-- Every value of the map is stored under its own name, and no key occurs twice. -/
def KeyedByName (m : GoMap Connection) : Prop :=
  (GoMap.keys m).Nodup ∧ ∀ e ∈ m, e.2.Name = e.1

/-- A stand-in for `CreateConnectionPlugins`: no plugin is created and the connection
`name` is reported in `FailedConnections` with the reason `reason`. -/
def failingPlugins (name reason : String) (_connections : List Connection) :
    GoMap ConnectionPlugin × RefreshConnectionResult :=
  ([], { Error := none, FailedConnections := [(name, reason)], Updates := none })

/-- A `ConnectionUpdates` value with the Update `update` and the FinalConnectionState
`final`, the other fields empty. -/
def updatesWith (update final : ConnectionStateMap) : ConnectionUpdates :=
  { Update := update, Delete := [], MissingPlugins := [], FinalConnectionState := final,
    ConnectionPlugins := [], CurrentConnectionState := [] }

/-! ## Plugin validation (connection_validation.go) -/

/-- The type `ValidationFailure` (connection_validation.go, lines 14-19). -/
structure ValidationFailure where
  Plugin : String
  ConnectionName : String
  Message : String
  ShouldDropIfExists : Bool
deriving DecidableEq

/-- Modelled from the spec: the constant `modconfig.ConnectionTypeAggregator`
(connection type is `standalone` | `aggregator`). -/
def ConnectionTypeAggregator : String := "aggregator"

/-- Modelled from the spec: the method `ConnectionState.GetType`, which is not in the
sources at hand; it returns the connection type of the state. -/
def ConnectionState.GetType (d : ConnectionState) : String := d.Type_

/-- Modelled from the spec: the method `ConnectionPlugin.IncludesConnection`, which is not
in the sources at hand; the plugin serves the connection, that is, holds data for it. -/
def ConnectionPlugin.IncludesConnection (p : ConnectionPlugin) (name : String) : Bool :=
  (p.ConnectionMap.get? name).isSome

/-- The function `validateConnectionName` (lines 105-117); `ReservedConnectionNames` is
the list `constants.ReservedConnectionNames`. -/
def validateConnectionName (ReservedConnectionNames : List String) (connectionName : String)
    (p : ConnectionPlugin) : Option ValidationFailure :=
  if StringSliceContains ReservedConnectionNames connectionName then
    some { Plugin := p.PluginName
           ConnectionName := connectionName
           Message := "Connection name cannot be one of " ++
             String.intercalate "," ReservedConnectionNames
           ShouldDropIfExists := false }
  else none

/-- The function `validateProtocolVersion` (lines 119-139); `ProtocolVersion` is the
constant `sdkversion.ProtocolVersion`. The result is `none` on the nil dereference of
`p.ConnectionMap[connectionName].Schema` when `p` does not serve the connection, and
`some none` when the function returns nil. -/
def validateProtocolVersion (ProtocolVersion : Int) (connectionName : String)
    (p : ConnectionPlugin) : Option (Option ValidationFailure) :=
  match p.ConnectionMap.get? connectionName with
  | none => none
  | some d =>
    let pluginProtocolVersion := d.Schema.ProtocolVersion
    if pluginProtocolVersion = 0 then some none
    else
      let steampipeProtocolVersion := ProtocolVersion
      if steampipeProtocolVersion < pluginProtocolVersion then
        some (some { Plugin := p.PluginName
                     ConnectionName := connectionName
                     Message :=
                       "Incompatible steampipe-plugin-sdk version. Please upgrade Steampipe."
                     ShouldDropIfExists := true })
      else some none

/-- The three values that `ValidatePlugins` builds and returns. -/
structure Validation where
  validationFailures : List ValidationFailure
  validatedUpdates : ConnectionStateMap
  validatedPlugins : GoMap ConnectionPlugin

/-- The body of the first loop of `ValidatePlugins` (lines 35-50), for one entry of
`plugins`. -/
def validatePlugin (ProtocolVersion : Int) (ReservedConnectionNames : List String)
    (updates : ConnectionStateMap) (acc : Validation) (entry : String × ConnectionPlugin) :
    Option Validation :=
  match validateProtocolVersion ProtocolVersion entry.1 entry.2 with
  | none => none
  | some (some validationFailure) =>
    some { acc with validationFailures := acc.validationFailures ++ [validationFailure] }
  | some none =>
    match validateConnectionName ReservedConnectionNames entry.1 entry.2 with
    | some validationFailure =>
      some { acc with validationFailures := acc.validationFailures ++ [validationFailure] }
    | none =>
      some { acc with
        validatedPlugins := acc.validatedPlugins.set entry.1 entry.2
        validatedUpdates :=
          match updates.get? entry.1 with
          | some connectionState => acc.validatedUpdates.set entry.1 connectionState
          | none => acc.validatedUpdates }

/-- The first loop of `ValidatePlugins` over the entries of `plugins`. -/
def validatePluginsLoop (ProtocolVersion : Int) (ReservedConnectionNames : List String)
    (updates : ConnectionStateMap) :
    List (String × ConnectionPlugin) → Validation → Option Validation
  | [], acc => some acc
  | entry :: rest, acc =>
    match validatePlugin ProtocolVersion ReservedConnectionNames updates acc entry with
    | none => none
    | some acc1 =>
      validatePluginsLoop ProtocolVersion ReservedConnectionNames updates rest acc1

/-- The loop of lines 60-64 over the validated plugins, for the aggregator `name` with the
state `connectionState` and the child `childName` that the `range` of line 58 yields. -/
def includeAggregator (name : String) (connectionState : Ptr) (childName : String)
    (validatedPlugins : GoMap ConnectionPlugin) (validatedUpdates : ConnectionStateMap) :
    ConnectionStateMap :=
  validatedPlugins.foldl
    (fun vu entry =>
      if entry.2.IncludesConnection childName then vu.set name connectionState else vu)
    validatedUpdates

/-- The child that the statement `for _, childConnection := range connection.Connections`
of line 58 yields first, for the connection `name` with the children `children`. When the
children are a Go map the order of a `range` is not fixed and changes from one call to the
next, so the child is given by `firstYielded name`, the position among the children of
the child that this call yields first; a slice is the case of the position 0. There is no
child when there are no children. -/
def rangeFirst (firstYielded : String → Nat) (name : String) (children : List Connection) :
    Option Connection :=
  children[firstYielded name % children.length]?

/-- The body of the second loop of `ValidatePlugins` (lines 53-70), for one entry of
`updates`; `GlobalConfigConnections` is the map `GlobalConfig.Connections`, and
`firstYielded` tells which child the `range` of line 58 yields before the `break` of
line 66. The result is `none` on the nil dereference of `connection.Connections` when the
configuration has no connection of that name. -/
def validateAggregator (GlobalConfigConnections : GoMap Connection)
    (firstYielded : String → Nat) (heap : Heap)
    (acc : Validation) (entry : String × Ptr) : Option Validation :=
  if (heap entry.2).GetType = ConnectionTypeAggregator then
    match GlobalConfigConnections.get? entry.1 with
    | none => none
    | some connection =>
      match rangeFirst firstYielded entry.1 connection.Connections with
      | none => some acc
      | some childConnection =>
        some { acc with
          validatedUpdates := includeAggregator entry.1 entry.2 childConnection.Name
            acc.validatedPlugins acc.validatedUpdates }
  else some acc

/-- The second loop of `ValidatePlugins` over the entries of `updates`. -/
def validateAggregatorsLoop (GlobalConfigConnections : GoMap Connection)
    (firstYielded : String → Nat) (heap : Heap) :
    List (String × Ptr) → Validation → Option Validation
  | [], acc => some acc
  | entry :: rest, acc =>
    match validateAggregator GlobalConfigConnections firstYielded heap acc entry with
    | none => none
    | some acc1 => validateAggregatorsLoop GlobalConfigConnections firstYielded heap rest acc1

/-- The function `ValidatePlugins` (lines 30-73); the result is `none` on a nil
dereference. `firstYielded` tells, for each aggregator, which of its children the `range`
of line 58 yields first in this call. -/
def ValidatePlugins (ProtocolVersion : Int) (ReservedConnectionNames : List String)
    (GlobalConfigConnections : GoMap Connection) (firstYielded : String → Nat) (heap : Heap)
    (updates : ConnectionStateMap) (plugins : GoMap ConnectionPlugin) : Option Validation :=
  match validatePluginsLoop ProtocolVersion ReservedConnectionNames updates plugins
      { validationFailures := [], validatedUpdates := [], validatedPlugins := [] } with
  | none => none
  | some acc => validateAggregatorsLoop GlobalConfigConnections firstYielded heap updates acc

/-- The `range` yields the children in the order of the list: the child at position 0
first. -/
def inListOrder : String → Nat := fun _ => 0

/-- The `range` yields the child at position 1 first. -/
def secondChildFirst : String → Nat := fun _ => 1

/-- A plugin `chaos` that serves the connections `names`, each with an empty schema of
mode `static` and the protocol version `version`. -/
def pluginServing (names : List String) (version : Int) : ConnectionPlugin :=
  { PluginName := "chaos",
    ConnectionMap := names.map (fun n =>
      (n, { Schema := { Schema := [], Mode := "static", ProtocolVersion := version } })) }

/-- The entry `name`, `p` of `plugins` passes both checks of the first loop of
`ValidatePlugins`: the protocol version check and the reserved name check. -/
def PassesValidation (ProtocolVersion : Int) (ReservedConnectionNames : List String)
    (name : String) (p : ConnectionPlugin) : Prop :=
  validateProtocolVersion ProtocolVersion name p = some none ∧
    validateConnectionName ReservedConnectionNames name p = none

instance PassesValidation.decidable (ProtocolVersion : Int)
    (ReservedConnectionNames : List String) (name : String) (p : ConnectionPlugin) :
    Decidable (PassesValidation ProtocolVersion ReservedConnectionNames name p) :=
  inferInstanceAs (Decidable (_ ∧ _))

/-- The names of the connections that a list of validation failures is about. -/
def failureNames (l : List ValidationFailure) : List String :=
  l.map (fun f => f.ConnectionName)

/-- A heap whose objects are all states of an aggregator connection `agg`. -/
def aggregatorHeap : Heap := fun _ =>
  { ConnectionName := "agg", Type_ := "aggregator", Plugin := "chaos", State := "ready",
    ConnectionError := none, SchemaMode := "static", SchemaHash := "", ConnectionModTime := 0 }

/-- A configuration with the aggregator `agg`, whose children are `public` and `c2`. -/
def reservedChildConfig : GoMap Connection :=
  [("agg", { Name := "agg", Type_ := "aggregator",
             Connections := [standalone "public", standalone "c2"] }),
   ("public", standalone "public"), ("c2", standalone "c2")]

/-- Some validated plugin includes the child of the connection `name` that the `range`
over its children yields first. -/
def YieldedChildValidated (GlobalConfigConnections : GoMap Connection)
    (firstYielded : String → Nat)
    (validatedPlugins : GoMap ConnectionPlugin) (name : String) : Prop :=
  ∃ connection child, GlobalConfigConnections.get? name = some connection ∧
    rangeFirst firstYielded name connection.Connections = some child ∧
    ∃ e ∈ validatedPlugins, e.2.IncludesConnection child.Name = true

/-- The map `updates` has an entry for `name` whose state is of type aggregator. -/
def IsAggregatorUpdate (heap : Heap) (updates : ConnectionStateMap) (name : String) : Prop :=
  ∃ st, (name, st) ∈ updates ∧ (heap st).GetType = ConnectionTypeAggregator

/-- The state that the body of the loop of `updateRequiredStateWithSchemaProperties`
leaves in the object of the connection `k`, as a function of the state `seed` the object
held before and of the state `current` that the current state map holds for `k`: the
three steps of lines 161-179 on values. It is `none` when the plugin loaded for `k` does
not serve `k`. -/
def mergeState (GetMD5Hash : String → String) (u : ConnectionUpdates)
    (dynamicSchemaHashMap : GoMap String) (k : String) (seed : ConnectionState)
    (current : Option ConnectionState) : Option ConnectionState :=
  let s1 : ConnectionState :=
    match current with
    | some c => { seed with SchemaHash := c.SchemaHash, SchemaMode := c.SchemaMode }
    | none => seed
  let s2 : ConnectionState :=
    match dynamicSchemaHashMap.get? k with
    | some schemaHash => { s1 with SchemaHash := schemaHash }
    | none => s1
  match u.ConnectionPlugins.get? k with
  | some connectionPlugin =>
    match connectionPlugin.ConnectionMap.get? k with
    | none => none
    | some d =>
      if d.Schema.Mode = SchemaModeDynamic ∧ s2.SchemaHash = "" then
        some { s2 with SchemaMode := d.Schema.Mode,
                       SchemaHash := pluginSchemaHash GetMD5Hash d.Schema }
      else some { s2 with SchemaMode := d.Schema.Mode }
  | none => some s2

/-- The final state object `v` of the connection `k` is the object of no other connection:
FinalConnectionState has no duplicate key, and no other entry of it points to `v` or to
the object that the current state holds for `k`. -/
def DistinctObjects (u : ConnectionUpdates) (k : String) (v : Ptr) : Prop :=
  (GoMap.keys u.FinalConnectionState).Nodup ∧
    ∀ e ∈ u.FinalConnectionState, e.1 ≠ k →
      e.2 ≠ v ∧ u.CurrentConnectionState.get? k ≠ some e.2

instance DistinctObjects.decidable (u : ConnectionUpdates) (k : String) (v : Ptr) :
    Decidable (DistinctObjects u k v) :=
  inferInstanceAs (Decidable (_ ∧ _))

/-- Every plugin of `ConnectionPlugins` that is registered for a connection of
FinalConnectionState serves that connection. -/
def PluginsServe (u : ConnectionUpdates) : Prop :=
  ∀ e ∈ u.FinalConnectionState,
    (u.ConnectionPlugins.get? e.1).all (fun p => p.IncludesConnection e.1) = true

instance PluginsServe.decidable (u : ConnectionUpdates) : Decidable (PluginsServe u) :=
  List.decidableBAll _ _

/-- The schema that the plugin loaded for the connection `k` reports for `k`, if a
plugin is loaded for `k` and serves it. -/
def loadedSchema (u : ConnectionUpdates) (k : String) : Option Schema :=
  match u.ConnectionPlugins.get? k with
  | some p => (p.ConnectionMap.get? k).map (fun d => d.Schema)
  | none => none

/-- The hash carried for the connection `k` with the final state object `v`: the hash of
its current state, or the seeded hash of `v` when it has no current state. -/
def carriedHash (u : ConnectionUpdates) (heap : Heap) (k : String) (v : Ptr) : String :=
  match u.CurrentConnectionState.get? k with
  | some c => (heap c).SchemaHash
  | none => (heap v).SchemaHash

/-- The schema hash by the precedence of the final merge, in the words of the
specification: the hash of the dynamic probe if there is one; otherwise, if a plugin is
loaded that reports the dynamic mode and the carried hash is empty, the hash of the
schema of that plugin; otherwise the carried hash. -/
def precedenceHash (GetMD5Hash : String → String) (dynamicHash : Option String)
    (loaded : Option Schema) (carried : String) : String :=
  match dynamicHash with
  | some h => h
  | none =>
    match loaded with
    | some s =>
      if s.Mode = SchemaModeDynamic ∧ carried = "" then pluginSchemaHash GetMD5Hash s
      else carried
    | none => carried

/-- A stand-in for the digest: the input after a number sign, never the empty string. -/
def sampleDigest (s : String) : String := "#" ++ s

/-- A plugin `chaos` that serves the connection `name` with the schema
`schemaAccountsUsers` of mode `dynamic`. -/
def dynamicPlugin (name : String) : ConnectionPlugin :=
  { PluginName := "chaos", ConnectionMap := [(name, { Schema := schemaAccountsUsers })] }

/-- The `ConnectionUpdates` value of the scenario "A unchanged, B new" before the final
merge, with the plugin `plugin` loaded for `B`. -/
def scenarioUpdates (plugin : ConnectionPlugin) : ConnectionUpdates :=
  { Update := [("B", 3)], Delete := [("C", ())], MissingPlugins := [],
    FinalConnectionState := [("A", 1), ("B", 3)],
    ConnectionPlugins := [("B", plugin)],
    CurrentConnectionState := [("A", 2)] }

/-- A stand-in for `CreateConnectionPlugins`: the call fails as a whole, with the error
`plugin manager unavailable`. -/
def fatalPlugins (_connections : List Connection) :
    GoMap ConnectionPlugin × RefreshConnectionResult :=
  ([], { Error := some "plugin manager unavailable", FailedConnections := [],
         Updates := none })

/-- One of the four loads of `NewConnectionUpdates` fails: acquiring the session, loading
the foreign schema names, loading the connection state or building the required state. -/
def Loaded.Fails (loaded : Loaded) : Prop :=
  loaded.acquireError ≠ none ∨ (∃ err, loaded.foreignSchemaNames = Except.error err) ∨
    (∃ err, loaded.currentConnectionState = Except.error err) ∨
    (∃ err, loaded.requiredConnectionState = Except.error err)

/-- The call of `CreateConnectionPlugins` returns plugins only under names of connections
it was asked to load. -/
def ReturnsOnlyAsked
    (CreateConnectionPlugins : List Connection → GoMap ConnectionPlugin × RefreshConnectionResult) :
    Prop :=
  ∀ l, ∀ n ∈ GoMap.keys (CreateConnectionPlugins l).1, n ∈ connectionNames l

/-- The method `Connections` returns only connections named by keys of the map. -/
def NamesFromKeys (Connections : Heap → ConnectionStateMap → List Connection) : Prop :=
  ∀ heap m, ∀ n ∈ connectionNames (Connections heap m), n ∈ GoMap.keys m

/-! ## Lemmas on Go maps -/

namespace GoMap

variable {V : Type}

theorem keys_cons (e : String × V) (m : GoMap V) : keys (e :: m) = e.1 :: keys m := rfl

theorem mem_keys_iff (m : GoMap V) (k : String) : k ∈ keys m ↔ ∃ v, (k, v) ∈ m := by
  unfold keys
  constructor
  · intro h
    obtain ⟨e, he, hk⟩ := List.mem_map.1 h
    exact ⟨e.2, by rw [← hk]; exact he⟩
  · rintro ⟨v, hv⟩
    exact List.mem_map.2 ⟨(k, v), hv, rfl⟩

theorem get?_eq_none_iff (m : GoMap V) (k : String) : get? m k = none ↔ k ∉ keys m := by
  induction m with
  | nil => simp [get?, keys]
  | cons e rest ih =>
    obtain ⟨k', v⟩ := e
    by_cases h : k' = k
    · simp [get?, keys, h]
    · have h' : ¬ k = k' := fun h'' => h h''.symm
      simp only [get?, if_neg h, ih, keys_cons, List.mem_cons, not_or]
      exact ⟨fun hr => ⟨h', hr⟩, fun hr => hr.2⟩

theorem get?_isSome_iff (m : GoMap V) (k : String) : (get? m k).isSome = true ↔ k ∈ keys m := by
  cases hg : get? m k with
  | none => simpa using (get?_eq_none_iff m k).1 hg
  | some v =>
    have : ¬ k ∉ keys m := fun hn => by
      rw [(get?_eq_none_iff m k).2 hn] at hg
      cases hg
    simpa using this

theorem mem_of_get? {m : GoMap V} {k : String} {v : V} (h : get? m k = some v) : (k, v) ∈ m := by
  induction m with
  | nil => simp [get?] at h
  | cons e rest ih =>
    obtain ⟨k', v'⟩ := e
    by_cases hk : k' = k
    · simp only [get?, if_pos hk, Option.some.injEq] at h
      subst hk; subst h
      exact List.mem_cons_self _ _
    · simp only [get?, if_neg hk] at h
      exact List.mem_cons_of_mem _ (ih h)

theorem mem_keys_of_get? {m : GoMap V} {k : String} {v : V} (h : get? m k = some v) :
    k ∈ keys m :=
  (mem_keys_iff m k).2 ⟨v, mem_of_get? h⟩

theorem get?_of_mem {m : GoMap V} {k : String} {v : V} (hnd : (keys m).Nodup)
    (h : (k, v) ∈ m) : get? m k = some v := by
  induction m with
  | nil => cases h
  | cons e rest ih =>
    obtain ⟨k', v'⟩ := e
    rw [keys_cons, List.nodup_cons] at hnd
    rcases List.mem_cons.1 h with heq | hmem
    · cases heq
      simp [get?]
    · have hne : k' ≠ k := by
        intro hk
        subst hk
        exact hnd.1 ((mem_keys_iff rest k').2 ⟨v, hmem⟩)
      simp only [get?, if_neg hne]
      exact ih hnd.2 hmem

theorem mem_keys_delete (m : GoMap V) (k x : String) :
    x ∈ keys (delete m k) ↔ x ∈ keys m ∧ x ≠ k := by
  simp only [mem_keys_iff, delete, List.mem_filter, decide_eq_true_eq]
  constructor
  · rintro ⟨v, hv, hne⟩
    exact ⟨⟨v, hv⟩, hne⟩
  · rintro ⟨⟨v, hv⟩, hne⟩
    exact ⟨v, hv, hne⟩

theorem mem_keys_set (m : GoMap V) (k : String) (v : V) (x : String) :
    x ∈ keys (set m k v) ↔ x = k ∨ x ∈ keys m := by
  unfold set
  rw [keys_cons, List.mem_cons, mem_keys_delete]
  by_cases h : x = k
  · simp [h]
  · simp [h]

theorem nodup_keys_delete {m : GoMap V} (k : String) (h : (keys m).Nodup) :
    (keys (delete m k)).Nodup := by
  unfold keys delete
  exact (List.Nodup.sublist (List.Sublist.map _ (List.filter_sublist m)) h)

theorem nodup_keys_set {m : GoMap V} (k : String) (v : V) (h : (keys m).Nodup) :
    (keys (set m k v)).Nodup := by
  unfold set
  rw [keys_cons, List.nodup_cons]
  refine ⟨?_, nodup_keys_delete k h⟩
  intro hmem
  exact ((mem_keys_delete m k k).1 hmem).2 rfl

theorem get?_delete (m : GoMap V) (k x : String) :
    get? (delete m k) x = if x = k then none else get? m x := by
  induction m with
  | nil => simp [delete, get?]
  | cons e rest ih =>
    obtain ⟨k', v⟩ := e
    unfold delete at ih ⊢
    by_cases hk : k' = k
    · subst hk
      rw [List.filter_cons_of_neg (by simp), ih]
      by_cases hx : x = k'
      · simp [hx]
      · have hx' : ¬ k' = x := fun h => hx h.symm
        simp [get?, hx, hx']
    · rw [List.filter_cons_of_pos (by simpa using hk)]
      by_cases hx : k' = x
      · subst hx
        simp [get?, hk]
      · simp only [get?, if_neg hx, ih]

theorem get?_set (m : GoMap V) (k : String) (v : V) (x : String) :
    get? (set m k v) x = if x = k then some v else get? m x := by
  unfold set
  by_cases hx : x = k
  · subst hx
    simp [get?]
  · have hx' : ¬ k = x := fun h => hx h.symm
    simp only [get?, if_neg hx', get?_delete, if_neg hx]

end GoMap

/-! ## The diff stage -/

theorem Heap.SameUpToModTime.refl (h : Heap) : Heap.SameUpToModTime h h :=
  fun p => ⟨(h p).ConnectionModTime, rfl⟩

theorem Heap.SameUpToModTime.set_modTime {h0 h : Heap} (hs : Heap.SameUpToModTime h0 h)
    (q : Ptr) (t : Nat) :
    Heap.SameUpToModTime h0 (h.set q { h q with ConnectionModTime := t }) := by
  intro p
  obtain ⟨tq, hq⟩ := hs q
  obtain ⟨tp, hp⟩ := hs p
  unfold Heap.set
  by_cases hpq : p = q
  · subst hpq
    exact ⟨t, by simp [hq]⟩
  · exact ⟨tp, by simp [hpq, hp]⟩

theorem Heap.SameUpToModTime.schemaHash {h0 h : Heap} (hs : Heap.SameUpToModTime h0 h)
    (p : Ptr) : (h p).SchemaHash = (h0 p).SchemaHash := by
  obtain ⟨t, ht⟩ := hs p
  rw [ht]

theorem outOfDate_congr {Equals : ConnectionState → ConnectionState → Bool}
    (hEq : IgnoresModTime Equals) (force : List String) (current : ConnectionStateMap)
    {h0 h : Heap} (hs : Heap.SameUpToModTime h0 h) (entry : String × Ptr) :
    outOfDate Equals force current h entry = outOfDate Equals force current h0 entry := by
  unfold outOfDate
  cases hc : current.get? entry.1 with
  | none => rfl
  | some cur =>
    obtain ⟨t1, h1⟩ := hs cur
    obtain ⟨t2, h2⟩ := hs entry.2
    simp only [h1, h2, (hEq _ _ _).1, (hEq _ _ _).2]

theorem identifyUpdate_heap (Equals : ConnectionState → ConnectionState → Bool)
    (force : List String) (current : ConnectionStateMap) (modTime : Nat) {h0 : Heap}
    (l : List (String × Ptr)) (acc : ConnectionStateMap × Heap)
    (hs : Heap.SameUpToModTime h0 acc.2) :
    Heap.SameUpToModTime h0 (l.foldl (identifyUpdate Equals force current modTime) acc).2 := by
  induction l generalizing acc with
  | nil => exact hs
  | cons e rest ih =>
    rw [List.foldl_cons]
    apply ih
    unfold identifyUpdate
    split
    · exact hs.set_modTime _ _
    · exact hs

theorem identifyUpdate_keys {Equals : ConnectionState → ConnectionState → Bool}
    (hEq : IgnoresModTime Equals) (force : List String) (current : ConnectionStateMap)
    (modTime : Nat) {h0 : Heap} (l : List (String × Ptr)) (acc : ConnectionStateMap × Heap)
    (hs : Heap.SameUpToModTime h0 acc.2) (x : String) :
    x ∈ GoMap.keys (l.foldl (identifyUpdate Equals force current modTime) acc).1 ↔
      x ∈ GoMap.keys acc.1 ∨
        ∃ req, (x, req) ∈ l ∧ outOfDate Equals force current h0 (x, req) = true := by
  induction l generalizing acc with
  | nil => simp
  | cons e rest ih =>
    obtain ⟨name, req⟩ := e
    rw [List.foldl_cons]
    have hcongr := outOfDate_congr hEq force current hs (name, req)
    by_cases hout : outOfDate Equals force current acc.2 (name, req) = true
    · have hstep : identifyUpdate Equals force current modTime acc (name, req) =
          (acc.1.set name req, acc.2.set req { acc.2 req with ConnectionModTime := modTime }) := by
        simp [identifyUpdate, hout]
      rw [hstep, ih _ (hs.set_modTime _ _), GoMap.mem_keys_set]
      constructor
      · rintro ((hx | hx) | ⟨r, hr, ho⟩)
        · subst hx
          exact Or.inr ⟨req, List.mem_cons_self _ _, by rw [← hcongr]; exact hout⟩
        · exact Or.inl hx
        · exact Or.inr ⟨r, List.mem_cons_of_mem _ hr, ho⟩
      · rintro (hx | ⟨r, hr, ho⟩)
        · exact Or.inl (Or.inr hx)
        · rcases List.mem_cons.1 hr with heq | hr
          · cases heq
            exact Or.inl (Or.inl rfl)
          · exact Or.inr ⟨r, hr, ho⟩
    · have hstep : identifyUpdate Equals force current modTime acc (name, req) = acc := by
        simp [identifyUpdate, hout]
      rw [hstep, ih _ hs]
      constructor
      · rintro (hx | ⟨r, hr, ho⟩)
        · exact Or.inl hx
        · exact Or.inr ⟨r, List.mem_cons_of_mem _ hr, ho⟩
      · rintro (hx | ⟨r, hr, ho⟩)
        · exact Or.inl hx
        · rcases List.mem_cons.1 hr with heq | hr
          · cases heq
            rw [← hcongr] at ho
            exact absurd ho hout
          · exact Or.inr ⟨r, hr, ho⟩

theorem identifyUpdate_keys_subset (Equals : ConnectionState → ConnectionState → Bool)
    (force : List String) (current : ConnectionStateMap) (modTime : Nat)
    (l : List (String × Ptr)) (acc : ConnectionStateMap × Heap) (x : String)
    (hx : x ∈ GoMap.keys (l.foldl (identifyUpdate Equals force current modTime) acc).1) :
    x ∈ GoMap.keys acc.1 ∨ x ∈ GoMap.keys l := by
  induction l generalizing acc with
  | nil => exact Or.inl hx
  | cons e rest ih =>
    rw [List.foldl_cons] at hx
    rcases ih _ hx with h | h
    · unfold identifyUpdate at h
      split at h
      · rcases (GoMap.mem_keys_set _ _ _ _).1 h with h | h
        · exact Or.inr (by rw [GoMap.keys_cons, h]; exact List.mem_cons_self _ _)
        · exact Or.inl h
      · exact Or.inl h
    · exact Or.inr (by rw [GoMap.keys_cons]; exact List.mem_cons_of_mem _ h)

theorem identifyDelete_keys (required : ConnectionStateMap) (l : List (String × Ptr))
    (del : GoMap Unit) (x : String) :
    x ∈ GoMap.keys (l.foldl (identifyDelete required) del) ↔
      x ∈ GoMap.keys del ∨ (x ∈ GoMap.keys l ∧ x ∉ GoMap.keys required) := by
  induction l generalizing del with
  | nil => simp [GoMap.keys]
  | cons e rest ih =>
    rw [List.foldl_cons, ih, GoMap.keys_cons, List.mem_cons]
    unfold identifyDelete
    cases hr : required.get? e.1 with
    | none =>
      have hne := (GoMap.get?_eq_none_iff _ _).1 hr
      simp only [GoMap.mem_keys_set]
      constructor
      · rintro ((hx | hx) | ⟨hx, hn⟩)
        · exact Or.inr ⟨Or.inl hx, by rw [hx]; exact hne⟩
        · exact Or.inl hx
        · exact Or.inr ⟨Or.inr hx, hn⟩
      · rintro (hx | ⟨hx | hx, hn⟩)
        · exact Or.inl (Or.inr hx)
        · exact Or.inl (Or.inl hx)
        · exact Or.inr ⟨hx, hn⟩
    | some v =>
      have hmem := GoMap.mem_keys_of_get? hr
      constructor
      · rintro (hx | ⟨hx, hn⟩)
        · exact Or.inl hx
        · exact Or.inr ⟨Or.inr hx, hn⟩
      · rintro (hx | ⟨hx | hx, hn⟩)
        · exact Or.inl hx
        · exact absurd (by rw [hx]; exact hmem) hn
        · exact Or.inr ⟨hx, hn⟩

theorem identifyForeignDelete_keys (required current : ConnectionStateMap) (l : List String)
    (del : GoMap Unit) (x : String) :
    x ∈ GoMap.keys (l.foldl (identifyForeignDelete required current) del) ↔
      x ∈ GoMap.keys del ∨
        (x ∈ l ∧ x ∉ GoMap.keys current ∧ x ∉ GoMap.keys required) := by
  induction l generalizing del with
  | nil => simp
  | cons name rest ih =>
    rw [List.foldl_cons, ih, List.mem_cons]
    unfold identifyForeignDelete
    by_cases hc : name ∈ GoMap.keys current
    · have h1 : (current.get? name).isSome = true := (GoMap.get?_isSome_iff _ _).2 hc
      simp only [h1, Bool.not_true, Bool.false_and, Bool.false_eq_true, if_false]
      constructor
      · rintro (hx | ⟨hx, hn⟩)
        · exact Or.inl hx
        · exact Or.inr ⟨Or.inr hx, hn⟩
      · rintro (hx | ⟨hx | hx, hn⟩)
        · exact Or.inl hx
        · exact absurd (by rw [hx]; exact hc) hn.1
        · exact Or.inr ⟨hx, hn⟩
    · by_cases hr : name ∈ GoMap.keys required
      · have h2 : (required.get? name).isSome = true := (GoMap.get?_isSome_iff _ _).2 hr
        simp only [h2, Bool.not_true, Bool.and_false, Bool.false_eq_true, if_false]
        constructor
        · rintro (hx | ⟨hx, hn⟩)
          · exact Or.inl hx
          · exact Or.inr ⟨Or.inr hx, hn⟩
        · rintro (hx | ⟨hx | hx, hn⟩)
          · exact Or.inl hx
          · exact absurd (by rw [hx]; exact hr) hn.2
          · exact Or.inr ⟨hx, hn⟩
      · have h1 : (current.get? name).isSome = false := by
          rw [(GoMap.get?_eq_none_iff _ _).2 hc]; rfl
        have h2 : (required.get? name).isSome = false := by
          rw [(GoMap.get?_eq_none_iff _ _).2 hr]; rfl
        simp only [h1, h2, Bool.not_false, Bool.and_self, if_true, GoMap.mem_keys_set]
        constructor
        · rintro ((hx | hx) | ⟨hx, hn⟩)
          · exact Or.inr ⟨Or.inl hx, by rw [hx]; exact ⟨hc, hr⟩⟩
          · exact Or.inl hx
          · exact Or.inr ⟨Or.inr hx, hn⟩
        · rintro (hx | ⟨hx | hx, hn⟩)
          · exact Or.inl (Or.inr hx)
          · exact Or.inl (Or.inl hx)
          · exact Or.inr ⟨hx, hn⟩

theorem identifyDynamicUpdate_keys (heap : Heap) (current : ConnectionStateMap)
    (l : List (String × String)) (upd : ConnectionStateMap) (x : String) :
    x ∈ GoMap.keys (l.foldl (identifyDynamicUpdate heap current) upd) ↔
      x ∈ GoMap.keys upd ∨
        ∃ hash cur, (x, hash) ∈ l ∧ current.get? x = some cur ∧
          (heap cur).SchemaHash ≠ hash := by
  induction l generalizing upd with
  | nil => simp
  | cons e rest ih =>
    obtain ⟨name, hash⟩ := e
    rw [List.foldl_cons, ih]
    have key : x ∈ GoMap.keys (identifyDynamicUpdate heap current upd (name, hash)) ↔
        x ∈ GoMap.keys upd ∨ (x = name ∧ ∃ cur, current.get? x = some cur ∧
          (heap cur).SchemaHash ≠ hash) := by
      unfold identifyDynamicUpdate
      cases hc : current.get? name with
      | none =>
        constructor
        · exact fun h => Or.inl h
        · rintro (h | ⟨hx, cur, hcur, _⟩)
          · exact h
          · rw [hx, hc] at hcur
            cases hcur
      | some cur =>
        by_cases hh : (heap cur).SchemaHash = hash
        · simp only [hh, ne_eq, not_true_eq_false, if_false]
          constructor
          · exact fun h => Or.inl h
          · rintro (h | ⟨hx, cur', hcur, hne⟩)
            · exact h
            · rw [hx, hc] at hcur
              cases hcur
              exact absurd hh hne
        · simp only [ne_eq, hh, not_false_eq_true, if_true, GoMap.mem_keys_set]
          constructor
          · rintro (h | h)
            · exact Or.inr ⟨h, cur, by rw [h]; exact hc, hh⟩
            · exact Or.inl h
          · rintro (h | ⟨hx, _⟩)
            · exact Or.inr h
            · exact Or.inl hx
    rw [key]
    constructor
    · rintro ((h | ⟨hx, cur, hcur, hne⟩) | ⟨hash', cur, hm, hcur, hne⟩)
      · exact Or.inl h
      · exact Or.inr ⟨hash, cur, by rw [hx]; exact List.mem_cons_self _ _, hcur, hne⟩
      · exact Or.inr ⟨hash', cur, List.mem_cons_of_mem _ hm, hcur, hne⟩
    · rintro (h | ⟨hash', cur, hm, hcur, hne⟩)
      · exact Or.inl (Or.inl h)
      · rcases List.mem_cons.1 hm with heq | hm
        · cases heq
          exact Or.inl (Or.inr ⟨rfl, cur, hcur, hne⟩)
        · exact Or.inr ⟨hash', cur, hm, hcur, hne⟩

theorem diffStage_delete_keys (Equals : ConnectionState → ConnectionState → Bool)
    (required current : ConnectionStateMap) (missing : GoMap (List Connection))
    (force : List String) (dyn : GoMap String) (foreign : List String) (modTime : Nat)
    (heap : Heap) (x : String) :
    x ∈ GoMap.keys
        (diffStage Equals required current missing force dyn foreign modTime heap).1.Delete ↔
      x ∉ GoMap.keys required ∧ (x ∈ GoMap.keys current ∨ x ∈ foreign) := by
  show x ∈ GoMap.keys (foreign.foldl (identifyForeignDelete required current)
    (current.foldl (identifyDelete required) [])) ↔ _
  rw [identifyForeignDelete_keys, identifyDelete_keys]
  have hnil : x ∉ GoMap.keys ([] : GoMap Unit) := by simp [GoMap.keys]
  tauto

theorem diffStage_update_keys {Equals : ConnectionState → ConnectionState → Bool}
    (hEq : IgnoresModTime Equals)
    (required current : ConnectionStateMap) (missing : GoMap (List Connection))
    (force : List String) (dyn : GoMap String) (foreign : List String) (modTime : Nat)
    (heap : Heap) (x : String) :
    x ∈ GoMap.keys
        (diffStage Equals required current missing force dyn foreign modTime heap).1.Update ↔
      (∃ req, (x, req) ∈ required ∧ outOfDate Equals force current heap (x, req) = true) ∨
        ∃ hash cur, (x, hash) ∈ dyn ∧ current.get? x = some cur ∧
          (heap cur).SchemaHash ≠ hash := by
  have hs := identifyUpdate_heap Equals force current modTime required
    (([], heap) : ConnectionStateMap × Heap) (Heap.SameUpToModTime.refl heap)
  have hk := identifyUpdate_keys hEq force current modTime required
    (([], heap) : ConnectionStateMap × Heap) (Heap.SameUpToModTime.refl heap) x
  have hnil : x ∉ GoMap.keys ([] : ConnectionStateMap) := by simp [GoMap.keys]
  show x ∈ GoMap.keys (dyn.foldl (identifyDynamicUpdate
    (required.foldl (identifyUpdate Equals force current modTime) ([], heap)).2 current)
    (required.foldl (identifyUpdate Equals force current modTime) ([], heap)).1) ↔ _
  rw [identifyDynamicUpdate_keys, hk]
  constructor
  · rintro ((h | h) | ⟨hash, cur, h1, h2, h3⟩)
    · exact absurd h hnil
    · exact Or.inl h
    · exact Or.inr ⟨hash, cur, h1, h2, by rw [← hs.schemaHash cur]; exact h3⟩
  · rintro (h | ⟨hash, cur, h1, h2, h3⟩)
    · exact Or.inl (Or.inr h)
    · exact Or.inr ⟨hash, cur, h1, h2, by rw [hs.schemaHash cur]; exact h3⟩

theorem diffStage_update_keys_cases (Equals : ConnectionState → ConnectionState → Bool)
    (required current : ConnectionStateMap) (missing : GoMap (List Connection))
    (force : List String) (dyn : GoMap String) (foreign : List String) (modTime : Nat)
    (heap : Heap) (x : String)
    (hx : x ∈ GoMap.keys
      (diffStage Equals required current missing force dyn foreign modTime heap).1.Update) :
    x ∈ GoMap.keys required ∨ x ∈ GoMap.keys dyn := by
  have hx' : x ∈ GoMap.keys (dyn.foldl (identifyDynamicUpdate
      (required.foldl (identifyUpdate Equals force current modTime) ([], heap)).2 current)
      (required.foldl (identifyUpdate Equals force current modTime) ([], heap)).1) := hx
  rw [identifyDynamicUpdate_keys] at hx'
  rcases hx' with h | ⟨hash, cur, h1, _, _⟩
  · rcases identifyUpdate_keys_subset Equals force current modTime required _ x h with h | h
    · simp [GoMap.keys] at h
    · exact Or.inl h
  · exact Or.inr ((GoMap.mem_keys_iff _ _).2 ⟨hash, h1⟩)

theorem diffStage_dynamic_update (Equals : ConnectionState → ConnectionState → Bool)
    (required current : ConnectionStateMap) (missing : GoMap (List Connection))
    (force : List String) (dyn : GoMap String) (foreign : List String) (modTime : Nat)
    (heap : Heap) (x hash : String) (cur : Ptr) (hd : (x, hash) ∈ dyn)
    (hc : current.get? x = some cur) (hne : (heap cur).SchemaHash ≠ hash) :
    x ∈ GoMap.keys
      (diffStage Equals required current missing force dyn foreign modTime heap).1.Update := by
  have hs := identifyUpdate_heap Equals force current modTime required
    (([], heap) : ConnectionStateMap × Heap) (Heap.SameUpToModTime.refl heap)
  show x ∈ GoMap.keys (dyn.foldl (identifyDynamicUpdate
    (required.foldl (identifyUpdate Equals force current modTime) ([], heap)).2 current)
    (required.foldl (identifyUpdate Equals force current modTime) ([], heap)).1)
  rw [identifyDynamicUpdate_keys]
  exact Or.inr ⟨hash, cur, hd, hc, by rw [hs.schemaHash cur]; exact hne⟩

theorem equals_ignoresModTime : IgnoresModTime ConnectionState.Equals := by
  intro a b t
  simp [ConnectionState.Equals]

theorem outOfDate_iff (Equals : ConnectionState → ConnectionState → Bool)
    (force : List String) (current : ConnectionStateMap) (heap : Heap) (x : String)
    (req : Ptr) :
    outOfDate Equals force current heap (x, req) = true ↔
      (x ∈ force ∨ current.get? x = none ∨
        ∃ cur, current.get? x = some cur ∧ Equals (heap cur) (heap req) = false) := by
  unfold outOfDate StringSliceContains
  cases hc : current.get? x with
  | none => simp
  | some cur => simp

/-! ## Plugin loading and the orchestrator: the fields they leave alone -/

theorem setError_delete (acc : ConnectionUpdates × Heap) (name err : String) :
    (setError acc name err).1.Delete = acc.1.Delete := by
  unfold setError
  split <;> rfl

theorem setError_final (acc : ConnectionUpdates × Heap) (name err : String) :
    (setError acc name err).1.FinalConnectionState = acc.1.FinalConnectionState := by
  unfold setError
  split <;> rfl

theorem setError_foldl_delete (l : GoMap String) (acc : ConnectionUpdates × Heap) :
    (l.foldl (fun a entry => setError a entry.1 entry.2) acc).1.Delete = acc.1.Delete := by
  induction l generalizing acc with
  | nil => rfl
  | cons e rest ih => rw [List.foldl_cons, ih, setError_delete]

theorem setError_foldl_final (l : GoMap String) (acc : ConnectionUpdates × Heap) :
    (l.foldl (fun a entry => setError a entry.1 entry.2) acc).1.FinalConnectionState =
      acc.1.FinalConnectionState := by
  induction l generalizing acc with
  | nil => rfl
  | cons e rest ih => rw [List.foldl_cons, ih, setError_final]

theorem populateConnectionPlugins_delete
    (Connections : Heap → ConnectionStateMap → List Connection)
    (CreateConnectionPlugins : List Connection → GoMap ConnectionPlugin × RefreshConnectionResult)
    (acc : ConnectionUpdates × Heap) (already : GoMap ConnectionPlugin) :
    (populateConnectionPlugins Connections CreateConnectionPlugins acc already).1.1.Delete =
      acc.1.Delete := by
  simp only [populateConnectionPlugins]
  split
  · exact setError_foldl_delete _ _
  · exact setError_foldl_delete _ _

theorem populateConnectionPlugins_final
    (Connections : Heap → ConnectionStateMap → List Connection)
    (CreateConnectionPlugins : List Connection → GoMap ConnectionPlugin × RefreshConnectionResult)
    (acc : ConnectionUpdates × Heap) (already : GoMap ConnectionPlugin) :
    (populateConnectionPlugins Connections CreateConnectionPlugins acc
      already).1.1.FinalConnectionState = acc.1.FinalConnectionState := by
  simp only [populateConnectionPlugins]
  split
  · exact setError_foldl_final _ _
  · exact setError_foldl_final _ _

/-- When `NewConnectionUpdates` returns a `ConnectionUpdates`, every load succeeded, the
probe returned a hash map, and the value returned is the one `populateConnectionPlugins`
leaves after the diff stage. -/
theorem NewConnectionUpdates_updates
    {Equals : ConnectionState → ConnectionState → Bool} {GetMD5Hash : String → String}
    {Connections : Heap → ConnectionStateMap → List Connection}
    {probePlugins loadPlugins :
      List Connection → GoMap ConnectionPlugin × RefreshConnectionResult}
    {loaded : Loaded} {heap : Heap} {force : List String} {out : Outcome}
    {u : ConnectionUpdates}
    (h : NewConnectionUpdates Equals GetMD5Hash Connections probePlugins loadPlugins loaded
      heap force = some out) (hu : out.updates = some u) :
    ∃ foreign current required missing dyn plugins,
      loaded.acquireError = none ∧
      loaded.foreignSchemaNames = Except.ok foreign ∧
      loaded.currentConnectionState = Except.ok current ∧
      loaded.requiredConnectionState = Except.ok (required, missing) ∧
      getSchemaHashesForDynamicSchemas GetMD5Hash Connections probePlugins heap required
        current = some (Except.ok (dyn, plugins)) ∧
      u = (populateConnectionPlugins Connections loadPlugins
        (diffStage Equals required current missing force dyn foreign loaded.modTime heap)
        plugins).1.1 := by
  unfold NewConnectionUpdates at h
  split at h
  · cases h; cases hu
  split at h
  · cases h; cases hu
  split at h
  · cases h; cases hu
  split at h
  · cases h; cases hu
  split at h
  · cases h
  · cases h; cases hu
  rename_i _ hacq _ foreign hforeign _ current hcurrent _ required missing hrequired _ dyn
    plugins hprobe
  refine ⟨foreign, current, required, missing, dyn, plugins, hacq, hforeign, hcurrent,
    hrequired, hprobe, ?_⟩
  simp only at h
  split at h
  · cases h; cases hu
  split at h
  · cases h
  · cases h
    cases hu
    rfl

/-! ## Properties of the diff stage -/

/-- C1 (counterexample): with an empty required state, a current state holding `d` with
the stored hash `old` and a dynamic hash map giving `d` the hash `new`, the diff stage
puts `d` both in Update and in Delete. -/
theorem diffStage_update_delete_overlap :
    "d" ∈ GoMap.keys (diffStage ConnectionState.Equals [] [("d", 2)] [] []
      [("d", "new")] [] 7 driftHeap).1.Update ∧
    "d" ∈ GoMap.keys (diffStage ConnectionState.Equals [] [("d", 2)] [] []
      [("d", "new")] [] 7 driftHeap).1.Delete := by
  decide

/-- C1 (amended): after the diff stage a name is not a key of both Update and Delete,
provided that the name, if it is a key of the dynamic hash map, is a key of the required
state; so each such name is in exactly one of Update, Delete or neither. -/
theorem diffStage_update_delete_disjoint
    (Equals : ConnectionState → ConnectionState → Bool)
    (required current : ConnectionStateMap) (missing : GoMap (List Connection))
    (force : List String) (dyn : GoMap String) (foreign : List String) (modTime : Nat)
    (heap : Heap) (name : String)
    (hdyn : name ∈ GoMap.keys dyn → name ∈ GoMap.keys required) :
    ¬ (name ∈ GoMap.keys
          (diffStage Equals required current missing force dyn foreign modTime heap).1.Update ∧
        name ∈ GoMap.keys
          (diffStage Equals required current missing force dyn foreign modTime heap).1.Delete) := by
  rintro ⟨hu, hd⟩
  have hnot := ((diffStage_delete_keys Equals required current missing force dyn foreign
    modTime heap name).1 hd).1
  rcases diffStage_update_keys_cases Equals required current missing force dyn foreign
    modTime heap name hu with h | h
  · exact hnot h
  · exact hnot (hdyn h)

/-- C1 (witness): the connection `d`, required, current and probed with a new hash, is in
Update and not in Delete. -/
theorem diffStage_update_delete_disjoint_witness :
    ("d" ∈ GoMap.keys [("d", "new")] → "d" ∈ GoMap.keys [("d", (1 : Ptr))]) ∧
    ¬ ("d" ∈ GoMap.keys (diffStage ConnectionState.Equals [("d", 1)] [("d", 2)] [] []
          [("d", "new")] [] 7 driftHeap).1.Update ∧
        "d" ∈ GoMap.keys (diffStage ConnectionState.Equals [("d", 1)] [("d", 2)] [] []
          [("d", "new")] [] 7 driftHeap).1.Delete) :=
  ⟨by decide, diffStage_update_delete_disjoint ConnectionState.Equals [("d", 1)] [("d", 2)]
    [] [] [("d", "new")] [] 7 driftHeap "d" (by decide)⟩

/-- C2 (counterexample): the name `d` is forced and is not in the required state, which is
empty; the current state holds `d` with the stored hash `old` and the dynamic hash map
gives `d` the hash `new`; the diff stage puts `d` in Update. -/
theorem diffStage_forced_unrequired_in_update :
    "d" ∈ ["d"] ∧
    GoMap.get? ([] : ConnectionStateMap) "d" = none ∧
    "d" ∈ GoMap.keys (diffStage ConnectionState.Equals [] [("d", 2)] [] ["d"]
      [("d", "new")] [] 7 driftHeap).1.Update := by
  decide

/-- C2 (amended): when `Equals` does not read the modification time and the required state
has no duplicate key, a name without entry in the dynamic hash map is a key of Update
after the diff stage if and only if it has a required entry and is forced, or has no
current entry, or has a current entry that is not `Equals` to the required entry; and a
name that is not in the required state, forced or not, is a key of Update if and only if
the dynamic hash map gives it a hash that differs from the stored hash of its current
entry. -/
theorem diffStage_update_iff {Equals : ConnectionState → ConnectionState → Bool}
    (hEq : IgnoresModTime Equals)
    (required current : ConnectionStateMap) (missing : GoMap (List Connection))
    (force : List String) (dyn : GoMap String) (foreign : List String) (modTime : Nat)
    (heap : Heap) (hnd : (GoMap.keys required).Nodup) (name : String) :
    (dyn.get? name = none →
      (name ∈ GoMap.keys
          (diffStage Equals required current missing force dyn foreign modTime heap).1.Update ↔
        ∃ req, required.get? name = some req ∧
          (name ∈ force ∨ current.get? name = none ∨
            ∃ cur, current.get? name = some cur ∧ Equals (heap cur) (heap req) = false))) ∧
    (required.get? name = none →
      (name ∈ GoMap.keys
          (diffStage Equals required current missing force dyn foreign modTime heap).1.Update ↔
        ∃ hash cur, (name, hash) ∈ dyn ∧ current.get? name = some cur ∧
          (heap cur).SchemaHash ≠ hash)) := by
  refine ⟨fun hdyn => ?_, fun hnone => ?_⟩
  · have hnotdyn : ∀ hash, (name, hash) ∉ dyn := fun hash hm =>
      (GoMap.get?_eq_none_iff dyn name).1 hdyn ((GoMap.mem_keys_iff dyn name).2 ⟨hash, hm⟩)
    rw [diffStage_update_keys hEq]
    constructor
    · rintro (⟨req, hm, ho⟩ | ⟨hash, _, hm, _, _⟩)
      · exact ⟨req, GoMap.get?_of_mem hnd hm, (outOfDate_iff _ _ _ _ _ _).1 ho⟩
      · exact absurd hm (hnotdyn hash)
    · rintro ⟨req, hr, hc⟩
      exact Or.inl ⟨req, GoMap.mem_of_get? hr, (outOfDate_iff _ _ _ _ _ _).2 hc⟩
  · have hnotreq : ∀ req, (name, req) ∉ required := fun req hm =>
      (GoMap.get?_eq_none_iff required name).1 hnone
        ((GoMap.mem_keys_iff required name).2 ⟨req, hm⟩)
    rw [diffStage_update_keys hEq]
    constructor
    · rintro (⟨req, hm, _⟩ | h)
      · exact absurd hm (hnotreq req)
      · exact h
    · exact Or.inr

/-- C2 (witness): the name `B`, required and without current entry, is in Update; the name
`zz`, forced, not required and without entry in the dynamic hash map, is not; and the name
`d`, forced and not required, is in Update, since the dynamic hash map gives it the hash
`new` and its current entry stores `old`. -/
theorem diffStage_update_iff_witness :
    "B" ∈ GoMap.keys (diffStage ConnectionState.Equals [("A", 1), ("B", 3)] [("A", 2)] []
      ["zz"] [] ["C"] 7 scenarioHeap).1.Update ∧
    "zz" ∉ GoMap.keys (diffStage ConnectionState.Equals [("A", 1), ("B", 3)] [("A", 2)] []
      ["zz"] [] ["C"] 7 scenarioHeap).1.Update ∧
    "d" ∈ GoMap.keys (diffStage ConnectionState.Equals [] [("d", 2)] [] ["d"]
      [("d", "new")] [] 7 driftHeap).1.Update :=
  ⟨((diffStage_update_iff equals_ignoresModTime [("A", 1), ("B", 3)] [("A", 2)] []
      ["zz"] [] ["C"] 7 scenarioHeap (by decide) "B").1 (by decide)).2
      ⟨3, by decide, Or.inr (Or.inl (by decide))⟩,
   fun hmem =>
    (((diffStage_update_iff equals_ignoresModTime [("A", 1), ("B", 3)] [("A", 2)] []
      ["zz"] [] ["C"] 7 scenarioHeap (by decide) "zz").2 (by decide)).1 hmem).elim
      (fun _ h => h.elim (fun _ h2 => by cases h2.1)),
   ((diffStage_update_iff equals_ignoresModTime [] [("d", 2)] [] ["d"]
      [("d", "new")] [] 7 driftHeap (by decide) "d").2 (by decide)).2
      ⟨"new", 2, by decide, by decide, by decide⟩⟩

/-- C3: after the diff stage a name is a key of Delete if and only if it is not a key of
the required state and is a key of the current state or a foreign schema name; every
foreign schema name absent from both states is in Delete; `populateConnectionPlugins`
leaves Delete as it is, and so does the whole of `NewConnectionUpdates` when it returns a
value (the final merge writes to the heap only). -/
theorem diffStage_delete_iff (Equals : ConnectionState → ConnectionState → Bool)
    (required current : ConnectionStateMap) (missing : GoMap (List Connection))
    (force : List String) (dyn : GoMap String) (foreign : List String) (modTime : Nat)
    (heap : Heap) :
    (∀ x, x ∈ GoMap.keys
        (diffStage Equals required current missing force dyn foreign modTime heap).1.Delete ↔
      x ∉ GoMap.keys required ∧ (x ∈ GoMap.keys current ∨ x ∈ foreign)) ∧
    (∀ x, x ∈ foreign → x ∉ GoMap.keys current → x ∉ GoMap.keys required →
      x ∈ GoMap.keys
        (diffStage Equals required current missing force dyn foreign modTime heap).1.Delete) ∧
    (∀ Connections CreateConnectionPlugins already,
      (populateConnectionPlugins Connections CreateConnectionPlugins
        (diffStage Equals required current missing force dyn foreign modTime heap)
        already).1.1.Delete =
      (diffStage Equals required current missing force dyn foreign modTime heap).1.Delete) ∧
    (∀ GetMD5Hash Connections probePlugins loadPlugins out u,
      NewConnectionUpdates Equals GetMD5Hash Connections probePlugins loadPlugins
        { acquireError := none, foreignSchemaNames := Except.ok foreign,
          currentConnectionState := Except.ok current,
          requiredConnectionState := Except.ok (required, missing), modTime := modTime }
        heap force = some out →
      out.updates = some u →
      u.Delete =
        (diffStage Equals required current missing force dyn foreign modTime heap).1.Delete) := by
  refine ⟨fun x => diffStage_delete_keys _ _ _ _ _ _ _ _ _ _, fun x hf hc hr => ?_,
    fun C P already => populateConnectionPlugins_delete _ _ _ _, ?_⟩
  · exact (diffStage_delete_keys _ _ _ _ _ _ _ _ _ _).2 ⟨hr, Or.inr hf⟩
  · intro GetMD5Hash Connections probePlugins loadPlugins out u h hu
    obtain ⟨foreign', current', required', missing', dyn', plugins, _, hf, hc, hr, _, hueq⟩ :=
      NewConnectionUpdates_updates h hu
    cases hf
    cases hc
    cases hr
    rw [hueq, populateConnectionPlugins_delete]
    rfl

/-- C3 (witness): in the scenario "A unchanged, B new, foreign schema C", the name `C`
is in Delete after the diff stage, and the Delete that `NewConnectionUpdates` returns is
the Delete of the diff stage. -/
theorem diffStage_delete_iff_witness :
    "C" ∈ GoMap.keys (diffStage ConnectionState.Equals [("A", 1), ("B", 3)] [("A", 2)] []
      [] [] ["C"] 7 scenarioHeap).1.Delete ∧
    ((NewConnectionUpdates ConnectionState.Equals id sampleConnections samplePlugins
        samplePlugins
        { acquireError := none, foreignSchemaNames := Except.ok ["C"],
          currentConnectionState := Except.ok [("A", 2)],
          requiredConnectionState := Except.ok ([("A", 1), ("B", 3)], []), modTime := 7 }
        scenarioHeap []).bind (fun out => out.updates)).map (fun u => u.Delete) =
      some (diffStage ConnectionState.Equals [("A", 1), ("B", 3)] [("A", 2)] []
        [] [] ["C"] 7 scenarioHeap).1.Delete := by
  have key := diffStage_delete_iff ConnectionState.Equals [("A", 1), ("B", 3)] [("A", 2)] []
    [] [] ["C"] 7 scenarioHeap
  refine ⟨key.2.1 "C" (by decide) (by decide) (by decide), ?_⟩
  have hsome : ((NewConnectionUpdates ConnectionState.Equals id sampleConnections
      samplePlugins samplePlugins
      { acquireError := none, foreignSchemaNames := Except.ok ["C"],
        currentConnectionState := Except.ok [("A", 2)],
        requiredConnectionState := Except.ok ([("A", 1), ("B", 3)], []), modTime := 7 }
      scenarioHeap []).bind (fun out => out.updates)).isSome = true := by decide
  cases hrun : NewConnectionUpdates ConnectionState.Equals id sampleConnections
      samplePlugins samplePlugins
      { acquireError := none, foreignSchemaNames := Except.ok ["C"],
        currentConnectionState := Except.ok [("A", 2)],
        requiredConnectionState := Except.ok ([("A", 1), ("B", 3)], []), modTime := 7 }
      scenarioHeap [] with
  | none =>
    rw [hrun] at hsome
    cases hsome
  | some out =>
    rw [hrun] at hsome
    cases hup : out.updates with
    | none =>
      rw [Option.some_bind, hup] at hsome
      cases hsome
    | some u =>
      rw [Option.some_bind, hup, Option.map_some', key.2.2.2 id sampleConnections samplePlugins
        samplePlugins out u hrun hup]

/-- C4: a name of the dynamic hash map that has a current entry whose stored hash differs
from the probed hash is a key of Update after the diff stage, whatever the force list and
whatever `Equals` says of its current and required entries. -/
theorem diffStage_hash_drift (Equals : ConnectionState → ConnectionState → Bool)
    (required current : ConnectionStateMap) (missing : GoMap (List Connection))
    (force : List String) (dyn : GoMap String) (foreign : List String) (modTime : Nat)
    (heap : Heap) (name hash : String) (cur : Ptr)
    (hdyn : dyn.get? name = some hash) (hcur : current.get? name = some cur)
    (hne : (heap cur).SchemaHash ≠ hash) :
    name ∈ GoMap.keys
      (diffStage Equals required current missing force dyn foreign modTime heap).1.Update :=
  diffStage_dynamic_update Equals required current missing force dyn foreign modTime heap
    name hash cur (GoMap.mem_of_get? hdyn) hcur hne

/-- C4 (witness): the connection `d` is not forced and its current entry `Equals` its
required entry; its stored hash is `old`, the probed hash is `new`, and it is in Update. -/
theorem diffStage_hash_drift_witness :
    ¬ "d" ∈ ([] : List String) ∧
    ConnectionState.Equals (driftHeap 2) (driftHeap 1) = true ∧
    "d" ∈ GoMap.keys (diffStage ConnectionState.Equals [("d", 1)] [("d", 2)] [] []
      [("d", "new")] [] 7 driftHeap).1.Update :=
  ⟨by decide, by decide,
    diffStage_hash_drift ConnectionState.Equals [("d", 1)] [("d", 2)] [] []
      [("d", "new")] [] 7 driftHeap "d" "new" 2 (by decide) (by decide) (by decide)⟩

/-- C5 (the code at the failing input): the plugin of `d` changed from `chaos` to `chaos2`
and its probed hash is `new`; after the diff stage `Update["d"]` is the pointer of the
current state (plugin `chaos`), not the pointer `FinalConnectionState["d"]` of the
required state (plugin `chaos2`). -/
theorem diffStage_drift_stores_current_state :
    (diffStage ConnectionState.Equals [("d", 1)] [("d", 2)] [] []
      [("d", "new")] [] 7 changedHeap).1.Update.get? "d" = some 2 ∧
    (diffStage ConnectionState.Equals [("d", 1)] [("d", 2)] [] []
      [("d", "new")] [] 7 changedHeap).1.FinalConnectionState.get? "d" = some 1 ∧
    ((diffStage ConnectionState.Equals [("d", 1)] [("d", 2)] [] []
      [("d", "new")] [] 7 changedHeap).2 2).Plugin = "chaos" ∧
    ((diffStage ConnectionState.Equals [("d", 1)] [("d", 2)] [] []
      [("d", "new")] [] 7 changedHeap).2 1).Plugin = "chaos2" := by
  decide

/-! ## The schema hasher -/

theorem GoMap.get?_perm {V : Type} {m1 m2 : GoMap V} (hp : m1.Perm m2)
    (hnd : (GoMap.keys m1).Nodup) (k : String) : GoMap.get? m1 k = GoMap.get? m2 k := by
  have hkeys : (GoMap.keys m1).Perm (GoMap.keys m2) := hp.map Prod.fst
  have hnd2 : (GoMap.keys m2).Nodup := hkeys.nodup_iff.1 hnd
  cases h1 : GoMap.get? m1 k with
  | none =>
    have hk : k ∉ GoMap.keys m2 := fun hm =>
      (GoMap.get?_eq_none_iff m1 k).1 h1 (hkeys.mem_iff.2 hm)
    exact ((GoMap.get?_eq_none_iff m2 k).2 hk).symm
  | some v =>
    exact (GoMap.get?_of_mem hnd2 (hp.mem_iff.1 (GoMap.mem_of_get? h1))).symm

theorem GoMap.keys_perm_of_get? {V : Type} {m1 m2 : GoMap V}
    (h1 : (GoMap.keys m1).Nodup) (h2 : (GoMap.keys m2).Nodup)
    (h : ∀ k, GoMap.get? m1 k = GoMap.get? m2 k) :
    (GoMap.keys m1).Perm (GoMap.keys m2) := by
  refine (List.perm_ext_iff_of_nodup h1 h2).2 (fun k => ?_)
  rw [← GoMap.get?_isSome_iff, ← GoMap.get?_isSome_iff, h k]

theorem strLE_isTotal : IsTotal String strLE :=
  ⟨fun a b => by
    unfold strLE
    rw [← String.le_iff_toList_le, ← String.le_iff_toList_le]
    exact le_total a b⟩

theorem strLE_isTrans : IsTrans String strLE :=
  ⟨fun a b c => by
    unfold strLE
    rw [← String.le_iff_toList_le, ← String.le_iff_toList_le, ← String.le_iff_toList_le]
    exact le_trans⟩

theorem strLE_isAntisymm : IsAntisymm String strLE :=
  ⟨fun a b => by
    unfold strLE
    rw [← String.le_iff_toList_le, ← String.le_iff_toList_le]
    exact le_antisymm⟩

theorem sortStrings_perm {l1 l2 : List String} (h : l1.Perm l2) :
    sortStrings l1 = sortStrings l2 := by
  unfold sortStrings
  haveI := strLE_isTotal
  haveI := strLE_isTrans
  haveI := strLE_isAntisymm
  exact List.eq_of_perm_of_sorted
    ((List.perm_insertionSort strLE l1).trans (h.trans (List.perm_insertionSort strLE l2).symm))
    (List.sorted_insertionSort strLE l1) (List.sorted_insertionSort strLE l2)

theorem mem_sortStrings (l : List String) (x : String) : x ∈ sortStrings l ↔ x ∈ l :=
  (List.perm_insertionSort strLE l).mem_iff

theorem tablesString_congr (m1 m2 : GoMap TableSchema) (l : List String)
    (h : ∀ k ∈ l, GoMap.get? m1 k = GoMap.get? m2 k) :
    tablesString m1 l = tablesString m2 l := by
  induction l with
  | nil => rfl
  | cons t rest ih =>
    unfold tablesString
    rw [h t (List.mem_cons_self _ _), ih (fun k hk => h k (List.mem_cons_of_mem _ hk))]

/-- C6: two schemas without duplicate table names that map every table name to the same
columns, in whatever order their tables are enumerated (and whatever their mode and
protocol version), get the same digest input and the same `pluginSchemaHash`. -/
theorem pluginSchemaHash_order_independent (GetMD5Hash : String → String) (s1 s2 : Schema)
    (h1 : (GoMap.keys s1.Schema).Nodup) (h2 : (GoMap.keys s2.Schema).Nodup)
    (h : ∀ tableName, s1.Schema.get? tableName = s2.Schema.get? tableName) :
    pluginSchemaHash GetMD5Hash s1 = pluginSchemaHash GetMD5Hash s2 := by
  unfold pluginSchemaHash schemaString
  rw [sortStrings_perm (GoMap.keys_perm_of_get? h1 h2 h),
    tablesString_congr s1.Schema s2.Schema _ (fun k _ => h k)]

/-- C6 (witness): the tables `accounts` and `users` enumerated in the two orders hash
alike, under the digest that returns its input. -/
theorem pluginSchemaHash_order_independent_witness :
    schemaAccountsUsers.Schema ≠ schemaUsersAccounts.Schema ∧
    pluginSchemaHash id schemaAccountsUsers = pluginSchemaHash id schemaUsersAccounts :=
  ⟨by decide,
    pluginSchemaHash_order_independent id schemaAccountsUsers schemaUsersAccounts
      (by decide) (by decide)
      (fun k => GoMap.get?_perm (by decide) (by decide) k)⟩

/-! ## Decimal numerals are read back -/

theorem digitChar_value (d : Nat) (h : d < 10) : (Nat.digitChar d).toNat - 48 = d := by
  interval_cases d <;> rfl

theorem digitChar_ne_minus (d : Nat) (h : d < 10) : Nat.digitChar d ≠ '-' := by
  interval_cases d <;> decide

theorem digitsValue_cons (acc : Nat) (c : Char) (l : List Char) :
    digitsValue acc (c :: l) = digitsValue (10 * acc + (c.toNat - 48)) l := rfl

theorem toDigitsCore_value (fuel : Nat) : ∀ (n : Nat) (ds : List Char), n < fuel →
    ∃ k, ∀ acc, digitsValue acc (Nat.toDigitsCore 10 fuel n ds) =
      digitsValue (acc * 10 ^ k + n) ds := by
  induction fuel with
  | zero => intro n ds h; omega
  | succ fuel ih =>
    intro n ds h
    have hmod : n % 10 < 10 := Nat.mod_lt _ (by norm_num)
    by_cases h0 : n / 10 = 0
    · refine ⟨1, fun acc => ?_⟩
      simp only [Nat.toDigitsCore, h0, if_true, digitsValue_cons]
      rw [digitChar_value _ hmod, pow_one]
      congr 1
      omega
    · have hlt : n / 10 < fuel := by omega
      obtain ⟨k, hk⟩ := ih (n / 10) (Nat.digitChar (n % 10) :: ds) hlt
      refine ⟨k + 1, fun acc => ?_⟩
      simp only [Nat.toDigitsCore, h0, if_false]
      rw [hk acc, digitsValue_cons, digitChar_value _ hmod]
      congr 1
      rw [pow_succ]
      have := Nat.div_add_mod n 10
      nlinarith [Nat.div_add_mod n 10]

theorem toDigitsCore_head (fuel : Nat) : ∀ (n : Nat) (ds : List Char), n < fuel →
    ∃ c rest, Nat.toDigitsCore 10 fuel n ds = c :: rest ∧ c ≠ '-' := by
  induction fuel with
  | zero => intro n ds h; omega
  | succ fuel ih =>
    intro n ds h
    have hmod : n % 10 < 10 := Nat.mod_lt _ (by norm_num)
    by_cases h0 : n / 10 = 0
    · exact ⟨Nat.digitChar (n % 10), ds, by simp [Nat.toDigitsCore, h0],
        digitChar_ne_minus _ hmod⟩
    · have hlt : n / 10 < fuel := by omega
      obtain ⟨c, rest, hc, hne⟩ := ih (n / 10) (Nat.digitChar (n % 10) :: ds) hlt
      exact ⟨c, rest, by simp [Nat.toDigitsCore, h0, hc], hne⟩

theorem digitsValue_repr (n : Nat) : digitsValue 0 (Nat.repr n).data = n := by
  obtain ⟨k, hk⟩ := toDigitsCore_value (n + 1) n [] (Nat.lt_succ_self n)
  have := hk 0
  simpa [Nat.repr, Nat.toDigits, List.asString, digitsValue] using this

theorem decimalValue_toString (i : Int) : decimalValue (toString i).data = i := by
  cases i with
  | ofNat m =>
    show decimalValue (Nat.repr m).data = _
    obtain ⟨c, rest, hc, hne⟩ := toDigitsCore_head (m + 1) m [] (Nat.lt_succ_self m)
    have hdata : (Nat.repr m).data = c :: rest := by
      simpa [Nat.repr, Nat.toDigits, List.asString] using hc
    have hv := digitsValue_repr m
    rw [hdata] at hv ⊢
    simp only [decimalValue, if_neg hne, hv]
    rfl
  | negSucc m =>
    show decimalValue ("-" ++ Nat.repr (m + 1)).data = _
    have hdata : ("-" ++ Nat.repr (m + 1)).data = '-' :: (Nat.repr (m + 1)).data := by
      rw [String.data_append]
      rfl
    rw [hdata]
    simp only [decimalValue, if_true, digitsValue_repr]
    rfl

theorem toString_int_injective {a b : Int} (h : toString a = toString b) : a = b := by
  have := congrArg (fun s => decimalValue s.data) h
  simpa [decimalValue_toString] using this

/-! ## What the digest input separates -/

theorem str_append_left_cancel {a b c : String} (h : a ++ b = a ++ c) : b = c := by
  have hd := congrArg String.data h
  rw [String.data_append, String.data_append] at hd
  exact String.ext (List.append_cancel_left hd)

theorem str_append_right_cancel {a b c : String} (h : a ++ c = b ++ c) : a = b := by
  have hd := congrArg String.data h
  rw [String.data_append, String.data_append] at hd
  exact String.ext (List.append_cancel_right hd)

theorem columnsString_append (l1 l2 : List ColumnDefinition) :
    columnsString (l1 ++ l2) = columnsString l1 ++ columnsString l2 := by
  induction l1 with
  | nil => simp [columnsString]
  | cons c rest ih => simp [columnsString, ih, String.append_assoc]

theorem tablesString_append (m : GoMap TableSchema) (l1 l2 : List String) :
    tablesString m (l1 ++ l2) = tablesString m l1 ++ tablesString m l2 := by
  induction l1 with
  | nil => simp [tablesString]
  | cons t rest ih => simp [tablesString, ih, String.append_assoc]

theorem GoMap.get?_middle_ne {V : Type} (pre post : GoMap V) (t : String) (x y : V)
    (k : String) (hk : k ≠ t) :
    GoMap.get? (pre ++ (t, x) :: post) k = GoMap.get? (pre ++ (t, y) :: post) k := by
  have hk' : ¬ t = k := fun h => hk h.symm
  induction pre with
  | nil => simp [GoMap.get?, hk']
  | cons e rest ih =>
    obtain ⟨k', v⟩ := e
    show (if k' = k then some v else GoMap.get? (rest ++ (t, x) :: post) k) =
      if k' = k then some v else GoMap.get? (rest ++ (t, y) :: post) k
    rw [ih]

theorem GoMap.keys_middle {V : Type} (pre post : GoMap V) (t : String) (x : V) :
    GoMap.keys (pre ++ (t, x) :: post) = GoMap.keys pre ++ t :: GoMap.keys post := by
  simp [GoMap.keys]

theorem columnsString_type_ne (cpre cpost : List ColumnDefinition) (n : String)
    (ty1 ty2 : Int) (hne : ty1 ≠ ty2) :
    columnsString (cpre ++ { Name := n, Type_ := ty1 } :: cpost) ≠
      columnsString (cpre ++ { Name := n, Type_ := ty2 } :: cpost) := by
  intro h
  rw [columnsString_append, columnsString_append] at h
  have h1 := str_append_left_cancel h
  simp only [columnsString] at h1
  have h2 := str_append_right_cancel h1
  exact hne (toString_int_injective (str_append_left_cancel h2))

theorem toString_int_length_pos (i : Int) : 0 < (toString i).length := by
  rcases Nat.eq_zero_or_pos (toString i).length with h | h
  · exfalso
    have hd : (toString i).data = [] := List.length_eq_zero.1 h
    have hv := decimalValue_toString i
    rw [hd] at hv
    have hi : i = 0 := by simpa [decimalValue] using hv.symm
    rw [hi] at h
    revert h
    decide
  · exact h

theorem columnsString_name_ne (cpre cpost : List ColumnDefinition) (n1 n2 : String)
    (ty : Int) (hne : n1 ≠ n2) :
    columnsString (cpre ++ { Name := n1, Type_ := ty } :: cpost) ≠
      columnsString (cpre ++ { Name := n2, Type_ := ty } :: cpost) := by
  intro h
  rw [columnsString_append, columnsString_append] at h
  have h1 := str_append_left_cancel h
  simp only [columnsString] at h1
  have h2 := str_append_right_cancel h1
  exact hne (str_append_right_cancel h2)

theorem columnsString_added_ne (cpre cpost : List ColumnDefinition) (c : ColumnDefinition) :
    columnsString (cpre ++ cpost) ≠ columnsString (cpre ++ c :: cpost) := by
  intro h
  rw [columnsString_append, columnsString_append] at h
  have h1 := congrArg String.length (str_append_left_cancel h)
  simp only [columnsString, String.length_append] at h1
  have := toString_int_length_pos c.Type_
  omega

theorem columnsString_ne_of_change {cols1 cols2 : List ColumnDefinition}
    (h : OneColumnChanged cols1 cols2 ∨ OneColumnAdded cols1 cols2) :
    columnsString cols1 ≠ columnsString cols2 := by
  rcases h with ⟨cpre, cpost, n1, n2, ty1, ty2, h1, h2, hc⟩ | ⟨cpre, c, cpost, h1, h2⟩
  · rw [h1, h2]
    rcases hc with ⟨hn, ht⟩ | ⟨hn, ht⟩
    · rw [hn]
      exact columnsString_type_ne cpre cpost n2 ty1 ty2 ht
    · rw [ht]
      exact columnsString_name_ne cpre cpost n1 n2 ty2 hn
  · rw [h1, h2]
    exact columnsString_added_ne cpre cpost c

theorem schemaString_columns_ne (s1 s2 : Schema) (pre post : GoMap TableSchema) (t : String)
    (cols1 cols2 : List ColumnDefinition)
    (h1 : s1.Schema = pre ++ (t, { Columns := cols1 }) :: post)
    (h2 : s2.Schema = pre ++ (t, { Columns := cols2 }) :: post)
    (hnd : (GoMap.keys s1.Schema).Nodup)
    (hne : columnsString cols1 ≠ columnsString cols2) :
    schemaString s1 ≠ schemaString s2 := by
  intro heq
  have hkeys : GoMap.keys s2.Schema = GoMap.keys s1.Schema := by
    rw [h1, h2, GoMap.keys_middle, GoMap.keys_middle]
  have htmem : t ∈ sortStrings (GoMap.keys s1.Schema) := by
    rw [mem_sortStrings, h1, GoMap.keys_middle]
    simp
  have hsnd : (sortStrings (GoMap.keys s1.Schema)).Nodup :=
    (List.perm_insertionSort strLE _).nodup_iff.2 hnd
  obtain ⟨l1, l2, hl⟩ := List.append_of_mem htmem
  rw [hl] at hsnd
  have hnot1 : t ∉ l1 := fun hm =>
    (List.nodup_append.1 hsnd).2.2 hm (List.mem_cons_self _ _)
  have hnot2 : t ∉ l2 := (List.nodup_cons.1 (List.nodup_append.1 hsnd).2.1).1
  have hg1 : s1.Schema.get? t = some { Columns := cols1 } :=
    GoMap.get?_of_mem hnd (by rw [h1]; simp)
  have hg2 : s2.Schema.get? t = some { Columns := cols2 } :=
    GoMap.get?_of_mem (by rw [hkeys]; exact hnd) (by rw [h2]; simp)
  have hother : ∀ k, k ≠ t → s1.Schema.get? k = s2.Schema.get? k := fun k hk => by
    rw [h1, h2]
    exact GoMap.get?_middle_ne pre post t _ _ k hk
  have hc1 : tablesString s1.Schema l1 = tablesString s2.Schema l1 :=
    tablesString_congr _ _ _ (fun k hk => hother k (fun h => hnot1 (h ▸ hk)))
  have hc2 : tablesString s1.Schema l2 = tablesString s2.Schema l2 :=
    tablesString_congr _ _ _ (fun k hk => hother k (fun h => hnot2 (h ▸ hk)))
  unfold schemaString at heq
  rw [hkeys, hl, tablesString_append, tablesString_append] at heq
  simp only [tablesString, hg1, hg2, hc1, hc2] at heq
  have e1 := str_append_left_cancel heq
  have e2 := str_append_right_cancel e1
  exact hne (str_append_left_cancel e2)

theorem tablesString_length_perm (m : GoMap TableSchema) {l1 l2 : List String}
    (h : l1.Perm l2) : (tablesString m l1).length = (tablesString m l2).length := by
  induction h with
  | nil => rfl
  | cons x _ ih => simp only [tablesString, String.length_append, ih]
  | swap x y l =>
    simp only [tablesString, String.length_append]
    omega
  | trans _ _ ih1 ih2 => exact ih1.trans ih2

theorem GoMap.get?_insert_ne {V : Type} (pre post : GoMap V) (t : String) (x : V)
    (k : String) (hk : k ≠ t) :
    GoMap.get? (pre ++ (t, x) :: post) k = GoMap.get? (pre ++ post) k := by
  have hk1 : ¬ t = k := fun h => hk h.symm
  induction pre with
  | nil => simp [GoMap.get?, hk1]
  | cons e rest ih =>
    obtain ⟨k1, v⟩ := e
    show (if k1 = k then some v else GoMap.get? (rest ++ (t, x) :: post) k) =
      if k1 = k then some v else GoMap.get? (rest ++ post) k
    rw [ih]

theorem schemaString_table_added_ne (s1 s2 : Schema) (pre post : GoMap TableSchema)
    (t : String) (tableSchema : TableSchema)
    (h1 : s1.Schema = pre ++ post) (h2 : s2.Schema = pre ++ (t, tableSchema) :: post)
    (hnd : (GoMap.keys s2.Schema).Nodup)
    (hne : t ≠ "" ∨ tableSchema.Columns ≠ []) :
    schemaString s1 ≠ schemaString s2 := by
  intro heq
  have hk1 : GoMap.keys s1.Schema = GoMap.keys pre ++ GoMap.keys post := by
    rw [h1]
    simp [GoMap.keys]
  have hk2 : GoMap.keys s2.Schema = GoMap.keys pre ++ t :: GoMap.keys post := by
    rw [h2, GoMap.keys_middle]
  have hperm : (sortStrings (GoMap.keys s2.Schema)).Perm
      (t :: sortStrings (GoMap.keys s1.Schema)) := by
    refine (List.perm_insertionSort strLE _).trans ?_
    rw [hk2, hk1]
    exact List.perm_middle.trans
      (List.Perm.cons t (List.perm_insertionSort strLE _).symm)
  have htnot : t ∉ GoMap.keys s1.Schema := by
    rw [hk2] at hnd
    rw [hk1]
    intro hm
    rcases List.mem_append.1 hm with hm | hm
    · exact (List.nodup_append.1 hnd).2.2 hm (List.mem_cons_self _ _)
    · exact (List.nodup_cons.1 (List.nodup_append.1 hnd).2.1).1 hm
  have hg : s2.Schema.get? t = some tableSchema :=
    GoMap.get?_of_mem hnd (by rw [h2]; simp)
  have hsame : tablesString s2.Schema (sortStrings (GoMap.keys s1.Schema)) =
      tablesString s1.Schema (sortStrings (GoMap.keys s1.Schema)) := by
    refine tablesString_congr _ _ _ (fun k hk => ?_)
    rw [h1, h2]
    refine GoMap.get?_insert_ne pre post t tableSchema k (fun h => htnot ?_)
    rw [← h]
    exact (mem_sortStrings _ _).1 hk
  have hlen := congrArg String.length heq
  unfold schemaString at hlen
  rw [tablesString_length_perm s2.Schema hperm] at hlen
  simp only [tablesString, hg, String.length_append, hsame] at hlen
  have hpos : 0 < t.length + (columnsString tableSchema.Columns).length := by
    rcases hne with ht | hc
    · have : t.length ≠ 0 := fun h0 => ht (String.ext (List.length_eq_zero.1 h0))
      omega
    · cases hcols : tableSchema.Columns with
      | nil => exact absurd hcols hc
      | cons c rest =>
        simp only [columnsString, String.length_append]
        have := toString_int_length_pos c.Type_
        omega
  omega

/-- C7 (counterexample): six pairs of different schemas with the same digest input, hence
the same `pluginSchemaHash` under every digest. The schemas `a(bc:1)` and `ab(c:1)`
differ in their table name and column name (`abc1`); `a(), b()` and `ab()` in their
tables (`ab`); `t(x:1, 1:11)` and `t(x:11, 1:1)` in the type codes of two columns
(`tx1111`); `t(1:1, 11:11)` and `t(11:11, 1:1)` in the order of their columns
(`t111111`); `ab(), aba()` and `ba(), aba()` in the name of one table (`ababa`); and
`t(c1:2)` and `t(c:12)` in the name and the type code of one column (`tc12`). -/
theorem pluginSchemaHash_collisions :
    (schemaTableA.Schema ≠ schemaTableAB.Schema ∧
      schemaString schemaTableA = "abc1" ∧ schemaString schemaTableAB = "abc1" ∧
      ∀ GetMD5Hash : String → String,
        pluginSchemaHash GetMD5Hash schemaTableA = pluginSchemaHash GetMD5Hash schemaTableAB) ∧
    (schemaTablesAB.Schema ≠ schemaTableABEmpty.Schema ∧
      schemaString schemaTablesAB = "ab" ∧ schemaString schemaTableABEmpty = "ab" ∧
      ∀ GetMD5Hash : String → String,
        pluginSchemaHash GetMD5Hash schemaTablesAB =
          pluginSchemaHash GetMD5Hash schemaTableABEmpty) ∧
    (schemaTypes1.Schema ≠ schemaTypes2.Schema ∧
      schemaString schemaTypes1 = "tx1111" ∧ schemaString schemaTypes2 = "tx1111" ∧
      ∀ GetMD5Hash : String → String,
        pluginSchemaHash GetMD5Hash schemaTypes1 = pluginSchemaHash GetMD5Hash schemaTypes2) ∧
    (schemaOrder1.Schema ≠ schemaOrder2.Schema ∧
      schemaString schemaOrder1 = "t111111" ∧ schemaString schemaOrder2 = "t111111" ∧
      ∀ GetMD5Hash : String → String,
        pluginSchemaHash GetMD5Hash schemaOrder1 = pluginSchemaHash GetMD5Hash schemaOrder2) ∧
    (schemaRename1.Schema ≠ schemaRename2.Schema ∧
      schemaString schemaRename1 = "ababa" ∧ schemaString schemaRename2 = "ababa" ∧
      ∀ GetMD5Hash : String → String,
        pluginSchemaHash GetMD5Hash schemaRename1 =
          pluginSchemaHash GetMD5Hash schemaRename2) ∧
    (schemaColumn1.Schema ≠ schemaColumn2.Schema ∧
      schemaString schemaColumn1 = "tc12" ∧ schemaString schemaColumn2 = "tc12" ∧
      ∀ GetMD5Hash : String → String,
        pluginSchemaHash GetMD5Hash schemaColumn1 =
          pluginSchemaHash GetMD5Hash schemaColumn2) := by
  have e1 : schemaString schemaTableA = "abc1" := by decide
  have e2 : schemaString schemaTableAB = "abc1" := by decide
  have e3 : schemaString schemaTablesAB = "ab" := by decide
  have e4 : schemaString schemaTableABEmpty = "ab" := by decide
  have e5 : schemaString schemaTypes1 = "tx1111" := by decide
  have e6 : schemaString schemaTypes2 = "tx1111" := by decide
  have e7 : schemaString schemaOrder1 = "t111111" := by decide
  have e8 : schemaString schemaOrder2 = "t111111" := by decide
  have e9 : schemaString schemaRename1 = "ababa" := by decide
  have e10 : schemaString schemaRename2 = "ababa" := by decide
  have e11 : schemaString schemaColumn1 = "tc12" := by decide
  have e12 : schemaString schemaColumn2 = "tc12" := by decide
  refine ⟨⟨by decide, e1, e2, fun md5 => ?_⟩, ⟨by decide, e3, e4, fun md5 => ?_⟩,
    ⟨by decide, e5, e6, fun md5 => ?_⟩, ⟨by decide, e7, e8, fun md5 => ?_⟩,
    ⟨by decide, e9, e10, fun md5 => ?_⟩, ⟨by decide, e11, e12, fun md5 => ?_⟩⟩
  · unfold pluginSchemaHash
    rw [e1, e2]
  · unfold pluginSchemaHash
    rw [e3, e4]
  · unfold pluginSchemaHash
    rw [e5, e6]
  · unfold pluginSchemaHash
    rw [e7, e8]
  · unfold pluginSchemaHash
    rw [e9, e10]
  · unfold pluginSchemaHash
    rw [e11, e12]

/-- C7 (amended): two schemas without duplicate table names of which the one is the other
after a single change (one column changed in its name only or in its type code only, one
column added or removed, or one table added or removed that has a non-empty name or a
column) have different digest inputs, so their `pluginSchemaHash` values are equal only if
the digest maps two different strings to one value. -/
theorem pluginSchemaHash_single_change (s1 s2 : Schema)
    (hnd1 : (GoMap.keys s1.Schema).Nodup) (hnd2 : (GoMap.keys s2.Schema).Nodup)
    (h : SingleChange s1 s2 ∨ SingleChange s2 s1) :
    schemaString s1 ≠ schemaString s2 ∧
    ∀ GetMD5Hash : String → String,
      pluginSchemaHash GetMD5Hash s1 = pluginSchemaHash GetMD5Hash s2 →
        ∃ a b, a ≠ b ∧ GetMD5Hash a = GetMD5Hash b := by
  have hone : ∀ r1 r2 : Schema, (GoMap.keys r1.Schema).Nodup → (GoMap.keys r2.Schema).Nodup →
      SingleChange r1 r2 → schemaString r1 ≠ schemaString r2 := by
    intro r1 r2 h1nd h2nd hc
    rcases hc with ⟨pre, post, t, cols1, cols2, h1, h2, hc⟩ |
      ⟨pre, post, t, tableSchema, h1, h2, hne⟩
    · exact schemaString_columns_ne r1 r2 pre post t cols1 cols2 h1 h2 h1nd
        (columnsString_ne_of_change hc)
    · exact schemaString_table_added_ne r1 r2 pre post t tableSchema h1 h2 h2nd hne
  have hs : schemaString s1 ≠ schemaString s2 := by
    rcases h with h | h
    · exact hone s1 s2 hnd1 hnd2 h
    · exact (hone s2 s1 hnd2 hnd1 h).symm
  exact ⟨hs, fun md5 h => ⟨schemaString s1, schemaString s2, hs, h⟩⟩

/-- C7 (witness): for the schema with the tables `accounts(id:1)` and
`users(name:2, age:1)`, changing the type code of `users.age` from 1 to 3, renaming
`users.age` to `years`, adding the column `users.email` and adding the table `orders`
each change the digest input, and so does removing the table `orders` again. -/
theorem pluginSchemaHash_single_change_witness :
    (GoMap.keys schemaAccountsUsers.Schema).Nodup ∧
    schemaString schemaAccountsUsers ≠ schemaString schemaAgeChanged ∧
    schemaString schemaAccountsUsers ≠ schemaString schemaAgeRenamed ∧
    schemaString schemaAccountsUsers ≠ schemaString schemaEmailAdded ∧
    schemaString schemaAccountsUsers ≠ schemaString schemaOrdersAdded ∧
    schemaString schemaOrdersAdded ≠ schemaString schemaAccountsUsers ∧
    ∀ GetMD5Hash : String → String,
      pluginSchemaHash GetMD5Hash schemaAccountsUsers =
        pluginSchemaHash GetMD5Hash schemaAgeRenamed →
        ∃ a b, a ≠ b ∧ GetMD5Hash a = GetMD5Hash b :=
  ⟨by decide,
    (pluginSchemaHash_single_change schemaAccountsUsers schemaAgeChanged
      (by decide) (by decide)
      (Or.inl (Or.inl ⟨[("accounts", { Columns := [{ Name := "id", Type_ := 1 }] })], [],
        "users", _, _, rfl, rfl,
        Or.inl ⟨[{ Name := "name", Type_ := 2 }], [], "age", "age", 1, 3, rfl, rfl,
          Or.inl ⟨rfl, by decide⟩⟩⟩))).1,
    (pluginSchemaHash_single_change schemaAccountsUsers schemaAgeRenamed
      (by decide) (by decide)
      (Or.inl (Or.inl ⟨[("accounts", { Columns := [{ Name := "id", Type_ := 1 }] })], [],
        "users", _, _, rfl, rfl,
        Or.inl ⟨[{ Name := "name", Type_ := 2 }], [], "age", "years", 1, 1, rfl, rfl,
          Or.inr ⟨by decide, rfl⟩⟩⟩))).1,
    (pluginSchemaHash_single_change schemaAccountsUsers schemaEmailAdded
      (by decide) (by decide)
      (Or.inl (Or.inl ⟨[("accounts", { Columns := [{ Name := "id", Type_ := 1 }] })], [],
        "users", _, _, rfl, rfl,
        Or.inr ⟨[{ Name := "name", Type_ := 2 }], { Name := "email", Type_ := 2 },
          [{ Name := "age", Type_ := 1 }], rfl, rfl⟩⟩))).1,
    (pluginSchemaHash_single_change schemaAccountsUsers schemaOrdersAdded
      (by decide) (by decide)
      (Or.inl (Or.inr ⟨[("accounts", { Columns := [{ Name := "id", Type_ := 1 }] })],
        [("users", { Columns := [{ Name := "name", Type_ := 2 },
                                 { Name := "age", Type_ := 1 }] })], "orders",
        { Columns := [] }, rfl, rfl, Or.inl (by decide)⟩))).1,
    (pluginSchemaHash_single_change schemaOrdersAdded schemaAccountsUsers
      (by decide) (by decide)
      (Or.inr (Or.inr ⟨[("accounts", { Columns := [{ Name := "id", Type_ := 1 }] })],
        [("users", { Columns := [{ Name := "name", Type_ := 2 },
                                 { Name := "age", Type_ := 1 }] })], "orders",
        { Columns := [] }, rfl, rfl, Or.inl (by decide)⟩))).1,
    (pluginSchemaHash_single_change schemaAccountsUsers schemaAgeRenamed
      (by decide) (by decide)
      (Or.inl (Or.inl ⟨[("accounts", { Columns := [{ Name := "id", Type_ := 1 }] })], [],
        "users", _, _, rfl, rfl,
        Or.inl ⟨[{ Name := "name", Type_ := 2 }], [], "age", "years", 1, 1, rfl, rfl,
          Or.inr ⟨by decide, rfl⟩⟩⟩))).2⟩

/-! ## The dynamic-schema prober -/

/-- C8 (the code at the failing input): the connection `legacy` is required and has a
current entry whose schema mode is the empty string; the map that
`getSchemaHashesForDynamicSchemas` passes to `CreateConnectionPlugins` is empty, whereas
the connection `d` with the current mode `dynamic` is selected. -/
theorem connectionsWithDynamicSchema_skips_unset_mode :
    (legacyHeap 2).SchemaMode = "" ∧
    connectionsWithDynamicSchema legacyHeap [("legacy", 2)] [("legacy", 1)] [] = [] ∧
    connectionsWithDynamicSchema driftHeap [("d", 2)] [("d", 1)] [] = [("d", 1)] := by
  decide

/-! ## The connections to create -/

theorem KeyedByName.nil : KeyedByName [] :=
  ⟨List.nodup_nil, fun _ h => absurd h (List.not_mem_nil _)⟩

theorem KeyedByName.delete {m : GoMap Connection} (h : KeyedByName m) (k : String) :
    KeyedByName (m.delete k) :=
  ⟨GoMap.nodup_keys_delete k h.1, fun e he => h.2 e (List.mem_of_mem_filter he)⟩

theorem KeyedByName.set {m : GoMap Connection} (h : KeyedByName m) (c : Connection) :
    KeyedByName (m.set c.Name c) := by
  refine ⟨GoMap.nodup_keys_set _ _ h.1, fun e he => ?_⟩
  rcases List.mem_cons.1 he with heq | hmem
  · rw [heq]
  · exact (h.delete c.Name).2 e hmem

theorem KeyedByName.addChildren {m : GoMap Connection} (h : KeyedByName m)
    (children : List Connection) : KeyedByName (addChildren m children) := by
  unfold Steampipe.addChildren
  induction children generalizing m with
  | nil => exact h
  | cons child rest ih => exact ih (h.set child)

theorem KeyedByName.addConnection {m : GoMap Connection} (h : KeyedByName m)
    (c : Connection) : KeyedByName (addConnection m c) :=
  (h.set c).addChildren c.Connections

theorem KeyedByName.foldl_addConnection {m : GoMap Connection} (h : KeyedByName m)
    (l : List Connection) : KeyedByName (l.foldl Steampipe.addConnection m) := by
  induction l generalizing m with
  | nil => exact h
  | cons c rest ih => exact ih (h.addConnection c)

theorem KeyedByName.foldl_delete {m : GoMap Connection} (h : KeyedByName m)
    (already : GoMap ConnectionPlugin) :
    KeyedByName (already.foldl (fun m entry => m.delete entry.1) m) := by
  induction already generalizing m with
  | nil => exact h
  | cons e rest ih => exact ih (h.delete e.1)

theorem KeyedByName.names {m : GoMap Connection} (h : KeyedByName m) :
    connectionNames (m.map Prod.snd) = GoMap.keys m := by
  unfold connectionNames GoMap.keys
  rw [List.map_map]
  exact List.map_congr_left (fun e he => h.2 e he)

theorem addChildren_keys (m : GoMap Connection) (children : List Connection) (x : String) :
    x ∈ GoMap.keys (addChildren m children) ↔
      x ∈ GoMap.keys m ∨ ∃ child ∈ children, child.Name = x := by
  unfold addChildren
  induction children generalizing m with
  | nil => simp
  | cons child rest ih =>
    rw [List.foldl_cons, ih, GoMap.mem_keys_set]
    constructor
    · rintro ((h | h) | ⟨c, hc, hx⟩)
      · exact Or.inr ⟨child, List.mem_cons_self _ _, h.symm⟩
      · exact Or.inl h
      · exact Or.inr ⟨c, List.mem_cons_of_mem _ hc, hx⟩
    · rintro (h | ⟨c, hc, hx⟩)
      · exact Or.inl (Or.inr h)
      · rcases List.mem_cons.1 hc with heq | hc
        · exact Or.inl (Or.inl (by rw [← hx, heq]))
        · exact Or.inr ⟨c, hc, hx⟩

theorem addConnection_keys (m : GoMap Connection) (c : Connection) (x : String) :
    x ∈ GoMap.keys (addConnection m c) ↔
      x ∈ GoMap.keys m ∨ x = c.Name ∨ ∃ child ∈ c.Connections, child.Name = x := by
  unfold addConnection
  rw [addChildren_keys, GoMap.mem_keys_set]
  tauto

theorem foldl_addConnection_keys (l : List Connection) (m : GoMap Connection) (x : String) :
    x ∈ GoMap.keys (l.foldl addConnection m) ↔
      x ∈ GoMap.keys m ∨
        ∃ c ∈ l, x = c.Name ∨ ∃ child ∈ c.Connections, child.Name = x := by
  induction l generalizing m with
  | nil => simp
  | cons c rest ih =>
    rw [List.foldl_cons, ih, addConnection_keys]
    constructor
    · rintro ((h | h) | ⟨c', hc', hx⟩)
      · exact Or.inl h
      · exact Or.inr ⟨c, List.mem_cons_self _ _, h⟩
      · exact Or.inr ⟨c', List.mem_cons_of_mem _ hc', hx⟩
    · rintro (h | ⟨c', hc', hx⟩)
      · exact Or.inl (Or.inl h)
      · rcases List.mem_cons.1 hc' with heq | hc'
        · exact Or.inl (Or.inr (by rw [← heq]; exact hx))
        · exact Or.inr ⟨c', hc', hx⟩

theorem foldl_delete_keys {V W : Type} (already : GoMap W) (m : GoMap V) (x : String) :
    x ∈ GoMap.keys (already.foldl (fun m entry => m.delete entry.1) m) ↔
      x ∈ GoMap.keys m ∧ x ∉ GoMap.keys already := by
  induction already generalizing m with
  | nil => simp [GoMap.keys]
  | cons e rest ih =>
    rw [List.foldl_cons, ih, GoMap.mem_keys_delete, GoMap.keys_cons, List.mem_cons]
    tauto

theorem getConnectionsToCreate_names
    (Connections : Heap → ConnectionStateMap → List Connection) (heap : Heap)
    (u : ConnectionUpdates) (already : GoMap ConnectionPlugin) :
    connectionNames (getConnectionsToCreate Connections heap u already) =
      GoMap.keys (already.foldl (fun m entry => m.delete entry.1)
        ((Connections heap u.Update).foldl addConnection [])) :=
  ((KeyedByName.nil.foldl_addConnection _).foldl_delete already).names

theorem getConnectionsToCreate_mem_names
    (Connections : Heap → ConnectionStateMap → List Connection) (heap : Heap)
    (u : ConnectionUpdates) (already : GoMap ConnectionPlugin) (x : String) :
    x ∈ connectionNames (getConnectionsToCreate Connections heap u already) ↔
      (∃ c ∈ Connections heap u.Update,
        x = c.Name ∨ ∃ child ∈ c.Connections, child.Name = x) ∧
      x ∉ GoMap.keys already := by
  rw [getConnectionsToCreate_names, foldl_delete_keys, foldl_addConnection_keys]
  simp [GoMap.keys]

/-- C9 (counterexample): Update holds the aggregator `agg` with the children `c1` and
`c2` and no plugin is created yet; the list that `getConnectionsToCreate` returns holds
the aggregator `agg` itself and the second child `c2`. -/
theorem getConnectionsToCreate_keeps_aggregator_and_children :
    "agg" ∈ connectionNames (getConnectionsToCreate (configConnections aggregatorConfig)
      scenarioHeap (updatesOf [("agg", 1)]) []) ∧
    "c2" ∈ connectionNames (getConnectionsToCreate (configConnections aggregatorConfig)
      scenarioHeap (updatesOf [("agg", 1)]) []) := by
  decide

/-- C9 (amended): for every connection of Update and every child of it, the first and the
later ones alike, the list that `getConnectionsToCreate` returns holds a connection with
the name of the child, unless a plugin is already created under that name. -/
theorem getConnectionsToCreate_all_children
    (Connections : Heap → ConnectionStateMap → List Connection) (heap : Heap)
    (u : ConnectionUpdates) (already : GoMap ConnectionPlugin)
    (c child : Connection) (hc : c ∈ Connections heap u.Update)
    (hchild : child ∈ c.Connections) (hnew : child.Name ∉ GoMap.keys already) :
    child.Name ∈ connectionNames (getConnectionsToCreate Connections heap u already) :=
  (getConnectionsToCreate_mem_names Connections heap u already child.Name).2
    ⟨⟨c, hc, Or.inr ⟨child, hchild, rfl⟩⟩, hnew⟩

/-- C9 (witness): the second child `c2` of the aggregator `agg` is in the list, and so
is the first child `c1`. -/
theorem getConnectionsToCreate_all_children_witness :
    "c2" ∉ GoMap.keys ([] : GoMap ConnectionPlugin) ∧
    "c2" ∈ connectionNames (getConnectionsToCreate (configConnections aggregatorConfig)
      scenarioHeap (updatesOf [("agg", 1)]) []) ∧
    "c1" ∈ connectionNames (getConnectionsToCreate (configConnections aggregatorConfig)
      scenarioHeap (updatesOf [("agg", 1)]) []) :=
  ⟨by decide,
    getConnectionsToCreate_all_children (configConnections aggregatorConfig) scenarioHeap
      (updatesOf [("agg", 1)]) [] aggregatorAgg (standalone "c2")
      (List.mem_singleton.2 rfl) (List.mem_cons_of_mem _ (List.mem_singleton.2 rfl))
      (by decide),
    getConnectionsToCreate_all_children (configConnections aggregatorConfig) scenarioHeap
      (updatesOf [("agg", 1)]) [] aggregatorAgg (standalone "c1")
      (List.mem_singleton.2 rfl) (List.mem_cons_self _ _) (by decide)⟩

/-- C10: the list that `getConnectionsToCreate` returns has no two connections with the
same name and no connection whose name is a key of `alreadyCreatedConnectionPlugins`. -/
theorem getConnectionsToCreate_nodup_fresh
    (Connections : Heap → ConnectionStateMap → List Connection) (heap : Heap)
    (u : ConnectionUpdates) (already : GoMap ConnectionPlugin) :
    (connectionNames (getConnectionsToCreate Connections heap u already)).Nodup ∧
    ∀ c ∈ getConnectionsToCreate Connections heap u already,
      c.Name ∉ GoMap.keys already := by
  refine ⟨?_, fun c hc => ?_⟩
  · rw [getConnectionsToCreate_names]
    exact ((KeyedByName.nil.foldl_addConnection _).foldl_delete already).1
  · have hmem : c.Name ∈ connectionNames
        (getConnectionsToCreate Connections heap u already) :=
      List.mem_map.2 ⟨c, hc, rfl⟩
    exact ((getConnectionsToCreate_mem_names Connections heap u already c.Name).1 hmem).2

/-- C10 (witness): Update holds the aggregator `agg` and its child `c1`, and a plugin is
already created for `c2`; the list holds `c1` and `agg` once each and not `c2`. -/
theorem getConnectionsToCreate_nodup_fresh_witness :
    connectionNames (getConnectionsToCreate (configConnections aggregatorConfig)
      scenarioHeap (updatesOf [("agg", 1), ("c1", 2)])
      [("c2", { PluginName := "chaos", ConnectionMap := [] })]) = ["c1", "agg"] ∧
    (connectionNames (getConnectionsToCreate (configConnections aggregatorConfig)
      scenarioHeap (updatesOf [("agg", 1), ("c1", 2)])
      [("c2", { PluginName := "chaos", ConnectionMap := [] })])).Nodup :=
  ⟨by decide,
    (getConnectionsToCreate_nodup_fresh (configConnections aggregatorConfig) scenarioHeap
      (updatesOf [("agg", 1), ("c1", 2)])
      [("c2", { PluginName := "chaos", ConnectionMap := [] })]).1⟩

/-! ## Recording a plugin-load failure (`setError`) -/

theorem setError_of_none {acc : ConnectionUpdates × Heap} {name : String} (err : String)
    (h : acc.1.FinalConnectionState.get? name = none) : setError acc name err = acc := by
  unfold setError
  rw [h]

theorem setError_update_of_some {acc : ConnectionUpdates × Heap} {name : String}
    (err : String) {p : Ptr} (h : acc.1.FinalConnectionState.get? name = some p) :
    (setError acc name err).1.Update = acc.1.Update.delete name := by
  unfold setError
  rw [h]

theorem setError_heap_of_some {acc : ConnectionUpdates × Heap} {name : String}
    (err : String) {p : Ptr} (h : acc.1.FinalConnectionState.get? name = some p) (q : Ptr) :
    (setError acc name err).2 q =
      if q = p then
        { acc.2 p with State := ConnectionStateError, ConnectionError := some err }
      else acc.2 q := by
  unfold setError
  rw [h]
  by_cases hq : q = p
  · simp [Heap.set, hq, ConnectionState.SetError]
  · simp [Heap.set, hq]

theorem setError_heap_other (acc : ConnectionUpdates × Heap) (name err : String) (q : Ptr)
    (hq : acc.1.FinalConnectionState.get? name ≠ some q) :
    (setError acc name err).2 q = acc.2 q := by
  cases h : acc.1.FinalConnectionState.get? name with
  | none => rw [setError_of_none err h]
  | some p =>
    rw [setError_heap_of_some err h, if_neg]
    intro hqp
    exact hq (by rw [h, hqp])

theorem setError_update_keys (acc : ConnectionUpdates × Heap) (name err : String)
    (y : String) :
    y ∈ GoMap.keys (setError acc name err).1.Update ↔
      y ∈ GoMap.keys acc.1.Update ∧
        (y ≠ name ∨ name ∉ GoMap.keys acc.1.FinalConnectionState) := by
  cases h : acc.1.FinalConnectionState.get? name with
  | none =>
    have hn := (GoMap.get?_eq_none_iff _ _).1 h
    rw [setError_of_none err h]
    exact ⟨fun hy => ⟨hy, Or.inr hn⟩, fun hy => hy.1⟩
  | some p =>
    have hm := GoMap.mem_keys_of_get? h
    rw [setError_update_of_some err h, GoMap.mem_keys_delete]
    exact ⟨fun hy => ⟨hy.1, Or.inl hy.2⟩, fun hy => ⟨hy.1, hy.2.resolve_right (fun hn => hn hm)⟩⟩

theorem setError_foldl_update_keys (l : GoMap String) (acc : ConnectionUpdates × Heap)
    (y : String) :
    y ∈ GoMap.keys (l.foldl (fun a entry => setError a entry.1 entry.2) acc).1.Update ↔
      y ∈ GoMap.keys acc.1.Update ∧
        ¬ (y ∈ GoMap.keys l ∧ y ∈ GoMap.keys acc.1.FinalConnectionState) := by
  induction l generalizing acc with
  | nil => simp [GoMap.keys]
  | cons e rest ih =>
    rw [List.foldl_cons, ih, setError_final, setError_update_keys, GoMap.keys_cons,
      List.mem_cons]
    constructor
    · rintro ⟨⟨hy, hne⟩, hrest⟩
      refine ⟨hy, fun hboth => ?_⟩
      rcases hboth.1 with heq | hmem
      · rcases hne with hne | hne
        · exact hne heq
        · exact hne (heq ▸ hboth.2)
      · exact hrest ⟨hmem, hboth.2⟩
    · rintro ⟨hy, hnot⟩
      refine ⟨⟨hy, ?_⟩, fun hboth => hnot ⟨Or.inr hboth.1, hboth.2⟩⟩
      by_cases heq : y = e.1
      · exact Or.inr (fun hm => hnot ⟨Or.inl heq, heq ▸ hm⟩)
      · exact Or.inl heq

theorem setError_foldl_heap_other (l : GoMap String) (acc : ConnectionUpdates × Heap)
    (q : Ptr) (hq : ∀ y ∈ GoMap.keys l, acc.1.FinalConnectionState.get? y ≠ some q) :
    (l.foldl (fun a entry => setError a entry.1 entry.2) acc).2 q = acc.2 q := by
  induction l generalizing acc with
  | nil => rfl
  | cons e rest ih =>
    rw [List.foldl_cons, ih, setError_heap_other]
    · exact hq e.1 (by rw [GoMap.keys_cons]; exact List.mem_cons_self _ _)
    · intro y hy
      rw [setError_final]
      exact hq y (by rw [GoMap.keys_cons]; exact List.mem_cons_of_mem _ hy)

theorem setError_foldl_heap_failed (l : GoMap String) (acc : ConnectionUpdates × Heap)
    (x reason : String) (p : Ptr) (hx : (x, reason) ∈ l) (hnd : (GoMap.keys l).Nodup)
    (hp : acc.1.FinalConnectionState.get? x = some p)
    (hobj : ∀ y ∈ GoMap.keys l, y ≠ x → acc.1.FinalConnectionState.get? y ≠ some p) :
    ((l.foldl (fun a entry => setError a entry.1 entry.2) acc).2 p).State =
        ConnectionStateError ∧
      ((l.foldl (fun a entry => setError a entry.1 entry.2) acc).2 p).ConnectionError =
        some reason := by
  induction l generalizing acc with
  | nil => cases hx
  | cons e rest ih =>
    obtain ⟨n, r⟩ := e
    rw [GoMap.keys_cons, List.nodup_cons] at hnd
    rw [List.foldl_cons]
    rcases List.mem_cons.1 hx with heq | hmem
    · cases heq
      rw [setError_foldl_heap_other, setError_heap_of_some _ hp, if_pos rfl]
      · exact ⟨rfl, rfl⟩
      · intro y hy
        rw [setError_final]
        refine hobj y (by rw [GoMap.keys_cons]; exact List.mem_cons_of_mem _ hy) ?_
        intro hyx
        exact hnd.1 (hyx ▸ hy)
    · refine ih _ hmem hnd.2 (by rw [setError_final]; exact hp) ?_
      intro y hy hyx
      rw [setError_final]
      exact hobj y (by rw [GoMap.keys_cons]; exact List.mem_cons_of_mem _ hy) hyx

theorem populateConnectionPlugins_fst
    (Connections : Heap → ConnectionStateMap → List Connection)
    (CreateConnectionPlugins : List Connection → GoMap ConnectionPlugin × RefreshConnectionResult)
    (acc : ConnectionUpdates × Heap) (already : GoMap ConnectionPlugin) :
    (populateConnectionPlugins Connections CreateConnectionPlugins acc already).1.1.Update =
        ((CreateConnectionPlugins (getConnectionsToCreate Connections acc.2 acc.1
          already)).2.FailedConnections.foldl
          (fun a entry => setError a entry.1 entry.2) acc).1.Update ∧
      (populateConnectionPlugins Connections CreateConnectionPlugins acc already).1.2 =
        ((CreateConnectionPlugins (getConnectionsToCreate Connections acc.2 acc.1
          already)).2.FailedConnections.foldl
          (fun a entry => setError a entry.1 entry.2) acc).2 := by
  simp only [populateConnectionPlugins]
  split <;> exact ⟨rfl, rfl⟩

/-- What `populateConnectionPlugins` does for a connection `x` that plugin loading reports
in `FailedConnections` and that is a key of FinalConnectionState, and for the names that
are not keys of FinalConnectionState. -/
theorem populateConnectionPlugins_failed_final
    (Connections : Heap → ConnectionStateMap → List Connection)
    (CreateConnectionPlugins : List Connection → GoMap ConnectionPlugin × RefreshConnectionResult)
    (acc : ConnectionUpdates × Heap) (already : GoMap ConnectionPlugin)
    (x reason : String) (p : Ptr)
    (hfail : (CreateConnectionPlugins (getConnectionsToCreate Connections acc.2 acc.1
      already)).2.FailedConnections.get? x = some reason)
    (hnd : (GoMap.keys (CreateConnectionPlugins (getConnectionsToCreate Connections acc.2
      acc.1 already)).2.FailedConnections).Nodup)
    (hp : acc.1.FinalConnectionState.get? x = some p)
    (hobj : ∀ y ∈ GoMap.keys (CreateConnectionPlugins (getConnectionsToCreate Connections
      acc.2 acc.1 already)).2.FailedConnections,
      y ≠ x → acc.1.FinalConnectionState.get? y ≠ some p) :
    (x ∉ GoMap.keys
        (populateConnectionPlugins Connections CreateConnectionPlugins acc already).1.1.Update ∧
      (populateConnectionPlugins Connections CreateConnectionPlugins acc
        already).1.1.FinalConnectionState.get? x = some p ∧
      ((populateConnectionPlugins Connections CreateConnectionPlugins acc already).1.2 p).State =
        ConnectionStateError ∧
      ((populateConnectionPlugins Connections CreateConnectionPlugins acc
        already).1.2 p).ConnectionError = some reason) ∧
    ∀ y, y ∉ GoMap.keys acc.1.FinalConnectionState →
      (y ∈ GoMap.keys
          (populateConnectionPlugins Connections CreateConnectionPlugins acc already).1.1.Update ↔
        y ∈ GoMap.keys acc.1.Update) := by
  obtain ⟨hupd, hheap⟩ := populateConnectionPlugins_fst Connections CreateConnectionPlugins
    acc already
  have hmem := GoMap.mem_of_get? hfail
  have hst := setError_foldl_heap_failed _ acc x reason p hmem hnd hp hobj
  refine ⟨⟨?_, ?_, ?_, ?_⟩, fun y hy => ?_⟩
  · rw [hupd, setError_foldl_update_keys]
    exact fun h => h.2 ⟨GoMap.mem_keys_of_get? hfail, GoMap.mem_keys_of_get? hp⟩
  · rw [populateConnectionPlugins_final]
    exact hp
  · rw [hheap]
    exact hst.1
  · rw [hheap]
    exact hst.2
  · rw [hupd, setError_foldl_update_keys]
    exact ⟨fun h => h.1, fun h => ⟨h, fun hb => hy hb.2⟩⟩

/-- C12: for a name `y` other than `x` whose final state is another object than the one
of `x`, `setError` for `x` changes neither whether `y` is a key of Update, nor the entry
of `y` in Update, nor Delete, nor FinalConnectionState, nor the final state of `y`
(state, error, hash and mode). -/
theorem setError_frame (acc : ConnectionUpdates × Heap) (x reason y : String)
    (hne : y ≠ x)
    (hobj : ∀ p, acc.1.FinalConnectionState.get? y = some p →
      acc.1.FinalConnectionState.get? x ≠ some p) :
    (y ∈ GoMap.keys (setError acc x reason).1.Update ↔ y ∈ GoMap.keys acc.1.Update) ∧
    (setError acc x reason).1.Update.get? y = acc.1.Update.get? y ∧
    (setError acc x reason).1.Delete = acc.1.Delete ∧
    (setError acc x reason).1.FinalConnectionState = acc.1.FinalConnectionState ∧
    ∀ p, acc.1.FinalConnectionState.get? y = some p → (setError acc x reason).2 p = acc.2 p := by
  refine ⟨?_, ?_, setError_delete _ _ _, setError_final _ _ _, fun p hp => ?_⟩
  · rw [setError_update_keys]
    exact ⟨fun h => h.1, fun h => ⟨h, Or.inl hne⟩⟩
  · cases h : acc.1.FinalConnectionState.get? x with
    | none => rw [setError_of_none reason h]
    | some q => rw [setError_update_of_some reason h, GoMap.get?_delete, if_neg hne]
  · exact setError_heap_other acc x reason p (hobj p hp)

/-- C12 (witness): recording the failure of `B` leaves `A` in Update and leaves the final
state of `A` (address 1) as it was. -/
theorem setError_frame_witness :
    ("A" ∈ GoMap.keys (setError (updatesWith [("A", 1), ("B", 3)] [("A", 1), ("B", 3)],
        scenarioHeap) "B" "boom").1.Update ↔
      "A" ∈ GoMap.keys (updatesWith [("A", 1), ("B", 3)] [("A", 1), ("B", 3)]).Update) ∧
    (setError (updatesWith [("A", 1), ("B", 3)] [("A", 1), ("B", 3)], scenarioHeap)
      "B" "boom").2 1 = scenarioHeap 1 :=
  have h := setError_frame (updatesWith [("A", 1), ("B", 3)] [("A", 1), ("B", 3)],
    scenarioHeap) "B" "boom" "A" (by decide) (by decide)
  ⟨h.1, h.2.2.2.2 1 (by decide)⟩

/-! ## Plugin validation -/

/-- C13: for a plugin that serves the connection, `validateProtocolVersion` returns a
failure if and only if the protocol version the plugin reports is not 0 and is greater
than the supported version; for the version 0 it returns none, and every failure it
returns has `ShouldDropIfExists` true and names the connection. -/
theorem validateProtocolVersion_iff (ProtocolVersion : Int) (connectionName : String)
    (p : ConnectionPlugin) (d : ConnectionPluginData)
    (hd : p.ConnectionMap.get? connectionName = some d) :
    ∃ r, validateProtocolVersion ProtocolVersion connectionName p = some r ∧
      (r.isSome = true ↔
        d.Schema.ProtocolVersion ≠ 0 ∧ ProtocolVersion < d.Schema.ProtocolVersion) ∧
      (d.Schema.ProtocolVersion = 0 → r = none) ∧
      ∀ f, r = some f → f.ShouldDropIfExists = true ∧ f.ConnectionName = connectionName := by
  unfold validateProtocolVersion
  rw [hd]
  by_cases h0 : d.Schema.ProtocolVersion = 0
  · refine ⟨none, by simp [h0], by simp [h0], fun _ => rfl, fun f hf => by cases hf⟩
  · by_cases hlt : ProtocolVersion < d.Schema.ProtocolVersion
    · refine ⟨some (ValidationFailure.mk p.PluginName connectionName
          "Incompatible steampipe-plugin-sdk version. Please upgrade Steampipe." true),
        by simp only [h0, hlt, if_true, if_false], ?_, fun h => absurd h h0, ?_⟩
      · simp [h0, hlt]
      · intro f hf
        cases hf
        exact ⟨rfl, rfl⟩
    · refine ⟨none, by simp only [h0, hlt, if_false], ?_, fun _ => rfl, fun f hf => by cases hf⟩
      simp [hlt]

/-- C13 (witness): with the supported version 20220201, a plugin reporting 20990101 fails
with `ShouldDropIfExists` true, and plugins reporting 0 or 20220201 pass. -/
theorem validateProtocolVersion_iff_witness :
    (validateProtocolVersion 20220201 "a" (pluginServing ["a"] 20990101)).map
      (fun r => r.map (fun f => f.ShouldDropIfExists)) = some (some true) ∧
    validateProtocolVersion 20220201 "a" (pluginServing ["a"] 0) = some none ∧
    validateProtocolVersion 20220201 "a" (pluginServing ["a"] 20220201) = some none ∧
    ∃ r, validateProtocolVersion 20220201 "a" (pluginServing ["a"] 20990101) = some r ∧
      (r.isSome = true ↔ (20990101 : Int) ≠ 0 ∧ (20220201 : Int) < 20990101) :=
  ⟨by decide, by decide, by decide,
    (validateProtocolVersion_iff 20220201 "a" (pluginServing ["a"] 20990101)
      { Schema := { Schema := [], Mode := "static", ProtocolVersion := 20990101 } }
      (by decide)).imp (fun _ h => ⟨h.1, h.2.1⟩)⟩

/-- C14 (the code at the failing input): the connection `public` has a reserved name and
its plugin reports a protocol version above the supported one; the one failure that
`ValidatePlugins` reports for `public` has `ShouldDropIfExists` true. -/
theorem ValidatePlugins_reserved_name_dropped :
    StringSliceContains ["public", "internal"] "public" = true ∧
    (ValidatePlugins 20220201 ["public", "internal"] [] inListOrder scenarioHeap []
      [("public", pluginServing ["public"] 20990101)]).map
      (fun v => v.validationFailures.map (fun f => (f.ConnectionName, f.ShouldDropIfExists))) =
      some [("public", true)] := by
  decide

theorem validateProtocolVersion_name {ProtocolVersion : Int} {name : String}
    {p : ConnectionPlugin} {f : ValidationFailure}
    (h : validateProtocolVersion ProtocolVersion name p = some (some f)) :
    f.ConnectionName = name := by
  unfold validateProtocolVersion at h
  split at h
  · cases h
  · simp only at h
    split at h
    · cases h
    · split at h
      · cases h
        rfl
      · cases h

theorem validateProtocolVersion_serves {ProtocolVersion : Int} {name : String}
    {p : ConnectionPlugin} {r : Option ValidationFailure}
    (h : validateProtocolVersion ProtocolVersion name p = some r) :
    p.IncludesConnection name = true := by
  unfold validateProtocolVersion at h
  unfold ConnectionPlugin.IncludesConnection
  split at h
  · cases h
  · rename_i d hd
    rw [hd]
    rfl

theorem validateProtocolVersion_isSome {ProtocolVersion : Int} {name : String}
    {p : ConnectionPlugin} (h : p.IncludesConnection name = true) :
    ∃ r, validateProtocolVersion ProtocolVersion name p = some r := by
  unfold ConnectionPlugin.IncludesConnection at h
  unfold validateProtocolVersion
  cases hd : p.ConnectionMap.get? name with
  | none => rw [hd] at h; cases h
  | some d =>
    simp only
    split
    · exact ⟨_, rfl⟩
    · split <;> exact ⟨_, rfl⟩

theorem validateConnectionName_name {Reserved : List String} {name : String}
    {p : ConnectionPlugin} {f : ValidationFailure}
    (h : validateConnectionName Reserved name p = some f) :
    f.ConnectionName = name ∧ f.ShouldDropIfExists = false := by
  unfold validateConnectionName at h
  split at h
  · cases h
    exact ⟨rfl, rfl⟩
  · cases h

theorem validatePlugin_cases {ProtocolVersion : Int} {Reserved : List String}
    {updates : ConnectionStateMap} {acc r : Validation} {entry : String × ConnectionPlugin}
    (h : validatePlugin ProtocolVersion Reserved updates acc entry = some r) :
    (PassesValidation ProtocolVersion Reserved entry.1 entry.2 ∧
        r.validationFailures = acc.validationFailures ∧
        r.validatedPlugins = acc.validatedPlugins.set entry.1 entry.2 ∧
        r.validatedUpdates =
          match updates.get? entry.1 with
          | some connectionState => acc.validatedUpdates.set entry.1 connectionState
          | none => acc.validatedUpdates) ∨
      (¬ PassesValidation ProtocolVersion Reserved entry.1 entry.2 ∧
        r.validatedPlugins = acc.validatedPlugins ∧
        r.validatedUpdates = acc.validatedUpdates ∧
        ∃ f, f.ConnectionName = entry.1 ∧
          r.validationFailures = acc.validationFailures ++ [f]) := by
  unfold validatePlugin at h
  split at h
  · cases h
  · rename_i f hf
    cases h
    exact Or.inr ⟨fun hp => (by rw [hp.1] at hf; cases hf), rfl, rfl, f,
      validateProtocolVersion_name hf, rfl⟩
  · rename_i hpv
    split at h
    · rename_i f hf
      cases h
      exact Or.inr ⟨fun hp => (by rw [hp.2] at hf; cases hf), rfl, rfl, f,
        (validateConnectionName_name hf).1, rfl⟩
    · rename_i hcn
      cases h
      exact Or.inl ⟨⟨hpv, hcn⟩, rfl, rfl, rfl⟩

theorem validatePluginsLoop_returns (ProtocolVersion : Int) (Reserved : List String)
    (updates : ConnectionStateMap) (l : List (String × ConnectionPlugin)) (acc : Validation)
    (hserve : ∀ e ∈ l, e.2.IncludesConnection e.1 = true) :
    ∃ r, validatePluginsLoop ProtocolVersion Reserved updates l acc = some r := by
  induction l generalizing acc with
  | nil => exact ⟨acc, rfl⟩
  | cons e rest ih =>
    unfold validatePluginsLoop
    obtain ⟨r0, hr0⟩ := @validateProtocolVersion_isSome ProtocolVersion e.1 e.2
      (hserve e (List.mem_cons_self _ _))
    have hstep : ∃ acc1, validatePlugin ProtocolVersion Reserved updates acc e = some acc1 := by
      unfold validatePlugin
      rw [hr0]
      cases r0 with
      | some f => exact ⟨_, rfl⟩
      | none =>
        simp only
        split <;> exact ⟨_, rfl⟩
    obtain ⟨acc1, hacc1⟩ := hstep
    rw [hacc1]
    exact ih acc1 (fun e' he' => hserve e' (List.mem_cons_of_mem _ he'))

theorem validatePluginsLoop_spec {ProtocolVersion : Int} {Reserved : List String}
    {updates : ConnectionStateMap} (l : List (String × ConnectionPlugin))
    {acc r : Validation}
    (h : validatePluginsLoop ProtocolVersion Reserved updates l acc = some r) :
    (∀ n, n ∈ GoMap.keys r.validatedPlugins ↔
      n ∈ GoMap.keys acc.validatedPlugins ∨
        ∃ p, (n, p) ∈ l ∧ PassesValidation ProtocolVersion Reserved n p) ∧
    (∀ e ∈ r.validatedPlugins, e ∈ acc.validatedPlugins ∨
      (e ∈ l ∧ PassesValidation ProtocolVersion Reserved e.1 e.2)) ∧
    (∀ n, n ∈ GoMap.keys r.validatedUpdates ↔
      n ∈ GoMap.keys acc.validatedUpdates ∨
        (n ∈ GoMap.keys updates ∧
          ∃ p, (n, p) ∈ l ∧ PassesValidation ProtocolVersion Reserved n p)) ∧
    failureNames r.validationFailures =
      failureNames acc.validationFailures ++
        GoMap.keys (l.filter
          (fun e => decide (¬ PassesValidation ProtocolVersion Reserved e.1 e.2))) := by
  induction l generalizing acc with
  | nil =>
    unfold validatePluginsLoop at h
    cases h
    simp [GoMap.keys]
  | cons e rest ih =>
    unfold validatePluginsLoop at h
    split at h
    · cases h
    · rename_i acc1 hstep
      obtain ⟨ih1, ih2, ih3, ih4⟩ := ih h
      rcases validatePlugin_cases hstep with ⟨hp, hfs, hvp, hvu⟩ | ⟨hnp, hvp, hvu, f, hfn, hfs⟩
      · refine ⟨fun n => ?_, fun e' he' => ?_, fun n => ?_, ?_⟩
        · rw [ih1, hvp, GoMap.mem_keys_set]
          constructor
          · rintro ((hn | hn) | ⟨p, hm, hpp⟩)
            · exact Or.inr ⟨e.2, by rw [hn]; exact List.mem_cons_self _ _, by rw [hn]; exact hp⟩
            · exact Or.inl hn
            · exact Or.inr ⟨p, List.mem_cons_of_mem _ hm, hpp⟩
          · rintro (hn | ⟨p, hm, hpp⟩)
            · exact Or.inl (Or.inr hn)
            · rcases List.mem_cons.1 hm with heq | hm
              · exact Or.inl (Or.inl (by rw [← heq]))
              · exact Or.inr ⟨p, hm, hpp⟩
        · rcases ih2 e' he' with hin | ⟨hin, hpp⟩
          · rw [hvp] at hin
            rcases List.mem_cons.1 hin with heq | hin
            · exact Or.inr ⟨by rw [heq]; exact List.mem_cons_self _ _, by rw [heq]; exact hp⟩
            · exact Or.inl (List.mem_of_mem_filter hin)
          · exact Or.inr ⟨List.mem_cons_of_mem _ hin, hpp⟩
        · rw [ih3, hvu]
          have hkey : n ∈ GoMap.keys (match updates.get? e.1 with
              | some connectionState => acc.validatedUpdates.set e.1 connectionState
              | none => acc.validatedUpdates) ↔
              n ∈ GoMap.keys acc.validatedUpdates ∨ (n = e.1 ∧ n ∈ GoMap.keys updates) := by
            cases hu : updates.get? e.1 with
            | none =>
              have hnot := (GoMap.get?_eq_none_iff _ _).1 hu
              exact ⟨fun hx => Or.inl hx, fun hx => hx.elim id
                (fun hx => absurd (hx.1 ▸ hx.2) hnot)⟩
            | some st =>
              have hin := GoMap.mem_keys_of_get? hu
              simp only [GoMap.mem_keys_set]
              exact ⟨fun hx => hx.elim (fun hx => Or.inr ⟨hx, hx ▸ hin⟩) Or.inl,
                fun hx => hx.elim Or.inr (fun hx => Or.inl hx.1)⟩
          rw [hkey]
          constructor
          · rintro ((hn | ⟨hn, hu⟩) | ⟨hu, p, hm, hpp⟩)
            · exact Or.inl hn
            · exact Or.inr ⟨hu, e.2, by rw [hn]; exact List.mem_cons_self _ _,
                by rw [hn]; exact hp⟩
            · exact Or.inr ⟨hu, p, List.mem_cons_of_mem _ hm, hpp⟩
          · rintro (hn | ⟨hu, p, hm, hpp⟩)
            · exact Or.inl (Or.inl hn)
            · rcases List.mem_cons.1 hm with heq | hm
              · exact Or.inl (Or.inr ⟨by rw [← heq], hu⟩)
              · exact Or.inr ⟨hu, p, hm, hpp⟩
        · rw [ih4, hfs, List.filter_cons_of_neg (by simpa using hp)]
      · refine ⟨fun n => ?_, fun e' he' => ?_, fun n => ?_, ?_⟩
        · rw [ih1, hvp]
          constructor
          · rintro (hn | ⟨p, hm, hpp⟩)
            · exact Or.inl hn
            · exact Or.inr ⟨p, List.mem_cons_of_mem _ hm, hpp⟩
          · rintro (hn | ⟨p, hm, hpp⟩)
            · exact Or.inl hn
            · rcases List.mem_cons.1 hm with heq | hm
              · exact absurd (by rw [← heq]; exact hpp) hnp
              · exact Or.inr ⟨p, hm, hpp⟩
        · rcases ih2 e' he' with hin | ⟨hin, hpp⟩
          · exact Or.inl (hvp ▸ hin)
          · exact Or.inr ⟨List.mem_cons_of_mem _ hin, hpp⟩
        · rw [ih3, hvu]
          constructor
          · rintro (hn | ⟨hu, p, hm, hpp⟩)
            · exact Or.inl hn
            · exact Or.inr ⟨hu, p, List.mem_cons_of_mem _ hm, hpp⟩
          · rintro (hn | ⟨hu, p, hm, hpp⟩)
            · exact Or.inl hn
            · rcases List.mem_cons.1 hm with heq | hm
              · exact absurd (by rw [← heq]; exact hpp) hnp
              · exact Or.inr ⟨hu, p, hm, hpp⟩
        · rw [ih4, hfs, List.filter_cons_of_pos (by simpa using hnp)]
          simp [failureNames, GoMap.keys, hfn]

theorem includeAggregator_keys (name : String) (st : Ptr) (child : String)
    (vp : GoMap ConnectionPlugin) (vu : ConnectionStateMap) (x : String) :
    x ∈ GoMap.keys (includeAggregator name st child vp vu) ↔
      x ∈ GoMap.keys vu ∨ (x = name ∧ ∃ e ∈ vp, e.2.IncludesConnection child = true) := by
  unfold includeAggregator
  induction vp generalizing vu with
  | nil => simp
  | cons e rest ih =>
    rw [List.foldl_cons, ih]
    by_cases hinc : e.2.IncludesConnection child = true
    · simp only [hinc, if_true, GoMap.mem_keys_set, List.mem_cons]
      constructor
      · rintro ((hx | hx) | ⟨hx, e', he', hi⟩)
        · exact Or.inr ⟨hx, e, Or.inl rfl, hinc⟩
        · exact Or.inl hx
        · exact Or.inr ⟨hx, e', Or.inr he', hi⟩
      · rintro (hx | ⟨hx, _⟩)
        · exact Or.inl (Or.inr hx)
        · exact Or.inl (Or.inl hx)
    · simp only [hinc, if_false, List.mem_cons]
      constructor
      · rintro (hx | ⟨hx, e', he', hi⟩)
        · exact Or.inl hx
        · exact Or.inr ⟨hx, e', Or.inr he', hi⟩
      · rintro (hx | ⟨hx, e', he' | he', hi⟩)
        · exact Or.inl hx
        · exact absurd (he' ▸ hi) hinc
        · exact Or.inr ⟨hx, e', he', hi⟩

theorem rangeFirst_mem {firstYielded : String → Nat} {name : String}
    {children : List Connection} {child : Connection}
    (h : rangeFirst firstYielded name children = some child) : child ∈ children := by
  unfold rangeFirst at h
  exact List.getElem?_mem h

theorem rangeFirst_isSome (firstYielded : String → Nat) (name : String)
    (children : List Connection) (h : children ≠ []) :
    (rangeFirst firstYielded name children).isSome = true := by
  unfold rangeFirst
  have hpos : 0 < children.length := List.length_pos.2 h
  have hlt : firstYielded name % children.length < children.length := Nat.mod_lt _ hpos
  rw [List.getElem?_eq_getElem hlt]
  rfl

theorem rangeFirst_nil (firstYielded : String → Nat) (name : String) :
    rangeFirst firstYielded name [] = none := rfl

theorem validateAggregator_spec {config : GoMap Connection} {firstYielded : String → Nat}
    {heap : Heap} {acc r : Validation} {entry : String × Ptr}
    (h : validateAggregator config firstYielded heap acc entry = some r) :
    r.validationFailures = acc.validationFailures ∧
    r.validatedPlugins = acc.validatedPlugins ∧
    ∀ x, x ∈ GoMap.keys r.validatedUpdates ↔
      x ∈ GoMap.keys acc.validatedUpdates ∨
        (x = entry.1 ∧ (heap entry.2).GetType = ConnectionTypeAggregator ∧
          YieldedChildValidated config firstYielded acc.validatedPlugins x) := by
  unfold validateAggregator at h
  split at h
  · rename_i htype
    split at h
    · cases h
    · rename_i connection hconn
      split at h
      · rename_i hnil
        cases h
        refine ⟨rfl, rfl, fun x => ⟨Or.inl, fun hx => hx.elim id ?_⟩⟩
        rintro ⟨hx, _, c, child, hc, hch, _⟩
        rw [hx, hconn] at hc
        cases hc
        rw [hx, hnil] at hch
        cases hch
      · rename_i child hcons
        cases h
        refine ⟨rfl, rfl, fun x => ?_⟩
        show x ∈ GoMap.keys (includeAggregator entry.1 entry.2 child.Name acc.validatedPlugins
          acc.validatedUpdates) ↔ _
        rw [includeAggregator_keys]
        constructor
        · rintro (hx | ⟨hx, hinc⟩)
          · exact Or.inl hx
          · exact Or.inr ⟨hx, htype, connection, child, by rw [hx]; exact hconn,
              by rw [hx]; exact hcons, hinc⟩
        · rintro (hx | ⟨hx, _, c, child1, hc, hch, hinc⟩)
          · exact Or.inl hx
          · rw [hx, hconn] at hc
            cases hc
            rw [hx, hcons] at hch
            cases hch
            exact Or.inr ⟨hx, hinc⟩
  · rename_i htype
    cases h
    exact ⟨rfl, rfl, fun x => ⟨Or.inl, fun hx => hx.elim id (fun hx => absurd hx.2.1 htype)⟩⟩

theorem validateAggregatorsLoop_returns (config : GoMap Connection)
    (firstYielded : String → Nat) (heap : Heap)
    (l : List (String × Ptr)) (acc : Validation)
    (hconfig : ∀ e ∈ l, (heap e.2).GetType = ConnectionTypeAggregator →
      (config.get? e.1).isSome = true) :
    ∃ r, validateAggregatorsLoop config firstYielded heap l acc = some r := by
  induction l generalizing acc with
  | nil => exact ⟨acc, rfl⟩
  | cons e rest ih =>
    unfold validateAggregatorsLoop
    have hstep : ∃ acc1, validateAggregator config firstYielded heap acc e = some acc1 := by
      unfold validateAggregator
      split
      · rename_i htype
        have hs := hconfig e (List.mem_cons_self _ _) htype
        cases hc : config.get? e.1 with
        | none => rw [hc] at hs; cases hs
        | some connection =>
          simp only
          split <;> exact ⟨_, rfl⟩
      · exact ⟨_, rfl⟩
    obtain ⟨acc1, hacc1⟩ := hstep
    rw [hacc1]
    exact ih acc1 (fun e' he' => hconfig e' (List.mem_cons_of_mem _ he'))

theorem validateAggregatorsLoop_spec {config : GoMap Connection}
    {firstYielded : String → Nat} {heap : Heap}
    (l : List (String × Ptr)) {acc r : Validation}
    (h : validateAggregatorsLoop config firstYielded heap l acc = some r) :
    r.validationFailures = acc.validationFailures ∧
    r.validatedPlugins = acc.validatedPlugins ∧
    ∀ x, x ∈ GoMap.keys r.validatedUpdates ↔
      x ∈ GoMap.keys acc.validatedUpdates ∨
        (IsAggregatorUpdate heap l x ∧
          YieldedChildValidated config firstYielded acc.validatedPlugins x) := by
  induction l generalizing acc with
  | nil =>
    unfold validateAggregatorsLoop at h
    cases h
    refine ⟨rfl, rfl, fun x => ⟨Or.inl, fun hx => hx.elim id ?_⟩⟩
    rintro ⟨⟨st, hst, _⟩, _⟩
    cases hst
  | cons e rest ih =>
    unfold validateAggregatorsLoop at h
    split at h
    · cases h
    · rename_i acc1 hstep
      obtain ⟨s1, s2, s3⟩ := validateAggregator_spec hstep
      obtain ⟨i1, i2, i3⟩ := ih h
      refine ⟨i1.trans s1, i2.trans s2, fun x => ?_⟩
      rw [i3, s3, s2]
      constructor
      · rintro ((hx | ⟨hx, htype, hfc⟩) | ⟨⟨st, hst, htype⟩, hfc⟩)
        · exact Or.inl hx
        · exact Or.inr ⟨⟨e.2, by rw [hx]; exact List.mem_cons_self _ _, htype⟩, hfc⟩
        · exact Or.inr ⟨⟨st, List.mem_cons_of_mem _ hst, htype⟩, hfc⟩
      · rintro (hx | ⟨⟨st, hst, htype⟩, hfc⟩)
        · exact Or.inl (Or.inl hx)
        · rcases List.mem_cons.1 hst with heq | hst
          · exact Or.inl (Or.inr ⟨by rw [← heq], by rw [← heq]; exact htype, hfc⟩)
          · exact Or.inr ⟨⟨st, hst, htype⟩, hfc⟩

/-- What `ValidatePlugins` returns when every plugin serves the connection it is
registered for and the configuration knows every aggregator of `updates`. -/
theorem ValidatePlugins_spec (ProtocolVersion : Int) (Reserved : List String)
    (config : GoMap Connection) (firstYielded : String → Nat) (heap : Heap)
    (updates : ConnectionStateMap) (plugins : GoMap ConnectionPlugin)
    (hserve : ∀ e ∈ plugins, e.2.IncludesConnection e.1 = true)
    (hconfig : ∀ e ∈ updates, (heap e.2).GetType = ConnectionTypeAggregator →
      (config.get? e.1).isSome = true) :
    ∃ v, ValidatePlugins ProtocolVersion Reserved config firstYielded heap updates plugins = some v ∧
      (∀ n, n ∈ GoMap.keys v.validatedPlugins ↔
        ∃ p, (n, p) ∈ plugins ∧ PassesValidation ProtocolVersion Reserved n p) ∧
      (∀ e ∈ v.validatedPlugins,
        e ∈ plugins ∧ PassesValidation ProtocolVersion Reserved e.1 e.2) ∧
      (∀ n, n ∈ GoMap.keys v.validatedUpdates ↔
        (n ∈ GoMap.keys updates ∧ n ∈ GoMap.keys v.validatedPlugins) ∨
          (IsAggregatorUpdate heap updates n ∧
            YieldedChildValidated config firstYielded v.validatedPlugins n)) ∧
      failureNames v.validationFailures =
        GoMap.keys (plugins.filter
          (fun e => decide (¬ PassesValidation ProtocolVersion Reserved e.1 e.2))) := by
  obtain ⟨v1, hv1⟩ := validatePluginsLoop_returns ProtocolVersion Reserved updates plugins
    { validationFailures := [], validatedUpdates := [], validatedPlugins := [] } hserve
  obtain ⟨v, hv⟩ := validateAggregatorsLoop_returns config firstYielded heap updates v1 hconfig
  obtain ⟨a1, a2, a3, a4⟩ := validatePluginsLoop_spec plugins hv1
  obtain ⟨b1, b2, b3⟩ := validateAggregatorsLoop_spec updates hv
  have hnil : ∀ n, n ∉ GoMap.keys ([] : ConnectionStateMap) := fun n => by simp [GoMap.keys]
  have hnil' : ∀ n, n ∉ GoMap.keys ([] : GoMap ConnectionPlugin) := fun n => by
    simp [GoMap.keys]
  have hvp : ∀ n, n ∈ GoMap.keys v.validatedPlugins ↔
      ∃ p, (n, p) ∈ plugins ∧ PassesValidation ProtocolVersion Reserved n p := fun n => by
    rw [b2, a1]
    exact ⟨fun h => h.resolve_left (hnil' n), Or.inr⟩
  refine ⟨v, ?_, hvp, ?_, ?_, ?_⟩
  · unfold ValidatePlugins
    rw [hv1]
    exact hv
  · intro e he
    rw [b2] at he
    exact (a2 e he).resolve_left (fun h => by cases h)
  · intro n
    rw [b3, a3, hvp, b2]
    constructor
    · rintro ((h | h) | h)
      · exact absurd h (hnil n)
      · exact Or.inl h
      · exact Or.inr h
    · rintro (h | h)
      · exact Or.inl (Or.inr h)
      · exact Or.inr h
  · rw [b1, a4]
    simp [failureNames]

/-- C15 (counterexample): the aggregator `agg` has the children `public`, a reserved name,
and `c2`, and one plugin serves both. The plugin entry of `public` fails validation, the
entry of `c2` passes, and `agg` is a key of `validatedUpdates`, whichever child the range
yields first, so also when it is `public`. And for the aggregator of `aggregatorConfig`,
whose children `c1` and `c2` have a plugin each, of which the one of `c1` passes
validation and the one of `c2` fails: `agg` is not a key of `validatedUpdates` when the
range yields `c2` first. -/
theorem ValidatePlugins_aggregator_first_child_failed :
    (rangeFirst inListOrder "agg" [standalone "public", standalone "c2"]).map
      (fun c => c.Name) = some "public" ∧
    (ValidatePlugins 20220201 ["public", "internal"] reservedChildConfig inListOrder
      aggregatorHeap [("agg", 1)]
      [("public", pluginServing ["public", "c2"] 0),
       ("c2", pluginServing ["public", "c2"] 0)]).map
      (fun v => (failureNames v.validationFailures, GoMap.keys v.validatedPlugins,
        GoMap.keys v.validatedUpdates)) = some (["public"], ["c2"], ["agg"]) ∧
    (ValidatePlugins 20220201 ["public", "internal"] reservedChildConfig secondChildFirst
      aggregatorHeap [("agg", 1)]
      [("public", pluginServing ["public", "c2"] 0),
       ("c2", pluginServing ["public", "c2"] 0)]).map
      (fun v => (failureNames v.validationFailures, GoMap.keys v.validatedPlugins,
        GoMap.keys v.validatedUpdates)) = some (["public"], ["c2"], ["agg"]) ∧
    (ValidatePlugins 20220201 ["public", "internal"] aggregatorConfig secondChildFirst
      aggregatorHeap [("agg", 1)]
      [("c1", pluginServing ["c1"] 0), ("c2", pluginServing ["c2"] 20990101)]).map
      (fun v => (failureNames v.validationFailures, GoMap.keys v.validatedPlugins,
        GoMap.keys v.validatedUpdates)) = some (["c2"], ["c1"], []) := by
  decide

/-- C15 (amended): when every plugin serves the connection it is registered for and the
configuration knows the aggregators of `updates`, let `child` be the child of an
aggregator of `updates` that the range over its children yields first in this call,
whichever child that is. The aggregator is a key of `validatedUpdates` if and only if some
validated plugin, under whatever name, includes `child`, or the aggregator has a validated
plugin entry of its own. So it is a key when the plugin entry of `child` passes
validation, and it is not when no validated plugin includes `child` and it has no
validated entry of its own. -/
theorem ValidatePlugins_aggregator (ProtocolVersion : Int) (Reserved : List String)
    (config : GoMap Connection) (firstYielded : String → Nat) (heap : Heap)
    (updates : ConnectionStateMap) (plugins : GoMap ConnectionPlugin)
    (hserve : ∀ e ∈ plugins, e.2.IncludesConnection e.1 = true)
    (hconfig : ∀ e ∈ updates, (heap e.2).GetType = ConnectionTypeAggregator →
      (config.get? e.1).isSome = true)
    (agg : String) (st : Ptr) (connection child : Connection)
    (hupd : updates.get? agg = some st)
    (htype : (heap st).GetType = ConnectionTypeAggregator)
    (hconn : config.get? agg = some connection)
    (hchild : rangeFirst firstYielded agg connection.Connections = some child) :
    ∃ v, ValidatePlugins ProtocolVersion Reserved config firstYielded heap updates plugins =
        some v ∧
      (agg ∈ GoMap.keys v.validatedUpdates ↔
        agg ∈ GoMap.keys v.validatedPlugins ∨
          ∃ e ∈ v.validatedPlugins, e.2.IncludesConnection child.Name = true) ∧
      (child.Name ∈ GoMap.keys v.validatedPlugins → agg ∈ GoMap.keys v.validatedUpdates) ∧
      ((∀ e ∈ v.validatedPlugins, e.2.IncludesConnection child.Name = false) →
        agg ∉ GoMap.keys v.validatedPlugins → agg ∉ GoMap.keys v.validatedUpdates) := by
  obtain ⟨v, hv, hvp, hentries, hvu, _⟩ :=
    ValidatePlugins_spec ProtocolVersion Reserved config firstYielded heap updates plugins
      hserve hconfig
  have hfirst : YieldedChildValidated config firstYielded v.validatedPlugins agg ↔
      ∃ e ∈ v.validatedPlugins, e.2.IncludesConnection child.Name = true := by
    constructor
    · rintro ⟨c, child1, hc, hch, hinc⟩
      rw [hconn] at hc
      cases hc
      rw [hchild] at hch
      cases hch
      exact hinc
    · exact fun hinc => ⟨connection, child, hconn, hchild, hinc⟩
  have hagg : IsAggregatorUpdate heap updates agg := ⟨st, GoMap.mem_of_get? hupd, htype⟩
  have hiff : agg ∈ GoMap.keys v.validatedUpdates ↔
      agg ∈ GoMap.keys v.validatedPlugins ∨
        ∃ e ∈ v.validatedPlugins, e.2.IncludesConnection child.Name = true := by
    rw [hvu, hfirst]
    constructor
    · rintro (h | h)
      · exact Or.inl h.2
      · exact Or.inr h.2
    · rintro (h | h)
      · exact Or.inl ⟨GoMap.mem_keys_of_get? hupd, h⟩
      · exact Or.inr ⟨hagg, h⟩
  refine ⟨v, hv, hiff, fun hc => ?_, fun hnone hown hmem => ?_⟩
  · obtain ⟨p, hp⟩ := (GoMap.mem_keys_iff _ _).1 hc
    exact hiff.2 (Or.inr ⟨(child.Name, p), hp,
      validateProtocolVersion_serves (hentries _ hp).2.1⟩)
  · rcases hiff.1 hmem with h | ⟨e, he, hinc⟩
    · exact hown h
    · rw [hnone e he] at hinc
      cases hinc

/-- C15 (witness): the range over the children `c1` and `c2` of the aggregator `agg`
yields `c1` first; the plugin of `c1` passes validation and the plugin of `c2` fails;
`agg` is a key of `validatedUpdates`, and the plugins map has no entry for `agg`. -/
theorem ValidatePlugins_aggregator_witness :
    "agg" ∉ GoMap.keys [("c1", pluginServing ["c1"] 0), ("c2", pluginServing ["c2"] 20990101)] ∧
    (ValidatePlugins 20220201 ["public", "internal"] aggregatorConfig inListOrder
      aggregatorHeap [("agg", 1)]
      [("c1", pluginServing ["c1"] 0), ("c2", pluginServing ["c2"] 20990101)]).map
      (fun v => (failureNames v.validationFailures, GoMap.keys v.validatedPlugins,
        GoMap.keys v.validatedUpdates)) = some (["c2"], ["c1"], ["agg"]) ∧
    ∃ v, ValidatePlugins 20220201 ["public", "internal"] aggregatorConfig inListOrder
        aggregatorHeap [("agg", 1)]
        [("c1", pluginServing ["c1"] 0), ("c2", pluginServing ["c2"] 20990101)] = some v ∧
      ("c1" ∈ GoMap.keys v.validatedPlugins → "agg" ∈ GoMap.keys v.validatedUpdates) :=
  ⟨by decide, by decide,
    (ValidatePlugins_aggregator 20220201 ["public", "internal"] aggregatorConfig
      inListOrder aggregatorHeap [("agg", 1)]
      [("c1", pluginServing ["c1"] 0), ("c2", pluginServing ["c2"] 20990101)]
      (by decide) (by decide) "agg" 1 aggregatorAgg (standalone "c1")
      (by decide) (by decide) rfl rfl).imp (fun _ h => ⟨h.1, h.2.2.1⟩)⟩

/-- C16: when `plugins` has no duplicate key, every plugin serves the connection it is
registered for and the configuration knows the aggregators of `updates`, `ValidatePlugins`
returns, and every name of `plugins` is a key of `validatedPlugins` exactly when its
entry passes both checks, in which case no returned failure names it, and otherwise
exactly one returned failure names it; every failure names a key of `plugins`; and every
key of `validatedUpdates` is a key of `updates` that is a key of `validatedPlugins` or an
aggregator. -/
theorem ValidatePlugins_partition (ProtocolVersion : Int) (Reserved : List String)
    (config : GoMap Connection) (firstYielded : String → Nat) (heap : Heap)
    (updates : ConnectionStateMap) (plugins : GoMap ConnectionPlugin)
    (hnd : (GoMap.keys plugins).Nodup)
    (hserve : ∀ e ∈ plugins, e.2.IncludesConnection e.1 = true)
    (hconfig : ∀ e ∈ updates, (heap e.2).GetType = ConnectionTypeAggregator →
      (config.get? e.1).isSome = true) :
    ∃ v, ValidatePlugins ProtocolVersion Reserved config firstYielded heap updates plugins = some v ∧
      (∀ n p, plugins.get? n = some p →
        (n ∈ GoMap.keys v.validatedPlugins ↔
          PassesValidation ProtocolVersion Reserved n p) ∧
        (n ∈ GoMap.keys v.validatedPlugins →
          List.count n (failureNames v.validationFailures) = 0) ∧
        (n ∉ GoMap.keys v.validatedPlugins →
          List.count n (failureNames v.validationFailures) = 1)) ∧
      (∀ n ∈ failureNames v.validationFailures, n ∈ GoMap.keys plugins) ∧
      (∀ n ∈ GoMap.keys v.validatedUpdates, n ∈ GoMap.keys updates ∧
        (n ∈ GoMap.keys v.validatedPlugins ∨ IsAggregatorUpdate heap updates n)) := by
  obtain ⟨v, hv, hvp, _, hvu, hfs⟩ :=
    ValidatePlugins_spec ProtocolVersion Reserved config firstYielded heap updates plugins
      hserve hconfig
  have hsub : List.Sublist (GoMap.keys (plugins.filter
      (fun e => decide (¬ PassesValidation ProtocolVersion Reserved e.1 e.2))))
      (GoMap.keys plugins) := List.Sublist.map _ (List.filter_sublist plugins)
  have hfnd : (failureNames v.validationFailures).Nodup := by
    rw [hfs]
    exact hnd.sublist hsub
  have hfmem : ∀ n, n ∈ failureNames v.validationFailures ↔
      ∃ p, (n, p) ∈ plugins ∧ ¬ PassesValidation ProtocolVersion Reserved n p := fun n => by
    rw [hfs, GoMap.mem_keys_iff]
    simp only [List.mem_filter, decide_eq_true_eq]
  refine ⟨v, hv, fun n p hnp => ?_, fun n hn => ?_, fun n hn => ?_⟩
  · have hiff : n ∈ GoMap.keys v.validatedPlugins ↔
        PassesValidation ProtocolVersion Reserved n p := by
      rw [hvp]
      constructor
      · rintro ⟨p', hm, hp'⟩
        have := GoMap.get?_of_mem hnd hm
        rw [hnp] at this
        cases this
        exact hp'
      · exact fun hp => ⟨p, GoMap.mem_of_get? hnp, hp⟩
    refine ⟨hiff, fun hin => ?_, fun hnot => ?_⟩
    · refine List.count_eq_zero_of_not_mem (fun hmem => ?_)
      obtain ⟨p', hm, hp'⟩ := (hfmem n).1 hmem
      have := GoMap.get?_of_mem hnd hm
      rw [hnp] at this
      cases this
      exact hp' (hiff.1 hin)
    · exact List.count_eq_one_of_mem hfnd
        ((hfmem n).2 ⟨p, GoMap.mem_of_get? hnp, fun hp => hnot (hiff.2 hp)⟩)
  · obtain ⟨p, hm, _⟩ := (hfmem n).1 hn
    exact (GoMap.mem_keys_iff _ _).2 ⟨p, hm⟩
  · rcases (hvu n).1 hn with h | h
    · exact ⟨h.1, Or.inl h.2⟩
    · obtain ⟨st, hst, _⟩ := h.1
      exact ⟨(GoMap.mem_keys_iff _ _).2 ⟨st, hst⟩, Or.inr h.1⟩

/-- C16 (witness): of the plugins `a`, `b` and `public`, the entry `a` passes, `b` reports
too new a protocol version and `public` is a reserved name; `a` is the one validated
plugin and validated update, and `b` and `public` have one failure each. -/
theorem ValidatePlugins_partition_witness :
    (ValidatePlugins 20220201 ["public", "internal"] [] inListOrder scenarioHeap [("a", 1)]
      [("a", pluginServing ["a"] 0), ("b", pluginServing ["b"] 20990101),
       ("public", pluginServing ["public"] 0)]).map
      (fun v => (failureNames v.validationFailures, GoMap.keys v.validatedPlugins,
        GoMap.keys v.validatedUpdates)) = some (["b", "public"], ["a"], ["a"]) ∧
    ∃ v, ValidatePlugins 20220201 ["public", "internal"] [] inListOrder scenarioHeap
        [("a", 1)]
        [("a", pluginServing ["a"] 0), ("b", pluginServing ["b"] 20990101),
         ("public", pluginServing ["public"] 0)] = some v ∧
      ∀ n ∈ failureNames v.validationFailures,
        n ∈ GoMap.keys [("a", pluginServing ["a"] 0), ("b", pluginServing ["b"] 20990101),
          ("public", pluginServing ["public"] 0)] :=
  ⟨by decide,
    (ValidatePlugins_partition 20220201 ["public", "internal"] [] inListOrder scenarioHeap
      [("a", 1)]
      [("a", pluginServing ["a"] 0), ("b", pluginServing ["b"] 20990101),
       ("public", pluginServing ["public"] 0)]
      (by decide) (by decide) (by decide)).imp (fun _ h => ⟨h.1, h.2.2.1⟩)⟩

/-! ## The final merge -/

theorem Heap.set_set (h : Heap) (p : Ptr) (a b : ConnectionState) :
    (h.set p a).set p b = h.set p b := by
  funext q
  unfold Heap.set
  by_cases hq : q = p <;> simp [hq]

theorem Heap.set_same (h : Heap) (p : Ptr) (a : ConnectionState) : (h.set p a) p = a := by
  simp [Heap.set]

theorem Heap.set_other (h : Heap) {p q : Ptr} (a : ConnectionState) (hq : q ≠ p) :
    (h.set p a) q = h q := by
  simp [Heap.set, hq]

theorem Heap.set_self (h : Heap) (p : Ptr) : h.set p (h p) = h := by
  funext q
  unfold Heap.set
  by_cases hq : q = p <;> simp [hq]

theorem updateSchemaProperties_eq (GetMD5Hash : String → String) (u : ConnectionUpdates)
    (dyn : GoMap String) (heap : Heap) (k : String) (v : Ptr) :
    updateSchemaProperties GetMD5Hash u dyn heap (k, v) =
      (mergeState GetMD5Hash u dyn k (heap v)
        ((u.CurrentConnectionState.get? k).map heap)).map (heap.set v) := by
  unfold updateSchemaProperties mergeState
  simp only []
  generalize u.CurrentConnectionState.get? k = oc
  generalize dyn.get? k = od
  generalize u.ConnectionPlugins.get? k = op
  rcases oc with _ | c
  · rcases od with _ | hash <;> rcases op with _ | p
    all_goals simp only [Option.map_some', Option.map_none', Heap.set_self,
      Heap.set_same, Heap.set_set]
    all_goals cases p.ConnectionMap.get? k <;> simp only [Option.map_none']
    all_goals split <;> simp only [Option.map_some', Heap.set_set]
  · by_cases hc : c = v
    · subst hc
      rcases od with _ | hash <;> rcases op with _ | p
      all_goals simp only [Option.map_some', Option.map_none', Heap.set_self,
        Heap.set_same, Heap.set_set]
      all_goals cases p.ConnectionMap.get? k <;> simp only [Option.map_none']
      all_goals split <;> simp only [Option.map_some', Heap.set_set]
    · have hother : ∀ (h : Heap) (a : ConnectionState), (h.set v a) c = h c :=
        fun h a => Heap.set_other h a hc
      rcases od with _ | hash <;> rcases op with _ | p
      all_goals simp only [Option.map_some', Option.map_none', Heap.set_self,
        Heap.set_same, Heap.set_set, hother]
      all_goals cases p.ConnectionMap.get? k <;> simp only [Option.map_none']
      all_goals split <;> simp only [Option.map_some', Heap.set_set]

theorem exists_ite_some {α : Type} (c : Prop) [Decidable c] (a b : α) :
    ∃ s, (if c then some a else some b) = some s := by
  by_cases h : c
  · exact ⟨a, if_pos h⟩
  · exact ⟨b, if_neg h⟩

theorem mergeState_isSome (GetMD5Hash : String → String) (u : ConnectionUpdates)
    (dyn : GoMap String) (k : String) (seed : ConnectionState)
    (current : Option ConnectionState)
    (hserve : ∀ p, u.ConnectionPlugins.get? k = some p →
      (p.ConnectionMap.get? k).isSome = true) :
    ∃ s, mergeState GetMD5Hash u dyn k seed current = some s := by
  unfold mergeState
  simp only []
  cases hp : u.ConnectionPlugins.get? k with
  | none => exact ⟨_, rfl⟩
  | some p =>
    have hs := hserve p hp
    simp only []
    cases hd : p.ConnectionMap.get? k with
    | none => rw [hd] at hs; cases hs
    | some d =>
      simp only []
      apply exists_ite_some

theorem updateSchemaPropertiesLoop_frame (GetMD5Hash : String → String)
    (u : ConnectionUpdates) (dyn : GoMap String) (l : List (String × Ptr)) (heap : Heap)
    (hserve : ∀ e ∈ l, ∀ p, u.ConnectionPlugins.get? e.1 = some p →
      (p.ConnectionMap.get? e.1).isSome = true) :
    ∃ heap1, updateSchemaPropertiesLoop GetMD5Hash u dyn l heap = some heap1 ∧
      ∀ q, (∀ e ∈ l, e.2 ≠ q) → heap1 q = heap q := by
  induction l generalizing heap with
  | nil => exact ⟨heap, rfl, fun _ _ => rfl⟩
  | cons e rest ih =>
    obtain ⟨k, v⟩ := e
    obtain ⟨s, hs⟩ := mergeState_isSome GetMD5Hash u dyn k (heap v)
      ((u.CurrentConnectionState.get? k).map heap) (hserve (k, v) (List.mem_cons_self _ _))
    obtain ⟨heap1, h1, hframe⟩ := ih (heap.set v s)
      (fun e he => hserve e (List.mem_cons_of_mem _ he))
    refine ⟨heap1, ?_, fun q hq => ?_⟩
    · unfold updateSchemaPropertiesLoop
      rw [updateSchemaProperties_eq, hs]
      exact h1
    · rw [hframe q (fun e he => hq e (List.mem_cons_of_mem _ he)),
        Heap.set_other _ _ (fun h => hq (k, v) (List.mem_cons_self _ _) h.symm)]

theorem updateSchemaPropertiesLoop_entry (GetMD5Hash : String → String)
    (u : ConnectionUpdates) (dyn : GoMap String) (l : List (String × Ptr)) (heap : Heap)
    (k : String) (v : Ptr) (hmem : (k, v) ∈ l) (hnd : (GoMap.keys l).Nodup)
    (hobj : ∀ e ∈ l, e.1 ≠ k →
      e.2 ≠ v ∧ u.CurrentConnectionState.get? k ≠ some e.2)
    (hserve : ∀ e ∈ l, ∀ p, u.ConnectionPlugins.get? e.1 = some p →
      (p.ConnectionMap.get? e.1).isSome = true) :
    ∃ heap1, updateSchemaPropertiesLoop GetMD5Hash u dyn l heap = some heap1 ∧
      mergeState GetMD5Hash u dyn k (heap v)
        ((u.CurrentConnectionState.get? k).map heap) = some (heap1 v) := by
  induction l generalizing heap with
  | nil => cases hmem
  | cons e rest ih =>
    obtain ⟨k', v'⟩ := e
    rw [GoMap.keys_cons, List.nodup_cons] at hnd
    have hserve' : ∀ e ∈ rest, ∀ p, u.ConnectionPlugins.get? e.1 = some p →
        (p.ConnectionMap.get? e.1).isSome = true :=
      fun e he => hserve e (List.mem_cons_of_mem _ he)
    obtain ⟨s, hs⟩ := mergeState_isSome GetMD5Hash u dyn k' (heap v')
      ((u.CurrentConnectionState.get? k').map heap)
      (hserve (k', v') (List.mem_cons_self _ _))
    by_cases hk : k' = k
    · subst hk
      have hv : v' = v := by
        rcases List.mem_cons.1 hmem with heq | hin
        · cases heq
          rfl
        · exact absurd ((GoMap.mem_keys_iff rest k').2 ⟨v, hin⟩) hnd.1
      subst hv
      obtain ⟨heap1, h1, hframe⟩ := updateSchemaPropertiesLoop_frame GetMD5Hash u dyn rest
        (heap.set v' s) hserve'
      refine ⟨heap1, ?_, ?_⟩
      · unfold updateSchemaPropertiesLoop
        rw [updateSchemaProperties_eq, hs]
        exact h1
      · rw [hs, hframe v' (fun e he => ?_), Heap.set_same]
        refine (hobj e (List.mem_cons_of_mem _ he) (fun hek => ?_)).1
        exact hnd.1 ((GoMap.mem_keys_iff rest k').2 ⟨e.2, by rw [← hek]; exact he⟩)
    · have hin : (k, v) ∈ rest := by
        rcases List.mem_cons.1 hmem with heq | hin
        · cases heq
          exact absurd rfl hk
        · exact hin
      obtain ⟨hv', hcur'⟩ := hobj (k', v') (List.mem_cons_self _ _) hk
      obtain ⟨heap1, h1, hval⟩ := ih (heap.set v' s) hin hnd.2
        (fun e he => hobj e (List.mem_cons_of_mem _ he)) hserve'
      refine ⟨heap1, ?_, ?_⟩
      · unfold updateSchemaPropertiesLoop
        rw [updateSchemaProperties_eq, hs]
        exact h1
      · rw [← hval, Heap.set_other _ _ (fun h => hv' h.symm)]
        congr 1
        cases hc : u.CurrentConnectionState.get? k with
        | none => rfl
        | some c =>
          simp only [Option.map_some']
          rw [Heap.set_other _ _ (fun h => hcur' (by rw [hc, h]))]

theorem PluginsServe.serve {u : ConnectionUpdates} (h : PluginsServe u) :
    ∀ e ∈ u.FinalConnectionState, ∀ p, u.ConnectionPlugins.get? e.1 = some p →
      (p.ConnectionMap.get? e.1).isSome = true := by
  intro e he p hp
  have := h e he
  rw [hp] at this
  exact this

/-- The final merge returns, and leaves in the final state object of `k` the state that
the body of its loop computes from the heap it starts with. -/
theorem updateRequiredState_entry (GetMD5Hash : String → String) (u : ConnectionUpdates)
    (dyn : GoMap String) (heap : Heap) (k : String) (v : Ptr)
    (hobj : DistinctObjects u k v) (hserve : PluginsServe u)
    (hfinal : u.FinalConnectionState.get? k = some v) :
    ∃ heap1, updateRequiredStateWithSchemaProperties GetMD5Hash u dyn heap = some heap1 ∧
      mergeState GetMD5Hash u dyn k (heap v)
        ((u.CurrentConnectionState.get? k).map heap) = some (heap1 v) :=
  updateSchemaPropertiesLoop_entry GetMD5Hash u dyn u.FinalConnectionState heap k v
    (GoMap.mem_of_get? hfinal) hobj.1 hobj.2 hserve.serve

/-- C17: a connection with a current state, absent from the dynamic hash map and without
entry in `ConnectionPlugins`, whose final state object is that of no other connection,
ends the final merge with the schema hash and the schema mode of its current state. -/
theorem updateRequiredState_carry_over (GetMD5Hash : String → String)
    (u : ConnectionUpdates) (dyn : GoMap String) (heap : Heap) (k : String) (v cur : Ptr)
    (hobj : DistinctObjects u k v) (hserve : PluginsServe u)
    (hfinal : u.FinalConnectionState.get? k = some v)
    (hcur : u.CurrentConnectionState.get? k = some cur)
    (hdyn : dyn.get? k = none) (hplug : u.ConnectionPlugins.get? k = none) :
    ∃ heap1, updateRequiredStateWithSchemaProperties GetMD5Hash u dyn heap = some heap1 ∧
      (heap1 v).SchemaHash = (heap cur).SchemaHash ∧
      (heap1 v).SchemaMode = (heap cur).SchemaMode := by
  obtain ⟨heap1, h1, hval⟩ :=
    updateRequiredState_entry GetMD5Hash u dyn heap k v hobj hserve hfinal
  refine ⟨heap1, h1, ?_⟩
  simp only [mergeState, hcur, hdyn, hplug, Option.map_some', Option.some.injEq] at hval
  rw [← hval]
  exact ⟨rfl, rfl⟩

/-- C17 (witness): in the scenario "A unchanged, B new" no plugin is loaded for `A`, and
the final state of `A` (address 1) keeps the hash `h1` and the mode `static`. -/
theorem updateRequiredState_carry_over_witness :
    (scenarioHeap 2).SchemaHash = "h1" ∧
    ∃ heap1, updateRequiredStateWithSchemaProperties sampleDigest
        (scenarioUpdates (pluginServing ["B"] 0)) [] scenarioHeap = some heap1 ∧
      (heap1 1).SchemaHash = (scenarioHeap 2).SchemaHash ∧
      (heap1 1).SchemaMode = (scenarioHeap 2).SchemaMode :=
  ⟨by decide,
    updateRequiredState_carry_over sampleDigest (scenarioUpdates (pluginServing ["B"] 0)) []
      scenarioHeap "A" 1 2 (by decide) (by decide) (by decide) (by decide) (by decide)
      (by decide)⟩

/-- C18 (counterexample): in the scenario "A unchanged, B new" the plugin of `B` is loaded
and reports the mode `static`; `NewConnectionUpdates` returns, `B` has a plugin in
`ConnectionPlugins`, and the final state of `B` (address 3) has the mode `static` and the
empty schema hash, which is not the hash `#` of the schema the plugin reports. -/
theorem NewConnectionUpdates_static_hash_empty :
    (NewConnectionUpdates ConnectionState.Equals sampleDigest sampleConnections
        samplePlugins samplePlugins
        { acquireError := none, foreignSchemaNames := Except.ok ["C"],
          currentConnectionState := Except.ok [("A", 2)],
          requiredConnectionState := Except.ok ([("A", 1), ("B", 3)], []), modTime := 7 }
        scenarioHeap []).map
      (fun out => (out.updates.map (fun u => (u.ConnectionPlugins.get? "B").isSome),
        (out.heap 3).SchemaMode, (out.heap 3).SchemaHash)) =
      some (some true, "static", "") ∧
    pluginSchemaHash sampleDigest { Schema := [], Mode := "static", ProtocolVersion := 0 } =
      "#" := by
  decide

/-- C18 (amended): a connection without current state and without entry in the dynamic
hash map, for which a plugin is loaded that serves it, ends the final merge with the mode
that the plugin reports; its schema hash is `pluginSchemaHash` of the schema the plugin
reports when that mode is dynamic and the seeded hash is empty, and stays the seeded hash
when the mode is not dynamic. -/
theorem updateRequiredState_new_connection (GetMD5Hash : String → String)
    (u : ConnectionUpdates) (dyn : GoMap String) (heap : Heap) (k : String) (v : Ptr)
    (p : ConnectionPlugin) (d : ConnectionPluginData)
    (hobj : DistinctObjects u k v) (hserve : PluginsServe u)
    (hfinal : u.FinalConnectionState.get? k = some v)
    (hcur : u.CurrentConnectionState.get? k = none)
    (hdyn : dyn.get? k = none) (hplug : u.ConnectionPlugins.get? k = some p)
    (hd : p.ConnectionMap.get? k = some d) :
    ∃ heap1, updateRequiredStateWithSchemaProperties GetMD5Hash u dyn heap = some heap1 ∧
      (heap1 v).SchemaMode = d.Schema.Mode ∧
      (d.Schema.Mode = SchemaModeDynamic → (heap v).SchemaHash = "" →
        (heap1 v).SchemaHash = pluginSchemaHash GetMD5Hash d.Schema) ∧
      (d.Schema.Mode ≠ SchemaModeDynamic → (heap1 v).SchemaHash = (heap v).SchemaHash) := by
  obtain ⟨heap1, h1, hval⟩ :=
    updateRequiredState_entry GetMD5Hash u dyn heap k v hobj hserve hfinal
  refine ⟨heap1, h1, ?_⟩
  simp only [mergeState, hcur, hdyn, hplug, hd, Option.map_none'] at hval
  by_cases hm : d.Schema.Mode = SchemaModeDynamic ∧ (heap v).SchemaHash = ""
  · rw [if_pos hm, Option.some.injEq] at hval
    rw [← hval]
    exact ⟨rfl, fun _ _ => rfl, fun hne => absurd hm.1 hne⟩
  · rw [if_neg hm, Option.some.injEq] at hval
    rw [← hval]
    exact ⟨rfl, fun h1 h2 => absurd ⟨h1, h2⟩ hm, fun _ => rfl⟩

/-- C18 (witness): the plugin loaded for the new connection `B` reports the mode
`dynamic`; the final state of `B` (address 3) gets the hash of the schema it reports. -/
theorem updateRequiredState_new_connection_witness :
    (scenarioHeap 3).SchemaHash = "" ∧
    ∃ heap1, updateRequiredStateWithSchemaProperties sampleDigest
        (scenarioUpdates (dynamicPlugin "B")) [] scenarioHeap = some heap1 ∧
      (heap1 3).SchemaMode = "dynamic" ∧
      (heap1 3).SchemaHash = pluginSchemaHash sampleDigest schemaAccountsUsers :=
  ⟨by decide,
    (updateRequiredState_new_connection sampleDigest (scenarioUpdates (dynamicPlugin "B")) []
      scenarioHeap "B" 3 (dynamicPlugin "B") { Schema := schemaAccountsUsers }
      (by decide) (by decide) (by decide) (by decide) (by decide) (by decide)
      (by decide)).imp (fun _ h => ⟨h.1, h.2.1, h.2.2.1 (by decide) (by decide)⟩)⟩

/-- C19: for a connection of FinalConnectionState whose final state object is that of no
other connection, the final merge leaves the schema hash that the precedence prescribes,
`precedenceHash`: the hash of the dynamic probe (a digest, not the empty string) if the
connection is in the dynamic hash map; otherwise the hash of the schema of the loaded
plugin if that reports the dynamic mode and the carried hash is empty; otherwise the hash
carried from the current state, or the seeded hash when there is no current state. -/
theorem updateRequiredState_precedence (GetMD5Hash : String → String)
    (u : ConnectionUpdates) (dyn : GoMap String) (heap : Heap) (k : String) (v : Ptr)
    (hobj : DistinctObjects u k v) (hserve : PluginsServe u)
    (hfinal : u.FinalConnectionState.get? k = some v)
    (hdigest : ∀ h, dyn.get? k = some h → h ≠ "") :
    ∃ heap1, updateRequiredStateWithSchemaProperties GetMD5Hash u dyn heap = some heap1 ∧
      (heap1 v).SchemaHash =
        precedenceHash GetMD5Hash (dyn.get? k) (loadedSchema u k) (carriedHash u heap k v) := by
  obtain ⟨heap1, h1, hval⟩ :=
    updateRequiredState_entry GetMD5Hash u dyn heap k v hobj hserve hfinal
  refine ⟨heap1, h1, ?_⟩
  have hs := hserve.serve (k, v) (GoMap.mem_of_get? hfinal)
  unfold mergeState at hval
  unfold precedenceHash loadedSchema carriedHash
  simp only [] at hval
  cases hdyn : dyn.get? k with
  | some hash =>
    have hne := hdigest hash hdyn
    simp only [hdyn] at hval
    cases hp : u.ConnectionPlugins.get? k with
    | none =>
      simp only [hp, Option.some.injEq] at hval
      rw [← hval]
    | some p =>
      simp only [hp] at hval
      cases hd : p.ConnectionMap.get? k with
      | none => rw [hd] at hval; cases hval
      | some d =>
        simp only [hd, hne, and_false, if_false, Option.some.injEq] at hval
        rw [← hval]
  | none =>
    simp only [hdyn] at hval
    cases hp : u.ConnectionPlugins.get? k with
    | none =>
      simp only [hp, Option.some.injEq] at hval
      rw [← hval]
      cases u.CurrentConnectionState.get? k <;> rfl
    | some p =>
      simp only [hp] at hval
      cases hd : p.ConnectionMap.get? k with
      | none => rw [hd] at hval; cases hval
      | some d =>
        simp only [hd, Option.map_some'] at hval ⊢
        cases hc : u.CurrentConnectionState.get? k with
        | none =>
          simp only [hc, Option.map_none'] at hval
          by_cases hm : d.Schema.Mode = SchemaModeDynamic ∧ (heap v).SchemaHash = ""
          · rw [if_pos hm, Option.some.injEq] at hval
            rw [← hval, if_pos hm]
          · rw [if_neg hm, Option.some.injEq] at hval
            rw [← hval, if_neg hm]
        | some c =>
          simp only [hc, Option.map_some'] at hval
          by_cases hm : d.Schema.Mode = SchemaModeDynamic ∧ (heap c).SchemaHash = ""
          · rw [if_pos hm, Option.some.injEq] at hval
            rw [← hval, if_pos hm]
          · rw [if_neg hm, Option.some.injEq] at hval
            rw [← hval, if_neg hm]

/-- C19 (witness): in the scenario "A unchanged, B new" with a dynamic plugin loaded for
`B`, and with `A` in the dynamic hash map with the hash `probed`, the final merge leaves
`A` the probed hash and `B` the hash of the schema of its plugin. -/
theorem updateRequiredState_precedence_witness :
    (∃ heap1, updateRequiredStateWithSchemaProperties sampleDigest
        (scenarioUpdates (dynamicPlugin "B")) [("A", "probed")] scenarioHeap = some heap1 ∧
      (heap1 1).SchemaHash = "probed") ∧
    ∃ heap1, updateRequiredStateWithSchemaProperties sampleDigest
        (scenarioUpdates (dynamicPlugin "B")) [("A", "probed")] scenarioHeap = some heap1 ∧
      (heap1 3).SchemaHash = pluginSchemaHash sampleDigest schemaAccountsUsers :=
  ⟨updateRequiredState_precedence sampleDigest (scenarioUpdates (dynamicPlugin "B"))
      [("A", "probed")] scenarioHeap "A" 1 (by decide) (by decide) (by decide) (by decide),
    updateRequiredState_precedence sampleDigest (scenarioUpdates (dynamicPlugin "B"))
      [("A", "probed")] scenarioHeap "B" 3 (by decide) (by decide) (by decide) (by decide)⟩

/-! ## The outcomes of `NewConnectionUpdates` -/

theorem foldl_set_keys {V : Type} (l m : GoMap V) (n : String) :
    n ∈ GoMap.keys (l.foldl (fun m entry => m.set entry.1 entry.2) m) ↔
      n ∈ GoMap.keys m ∨ n ∈ GoMap.keys l := by
  induction l generalizing m with
  | nil => simp [GoMap.keys]
  | cons e rest ih =>
    rw [List.foldl_cons, ih, GoMap.mem_keys_set, GoMap.keys_cons, List.mem_cons]
    tauto

theorem foldl_set_get?_of_not_mem {V : Type} (l m : GoMap V) (n : String)
    (h : n ∉ GoMap.keys l) :
    (l.foldl (fun m entry => m.set entry.1 entry.2) m).get? n = m.get? n := by
  induction l generalizing m with
  | nil => rfl
  | cons e rest ih =>
    rw [GoMap.keys_cons, List.mem_cons, not_or] at h
    rw [List.foldl_cons, ih _ h.2, GoMap.get?_set, if_neg h.1]

theorem foldl_set_get? {V : Type} (l m : GoMap V) (n : String) (p : V)
    (hnd : (GoMap.keys l).Nodup) (h : l.get? n = some p) :
    (l.foldl (fun m entry => m.set entry.1 entry.2) m).get? n = some p := by
  induction l generalizing m with
  | nil => cases h
  | cons e rest ih =>
    obtain ⟨k, v⟩ := e
    rw [GoMap.keys_cons, List.nodup_cons] at hnd
    rw [List.foldl_cons]
    by_cases hk : k = n
    · subst hk
      simp only [GoMap.get?, if_true, Option.some.injEq] at h
      subst h
      rw [foldl_set_get?_of_not_mem _ _ _ hnd.1, GoMap.get?_set, if_pos rfl]
    · simp only [GoMap.get?, if_neg hk] at h
      exact ih _ hnd.2 h

theorem populateConnectionPlugins_snd
    (Connections : Heap → ConnectionStateMap → List Connection)
    (CreateConnectionPlugins : List Connection → GoMap ConnectionPlugin × RefreshConnectionResult)
    (acc : ConnectionUpdates × Heap) (already : GoMap ConnectionPlugin) :
    (populateConnectionPlugins Connections CreateConnectionPlugins acc already).2 =
      (CreateConnectionPlugins (getConnectionsToCreate Connections acc.2 acc.1 already)).2 := by
  simp only [populateConnectionPlugins]
  split <;> rfl

theorem populateConnectionPlugins_plugins
    (Connections : Heap → ConnectionStateMap → List Connection)
    (CreateConnectionPlugins : List Connection → GoMap ConnectionPlugin × RefreshConnectionResult)
    (acc : ConnectionUpdates × Heap) (already : GoMap ConnectionPlugin)
    (h : (populateConnectionPlugins Connections CreateConnectionPlugins acc already).2.Error =
      none) :
    (populateConnectionPlugins Connections CreateConnectionPlugins acc
      already).1.1.ConnectionPlugins =
      already.foldl (fun m entry => m.set entry.1 entry.2)
        (CreateConnectionPlugins (getConnectionsToCreate Connections acc.2 acc.1 already)).1 := by
  rw [populateConnectionPlugins_snd] at h
  simp only [populateConnectionPlugins]
  split
  · rename_i e he
    rw [h] at he
    cases he
  · rfl

theorem getSchemaHashes_error_iff (GetMD5Hash : String → String)
    (Connections : Heap → ConnectionStateMap → List Connection)
    (probePlugins : List Connection → GoMap ConnectionPlugin × RefreshConnectionResult)
    (heap : Heap) (required current : ConnectionStateMap) :
    (∃ err, getSchemaHashesForDynamicSchemas GetMD5Hash Connections probePlugins heap
        required current = some (Except.error err)) ↔
      (probePlugins (Connections heap
        (connectionsWithDynamicSchema heap current required []))).2.Error ≠ none := by
  simp only [getSchemaHashesForDynamicSchemas]
  cases hE : (probePlugins (Connections heap
      (connectionsWithDynamicSchema heap current required []))).2.Error with
  | some e => simp
  | none =>
    simp only [ne_eq, not_true_eq_false, iff_false, not_exists]
    intro err
    split <;> simp

/-- C20 (counterexample): the four loads succeed and the dynamic probe obtains a plugin
for `d`, then the plugin loading after the diff returns an error;
`NewConnectionUpdates` returns no `ConnectionUpdates`, and the result it returns holds
neither updates nor the plugin of the probe. -/
theorem NewConnectionUpdates_fails_after_diff :
    (getSchemaHashesForDynamicSchemas sampleDigest sampleConnections samplePlugins driftHeap
        [("d", 1)] [("d", 2)]).map
      (fun r => r.toOption.map (fun x => GoMap.keys x.2)) = some (some ["d"]) ∧
    (NewConnectionUpdates ConnectionState.Equals sampleDigest sampleConnections samplePlugins
        fatalPlugins
        { acquireError := none, foreignSchemaNames := Except.ok [],
          currentConnectionState := Except.ok [("d", 2)],
          requiredConnectionState := Except.ok ([("d", 1)], []), modTime := 7 }
        driftHeap []).map
      (fun out => (out.updates.isSome, out.res.Updates.isSome, out.res.Error)) =
      some (false, false, some "plugin manager unavailable") := by
  decide

/-- C20 (amended): `NewConnectionUpdates` returns no `ConnectionUpdates` when one of the
four loads fails; when the four loads succeed and it returns, it returns no
`ConnectionUpdates` if and only if the plugin loading of the dynamic probe or the plugin
loading after the diff returns an error (connections reported in `FailedConnections` do
not count); and when it returns a `ConnectionUpdates`, every plugin that the dynamic
probe obtained is an entry of its `ConnectionPlugins`. -/
theorem NewConnectionUpdates_outcome
    (Equals : ConnectionState → ConnectionState → Bool) (GetMD5Hash : String → String)
    (Connections : Heap → ConnectionStateMap → List Connection)
    (probePlugins loadPlugins :
      List Connection → GoMap ConnectionPlugin × RefreshConnectionResult)
    (heap : Heap) (force : List String) :
    (∀ loaded : Loaded, loaded.Fails →
      ∃ res, NewConnectionUpdates Equals GetMD5Hash Connections probePlugins loadPlugins
        loaded heap force = some { updates := none, res := res, heap := heap }) ∧
    ∀ (foreign : List String) (current required : ConnectionStateMap)
      (missing : GoMap (List Connection)) (modTime : Nat) (out : Outcome),
      NewConnectionUpdates Equals GetMD5Hash Connections probePlugins loadPlugins
        { acquireError := none, foreignSchemaNames := Except.ok foreign,
          currentConnectionState := Except.ok current,
          requiredConnectionState := Except.ok (required, missing), modTime := modTime }
        heap force = some out →
      (out.updates = none ↔
        ((probePlugins (Connections heap
            (connectionsWithDynamicSchema heap current required []))).2.Error ≠ none ∨
          ∃ dyn plugins,
            getSchemaHashesForDynamicSchemas GetMD5Hash Connections probePlugins heap
              required current = some (Except.ok (dyn, plugins)) ∧
            (loadPlugins (getConnectionsToCreate Connections
              (diffStage Equals required current missing force dyn foreign modTime heap).2
              (diffStage Equals required current missing force dyn foreign modTime heap).1
              plugins)).2.Error ≠ none)) ∧
      ∀ u, out.updates = some u →
        ∃ dyn plugins,
          getSchemaHashesForDynamicSchemas GetMD5Hash Connections probePlugins heap
            required current = some (Except.ok (dyn, plugins)) ∧
          (∀ n ∈ GoMap.keys plugins, n ∈ GoMap.keys u.ConnectionPlugins) ∧
          ((GoMap.keys plugins).Nodup → ∀ n p, plugins.get? n = some p →
            u.ConnectionPlugins.get? n = some p) := by
  constructor
  · intro loaded hf
    unfold NewConnectionUpdates
    split
    · exact ⟨_, rfl⟩
    split
    · exact ⟨_, rfl⟩
    split
    · exact ⟨_, rfl⟩
    split
    · exact ⟨_, rfl⟩
    rename_i _ h1 _ _ h2 _ _ h3 _ _ _ h4
    rcases hf with h | ⟨e, h⟩ | ⟨e, h⟩ | ⟨e, h⟩
    · exact absurd h1 h
    · rw [h2] at h
      cases h
    · rw [h3] at h
      cases h
    · rw [h4] at h
      cases h
  · intro foreign current required missing modTime out hrun
    have herr := getSchemaHashes_error_iff GetMD5Hash Connections probePlugins heap required
      current
    unfold NewConnectionUpdates at hrun
    simp only [] at hrun
    split at hrun
    · cases hrun
    · rename_i err hg
      cases hrun
      refine ⟨⟨fun _ => Or.inl (herr.1 ⟨err, hg⟩), fun _ => rfl⟩, fun u hu => by cases hu⟩
    · rename_i dyn plugins hg
      have hnoerr : ¬ (probePlugins (Connections heap
          (connectionsWithDynamicSchema heap current required []))).2.Error ≠ none := by
        intro hne
        obtain ⟨err, he⟩ := herr.2 hne
        rw [hg] at he
        cases he
      split at hrun
      · rename_i e hE
        cases hrun
        refine ⟨⟨fun _ => Or.inr ⟨dyn, plugins, hg, ?_⟩, fun _ => rfl⟩,
          fun u hu => by cases hu⟩
        rw [populateConnectionPlugins_snd] at hE
        rw [hE]
        exact fun h => by cases h
      · rename_i hE
        split at hrun
        · cases hrun
        · cases hrun
          refine ⟨⟨fun h => (by cases h), ?_⟩, fun u hu => ?_⟩
          · rintro (h | ⟨dyn1, plugins1, hg1, hne⟩)
            · exact absurd h hnoerr
            · rw [hg] at hg1
              cases hg1
              rw [populateConnectionPlugins_snd] at hE
              exact absurd hE hne
          · simp only [Option.some.injEq] at hu
            subst hu
            refine ⟨dyn, plugins, hg, fun n hn => ?_, fun hnd n p hp => ?_⟩
            · rw [populateConnectionPlugins_plugins _ _ _ _ hE, foldl_set_keys]
              exact Or.inr hn
            · rw [populateConnectionPlugins_plugins _ _ _ _ hE]
              exact foldl_set_get? _ _ n p hnd hp

/-- C20 (witness): when the session cannot be acquired no `ConnectionUpdates` is returned;
when every load succeeds and the plugin of `d` is obtained by the dynamic probe, the
`ConnectionUpdates` returned holds that plugin under `d`. -/
theorem NewConnectionUpdates_outcome_witness :
    (∃ res, NewConnectionUpdates ConnectionState.Equals sampleDigest sampleConnections
        samplePlugins samplePlugins
        { acquireError := some "pool exhausted", foreignSchemaNames := Except.ok [],
          currentConnectionState := Except.ok [("d", 2)],
          requiredConnectionState := Except.ok ([("d", 1)], []), modTime := 7 }
        driftHeap [] = some { updates := none, res := res, heap := driftHeap }) ∧
    (NewConnectionUpdates ConnectionState.Equals sampleDigest sampleConnections samplePlugins
        samplePlugins
        { acquireError := none, foreignSchemaNames := Except.ok [],
          currentConnectionState := Except.ok [("d", 2)],
          requiredConnectionState := Except.ok ([("d", 1)], []), modTime := 7 }
        driftHeap []).map
      (fun out => out.updates.map (fun u => GoMap.keys u.ConnectionPlugins)) =
      some (some ["d"]) :=
  ⟨(NewConnectionUpdates_outcome ConnectionState.Equals sampleDigest sampleConnections
      samplePlugins samplePlugins driftHeap []).1
      { acquireError := some "pool exhausted", foreignSchemaNames := Except.ok [],
        currentConnectionState := Except.ok [("d", 2)],
        requiredConnectionState := Except.ok ([("d", 1)], []), modTime := 7 }
      (Or.inl (by decide)),
    by decide⟩

/-! ## Aggregators and the plugins of their later children -/

theorem validatePluginsLoop_entries {ProtocolVersion : Int} {Reserved : List String}
    {updates : ConnectionStateMap} (l : List (String × ConnectionPlugin))
    {acc r : Validation} (hnd : (GoMap.keys l).Nodup)
    (h : validatePluginsLoop ProtocolVersion Reserved updates l acc = some r)
    (e : String × ConnectionPlugin)
    (he : (e ∈ acc.validatedPlugins ∧ e.1 ∉ GoMap.keys l) ∨
      (e ∈ l ∧ PassesValidation ProtocolVersion Reserved e.1 e.2)) :
    e ∈ r.validatedPlugins := by
  induction l generalizing acc with
  | nil =>
    unfold validatePluginsLoop at h
    cases h
    rcases he with he | he
    · exact he.1
    · cases he.1
  | cons e0 rest ih =>
    rw [GoMap.keys_cons, List.nodup_cons] at hnd
    unfold validatePluginsLoop at h
    split at h
    · cases h
    · rename_i acc1 hstep
      refine ih hnd.2 h ?_
      rcases validatePlugin_cases hstep with ⟨hp, _, hvp, _⟩ | ⟨hnp, hvp, _, _⟩
      · rcases he with ⟨hin, hk⟩ | ⟨hin, hpass⟩
        · rw [GoMap.keys_cons, List.mem_cons, not_or] at hk
          refine Or.inl ⟨?_, hk.2⟩
          rw [hvp]
          exact List.mem_cons_of_mem _
            (List.mem_filter.2 ⟨hin, by simpa using hk.1⟩)
        · rcases List.mem_cons.1 hin with heq | hin
          · refine Or.inl ⟨?_, by rw [heq]; exact hnd.1⟩
            rw [hvp, heq]
            exact List.mem_cons_self _ _
          · exact Or.inr ⟨hin, hpass⟩
      · rcases he with ⟨hin, hk⟩ | ⟨hin, hpass⟩
        · rw [GoMap.keys_cons, List.mem_cons, not_or] at hk
          exact Or.inl ⟨hvp ▸ hin, hk.2⟩
        · rcases List.mem_cons.1 hin with heq | hin
          · exact absurd (heq ▸ hpass) hnp
          · exact Or.inr ⟨hin, hpass⟩

theorem ValidatePlugins_entries {ProtocolVersion : Int} {Reserved : List String}
    {config : GoMap Connection} {firstYielded : String → Nat} {heap : Heap}
    {updates : ConnectionStateMap}
    {plugins : GoMap ConnectionPlugin} {v : Validation}
    (hnd : (GoMap.keys plugins).Nodup)
    (hv : ValidatePlugins ProtocolVersion Reserved config firstYielded heap updates plugins = some v)
    (e : String × ConnectionPlugin) :
    e ∈ v.validatedPlugins ↔
      e ∈ plugins ∧ PassesValidation ProtocolVersion Reserved e.1 e.2 := by
  unfold ValidatePlugins at hv
  split at hv
  · cases hv
  · rename_i v1 hv1
    obtain ⟨_, hvp, _⟩ := validateAggregatorsLoop_spec updates hv
    rw [hvp]
    constructor
    · intro he
      exact ((validatePluginsLoop_spec plugins hv1).2.1 e he).resolve_left
        (fun h => by cases h)
    · intro he
      exact validatePluginsLoop_entries plugins hnd hv1 e (Or.inr he)

/-- C21 (counterexample): the aggregator `agg` has the children `public` and `c2`, served
by one plugin; with the plugin entries of both children `agg` is a key of
`validatedUpdates`, and it is not once the entry of the child `c2` is removed, or is
replaced by a plugin that fails validation, whichever child the range yields first. And
for the aggregator of `aggregatorConfig`, whose children `c1` and `c2` have a plugin each,
of which only the one of `c1` passes validation: with the same plugins `agg` is a key of
`validatedUpdates` when the range yields `c1` first and is not when it yields `c2`
first. -/
theorem ValidatePlugins_later_child_matters :
    (ValidatePlugins 20220201 ["public", "internal"] reservedChildConfig inListOrder
      aggregatorHeap [("agg", 1)]
      [("public", pluginServing ["public", "c2"] 0),
       ("c2", pluginServing ["public", "c2"] 0)]).map
      (fun v => GoMap.keys v.validatedUpdates) = some ["agg"] ∧
    (ValidatePlugins 20220201 ["public", "internal"] reservedChildConfig inListOrder
      aggregatorHeap [("agg", 1)]
      [("public", pluginServing ["public", "c2"] 0)]).map
      (fun v => GoMap.keys v.validatedUpdates) = some [] ∧
    (ValidatePlugins 20220201 ["public", "internal"] reservedChildConfig inListOrder
      aggregatorHeap [("agg", 1)]
      [("public", pluginServing ["public", "c2"] 0),
       ("c2", pluginServing ["public", "c2"] 20990101)]).map
      (fun v => GoMap.keys v.validatedUpdates) = some [] ∧
    (ValidatePlugins 20220201 ["public", "internal"] reservedChildConfig secondChildFirst
      aggregatorHeap [("agg", 1)]
      [("public", pluginServing ["public", "c2"] 0),
       ("c2", pluginServing ["public", "c2"] 0)]).map
      (fun v => GoMap.keys v.validatedUpdates) = some ["agg"] ∧
    (ValidatePlugins 20220201 ["public", "internal"] reservedChildConfig secondChildFirst
      aggregatorHeap [("agg", 1)]
      [("public", pluginServing ["public", "c2"] 0)]).map
      (fun v => GoMap.keys v.validatedUpdates) = some [] ∧
    (ValidatePlugins 20220201 ["public", "internal"] reservedChildConfig secondChildFirst
      aggregatorHeap [("agg", 1)]
      [("public", pluginServing ["public", "c2"] 0),
       ("c2", pluginServing ["public", "c2"] 20990101)]).map
      (fun v => GoMap.keys v.validatedUpdates) = some [] ∧
    (ValidatePlugins 20220201 ["public", "internal"] aggregatorConfig inListOrder
      aggregatorHeap [("agg", 1)]
      [("c1", pluginServing ["c1"] 0), ("c2", pluginServing ["c2"] 20990101)]).map
      (fun v => GoMap.keys v.validatedUpdates) = some ["agg"] ∧
    (ValidatePlugins 20220201 ["public", "internal"] aggregatorConfig secondChildFirst
      aggregatorHeap [("agg", 1)]
      [("c1", pluginServing ["c1"] 0), ("c2", pluginServing ["c2"] 20990101)]).map
      (fun v => GoMap.keys v.validatedUpdates) = some [] := by
  decide

/-- C21 (amended): let `child` be the child of the aggregator that the range over its
children yields first, in one call of `ValidatePlugins` and in another, whichever child
that is; and let the plugin maps of the two calls, without duplicate keys, hold the same
entries under the name of the aggregator and the same entries whose plugin includes
`child`, and differ in other entries at will (entries of other children that are
replaced, removed or made invalid). Then the aggregator is a key of `validatedUpdates`
for the one call exactly when it is for the other, and it is a key whenever the plugin
entry of `child` is validated. -/
theorem ValidatePlugins_first_child_only (ProtocolVersion : Int) (Reserved : List String)
    (config : GoMap Connection) (firstYielded1 firstYielded2 : String → Nat) (heap : Heap)
    (updates : ConnectionStateMap)
    (plugins1 plugins2 : GoMap ConnectionPlugin)
    (hnd1 : (GoMap.keys plugins1).Nodup) (hnd2 : (GoMap.keys plugins2).Nodup)
    (hserve1 : ∀ e ∈ plugins1, e.2.IncludesConnection e.1 = true)
    (hserve2 : ∀ e ∈ plugins2, e.2.IncludesConnection e.1 = true)
    (hconfig : ∀ e ∈ updates, (heap e.2).GetType = ConnectionTypeAggregator →
      (config.get? e.1).isSome = true)
    (agg : String) (st : Ptr) (connection child : Connection)
    (hupd : updates.get? agg = some st)
    (htype : (heap st).GetType = ConnectionTypeAggregator)
    (hconn : config.get? agg = some connection)
    (hchild1 : rangeFirst firstYielded1 agg connection.Connections = some child)
    (hchild2 : rangeFirst firstYielded2 agg connection.Connections = some child)
    (h12 : ∀ e ∈ plugins1,
      e.1 = agg ∨ e.2.IncludesConnection child.Name = true → e ∈ plugins2)
    (h21 : ∀ e ∈ plugins2,
      e.1 = agg ∨ e.2.IncludesConnection child.Name = true → e ∈ plugins1) :
    ∃ v1 v2,
      ValidatePlugins ProtocolVersion Reserved config firstYielded1 heap updates plugins1 =
        some v1 ∧
      ValidatePlugins ProtocolVersion Reserved config firstYielded2 heap updates plugins2 =
        some v2 ∧
      (agg ∈ GoMap.keys v1.validatedUpdates ↔ agg ∈ GoMap.keys v2.validatedUpdates) ∧
      (child.Name ∈ GoMap.keys v1.validatedPlugins → agg ∈ GoMap.keys v1.validatedUpdates) := by
  obtain ⟨v1, hv1, _, _, hvu1, _⟩ :=
    ValidatePlugins_spec ProtocolVersion Reserved config firstYielded1 heap updates plugins1
      hserve1 hconfig
  obtain ⟨v2, hv2, _, _, hvu2, _⟩ :=
    ValidatePlugins_spec ProtocolVersion Reserved config firstYielded2 heap updates plugins2
      hserve2 hconfig
  have hagg : IsAggregatorUpdate heap updates agg := ⟨st, GoMap.mem_of_get? hupd, htype⟩
  have hmem : agg ∈ GoMap.keys updates := GoMap.mem_keys_of_get? hupd
  have hfirst : ∀ (firstYielded : String → Nat) (vp : GoMap ConnectionPlugin),
      rangeFirst firstYielded agg connection.Connections = some child →
      (YieldedChildValidated config firstYielded vp agg ↔
        ∃ e ∈ vp, e.2.IncludesConnection child.Name = true) := by
    intro firstYielded vp hchild
    constructor
    · rintro ⟨c, child1, hc, hch, hinc⟩
      rw [hconn] at hc
      cases hc
      rw [hchild] at hch
      cases hch
      exact hinc
    · exact fun hinc => ⟨connection, child, hconn, hchild, hinc⟩
  have hkey : ∀ (firstYielded : String → Nat) (plugins : GoMap ConnectionPlugin)
      (v : Validation),
      rangeFirst firstYielded agg connection.Connections = some child →
      (GoMap.keys plugins).Nodup →
      ValidatePlugins ProtocolVersion Reserved config firstYielded heap updates plugins =
        some v →
      (∀ n, n ∈ GoMap.keys v.validatedUpdates ↔
        (n ∈ GoMap.keys updates ∧ n ∈ GoMap.keys v.validatedPlugins) ∨
          (IsAggregatorUpdate heap updates n ∧
            YieldedChildValidated config firstYielded v.validatedPlugins n)) →
      (agg ∈ GoMap.keys v.validatedUpdates ↔
        ∃ e ∈ plugins, PassesValidation ProtocolVersion Reserved e.1 e.2 ∧
          (e.1 = agg ∨ e.2.IncludesConnection child.Name = true)) := by
    intro firstYielded plugins v hchild hnd hv hvu
    rw [hvu, hfirst firstYielded _ hchild]
    constructor
    · rintro (⟨_, hk⟩ | ⟨_, e, he, hinc⟩)
      · obtain ⟨p, hp⟩ := (GoMap.mem_keys_iff _ _).1 hk
        have := (ValidatePlugins_entries hnd hv (agg, p)).1 hp
        exact ⟨(agg, p), this.1, this.2, Or.inl rfl⟩
      · have := (ValidatePlugins_entries hnd hv e).1 he
        exact ⟨e, this.1, this.2, Or.inr hinc⟩
    · rintro ⟨e, he, hpass, hor⟩
      have hin := (ValidatePlugins_entries hnd hv e).2 ⟨he, hpass⟩
      rcases hor with hname | hinc
      · refine Or.inl ⟨hmem, (GoMap.mem_keys_iff _ _).2 ⟨e.2, ?_⟩⟩
        rw [← hname]
        exact hin
      · exact Or.inr ⟨hagg, e, hin, hinc⟩
  refine ⟨v1, v2, hv1, hv2, ?_, fun hc => ?_⟩
  · rw [hkey firstYielded1 plugins1 v1 hchild1 hnd1 hv1 hvu1,
      hkey firstYielded2 plugins2 v2 hchild2 hnd2 hv2 hvu2]
    constructor
    · rintro ⟨e, he, hpass, hor⟩
      exact ⟨e, h12 e he hor, hpass, hor⟩
    · rintro ⟨e, he, hpass, hor⟩
      exact ⟨e, h21 e he hor, hpass, hor⟩
  · obtain ⟨p, hp⟩ := (GoMap.mem_keys_iff _ _).1 hc
    have hpe := (ValidatePlugins_entries hnd1 hv1 (child.Name, p)).1 hp
    exact (hkey firstYielded1 plugins1 v1 hchild1 hnd1 hv1 hvu1).2
      ⟨(child.Name, p), hpe.1, hpe.2, Or.inr (validateProtocolVersion_serves hpe.2.1)⟩

/-- C21 (witness): the aggregator `agg` has the children `c1` and `c2`, each served by a
plugin of its own, and the range yields `c1` first in both calls; making the plugin of
the other child `c2` invalid leaves `agg` a key of `validatedUpdates`. -/
theorem ValidatePlugins_first_child_only_witness :
    (ValidatePlugins 20220201 ["public", "internal"] aggregatorConfig inListOrder
      aggregatorHeap [("agg", 1)]
      [("c1", pluginServing ["c1"] 0), ("c2", pluginServing ["c2"] 20990101)]).map
      (fun v => (failureNames v.validationFailures, GoMap.keys v.validatedUpdates)) =
      some (["c2"], ["agg"]) ∧
    ∃ v1 v2,
      ValidatePlugins 20220201 ["public", "internal"] aggregatorConfig inListOrder
        aggregatorHeap [("agg", 1)]
        [("c1", pluginServing ["c1"] 0), ("c2", pluginServing ["c2"] 0)] = some v1 ∧
      ValidatePlugins 20220201 ["public", "internal"] aggregatorConfig inListOrder
        aggregatorHeap [("agg", 1)]
        [("c1", pluginServing ["c1"] 0), ("c2", pluginServing ["c2"] 20990101)] = some v2 ∧
      ("agg" ∈ GoMap.keys v1.validatedUpdates ↔ "agg" ∈ GoMap.keys v2.validatedUpdates) ∧
      ("c1" ∈ GoMap.keys v1.validatedPlugins → "agg" ∈ GoMap.keys v1.validatedUpdates) :=
  ⟨by decide,
    ValidatePlugins_first_child_only 20220201 ["public", "internal"] aggregatorConfig
      inListOrder inListOrder aggregatorHeap [("agg", 1)]
      [("c1", pluginServing ["c1"] 0), ("c2", pluginServing ["c2"] 0)]
      [("c1", pluginServing ["c1"] 0), ("c2", pluginServing ["c2"] 20990101)]
      (by decide) (by decide) (by decide) (by decide) (by decide)
      "agg" 1 aggregatorAgg (standalone "c1")
      (by decide) (by decide) rfl rfl rfl (by decide) (by decide)⟩

/-! ## Update and Delete at the end of `NewConnectionUpdates` -/

theorem connectionsWithDynamicSchema_keys (heap : Heap) (current : ConnectionStateMap)
    (l acc : ConnectionStateMap) (n : String)
    (h : n ∈ GoMap.keys (connectionsWithDynamicSchema heap current l acc)) :
    n ∈ GoMap.keys acc ∨ n ∈ GoMap.keys l := by
  induction l generalizing acc with
  | nil => exact Or.inl h
  | cons e rest ih =>
    obtain ⟨k, v⟩ := e
    unfold connectionsWithDynamicSchema at h
    rw [GoMap.keys_cons, List.mem_cons]
    split at h
    · split at h
      · rcases ih _ h with h1 | h1
        · rcases (GoMap.mem_keys_set _ _ _ _).1 h1 with h2 | h2
          · exact Or.inr (Or.inl h2)
          · exact Or.inl h2
        · exact Or.inr (Or.inr h1)
      · exact (ih _ h).imp id Or.inr
    · exact (ih _ h).imp id Or.inr

theorem schemaHashMap_keys (GetMD5Hash : String → String) (l : GoMap ConnectionPlugin)
    (acc r : GoMap String) (h : schemaHashMap GetMD5Hash l acc = some r) (n : String) :
    n ∈ GoMap.keys r ↔ n ∈ GoMap.keys acc ∨ n ∈ GoMap.keys l := by
  induction l generalizing acc with
  | nil =>
    unfold schemaHashMap at h
    cases h
    simp [GoMap.keys]
  | cons e rest ih =>
    obtain ⟨k, c⟩ := e
    unfold schemaHashMap at h
    split at h
    · cases h
    · rw [ih _ h, GoMap.mem_keys_set, GoMap.keys_cons, List.mem_cons]
      tauto

/-- When the probe returns plugins only for the connections it was asked to load, every
key of the dynamic hash map is a key of the required state. -/
theorem getSchemaHashes_keys_required (GetMD5Hash : String → String)
    (Connections : Heap → ConnectionStateMap → List Connection)
    (probePlugins : List Connection → GoMap ConnectionPlugin × RefreshConnectionResult)
    (heap : Heap) (required current : ConnectionStateMap)
    (hprobe : ReturnsOnlyAsked probePlugins) (hnames : NamesFromKeys Connections)
    (dyn : GoMap String) (plugins : GoMap ConnectionPlugin)
    (h : getSchemaHashesForDynamicSchemas GetMD5Hash Connections probePlugins heap required
      current = some (Except.ok (dyn, plugins))) :
    ∀ n ∈ GoMap.keys dyn, n ∈ GoMap.keys required := by
  intro n hn
  simp only [getSchemaHashesForDynamicSchemas] at h
  split at h
  · cases h
  · split at h
    · cases h
    · rename_i hashMap hmap
      cases h
      have hk := (schemaHashMap_keys GetMD5Hash _ [] dyn hmap n).1 hn
      rcases hk with hk | hk
      · simp [GoMap.keys] at hk
      · have h1 := hnames heap _ n (hprobe _ n hk)
        rcases connectionsWithDynamicSchema_keys heap current required [] n h1 with h2 | h2
        · simp [GoMap.keys] at h2
        · exact h2

/-- C22: when every key of the dynamic hash map is a key of the required state and
`NewConnectionUpdates` returns a `ConnectionUpdates`, FinalConnectionState is the required
state, every key of Update is a key of FinalConnectionState, no key of Delete is, and so
no name is a key of both Update and Delete; the condition holds when the probe returns
plugins only for the connections it was asked to load. -/
theorem NewConnectionUpdates_update_delete_final
    (Equals : ConnectionState → ConnectionState → Bool) (GetMD5Hash : String → String)
    (Connections : Heap → ConnectionStateMap → List Connection)
    (probePlugins loadPlugins :
      List Connection → GoMap ConnectionPlugin × RefreshConnectionResult)
    (foreign : List String) (current required : ConnectionStateMap)
    (missing : GoMap (List Connection)) (modTime : Nat) (heap : Heap) (force : List String)
    (out : Outcome) (u : ConnectionUpdates)
    (hrun : NewConnectionUpdates Equals GetMD5Hash Connections probePlugins loadPlugins
      { acquireError := none, foreignSchemaNames := Except.ok foreign,
        currentConnectionState := Except.ok current,
        requiredConnectionState := Except.ok (required, missing), modTime := modTime }
      heap force = some out)
    (hu : out.updates = some u)
    (hdyn : ∀ dyn plugins,
      getSchemaHashesForDynamicSchemas GetMD5Hash Connections probePlugins heap required
        current = some (Except.ok (dyn, plugins)) →
      ∀ n ∈ GoMap.keys dyn, n ∈ GoMap.keys required) :
    (u.FinalConnectionState = required ∧
      (∀ n ∈ GoMap.keys u.Update, n ∈ GoMap.keys u.FinalConnectionState) ∧
      (∀ n ∈ GoMap.keys u.Delete, n ∉ GoMap.keys u.FinalConnectionState) ∧
      ∀ n, ¬ (n ∈ GoMap.keys u.Update ∧ n ∈ GoMap.keys u.Delete)) ∧
    (ReturnsOnlyAsked probePlugins → NamesFromKeys Connections →
      ∀ dyn plugins,
        getSchemaHashesForDynamicSchemas GetMD5Hash Connections probePlugins heap required
          current = some (Except.ok (dyn, plugins)) →
        ∀ n ∈ GoMap.keys dyn, n ∈ GoMap.keys required) := by
  obtain ⟨foreign1, current1, required1, missing1, dyn, plugins, _, hf, hc, hr, hg, hueq⟩ :=
    NewConnectionUpdates_updates hrun hu
  cases hf
  cases hc
  cases hr
  have hfinal : u.FinalConnectionState = required := by
    rw [hueq, populateConnectionPlugins_final]
    rfl
  have hupd : ∀ n ∈ GoMap.keys u.Update, n ∈ GoMap.keys required := by
    intro n hn
    rw [hueq, (populateConnectionPlugins_fst _ _ _ _).1, setError_foldl_update_keys] at hn
    rcases diffStage_update_keys_cases Equals required current missing force dyn foreign
      modTime heap n hn.1 with h | h
    · exact h
    · exact hdyn dyn plugins hg n h
  have hdel : ∀ n ∈ GoMap.keys u.Delete, n ∉ GoMap.keys required := by
    intro n hn
    rw [hueq, populateConnectionPlugins_delete] at hn
    exact ((diffStage_delete_keys Equals required current missing force dyn foreign modTime
      heap n).1 hn).1
  refine ⟨⟨hfinal, ?_, ?_, fun n hn => hdel n hn.2 (hupd n hn.1)⟩,
    fun hprobe hnames dyn1 plugins1 h1 =>
      getSchemaHashes_keys_required GetMD5Hash Connections probePlugins heap required current
        hprobe hnames dyn1 plugins1 h1⟩
  · rw [hfinal]
    exact hupd
  · rw [hfinal]
    exact hdel

theorem samplePlugins_returnsOnlyAsked : ReturnsOnlyAsked samplePlugins := by
  intro l n hn
  simpa [samplePlugins, GoMap.keys, connectionNames, List.map_map, Function.comp_def] using hn

theorem sampleConnections_namesFromKeys : NamesFromKeys sampleConnections := by
  intro heap m n hn
  simpa [sampleConnections, GoMap.keys, connectionNames, List.map_map,
    Function.comp_def] using hn

/-- C22 (witness): the connection `d` is required and probed, `old` is in the current
state only and `C` is a foreign schema; `NewConnectionUpdates` returns Update `d`, Delete
`C` and `old`, FinalConnectionState `d`. -/
theorem NewConnectionUpdates_update_delete_final_witness :
    ((NewConnectionUpdates ConnectionState.Equals sampleDigest sampleConnections
        samplePlugins samplePlugins
        { acquireError := none, foreignSchemaNames := Except.ok ["C"],
          currentConnectionState := Except.ok [("d", 2), ("old", 4)],
          requiredConnectionState := Except.ok ([("d", 1)], []), modTime := 7 }
        driftHeap []).bind (fun out => out.updates)).map
      (fun u => (GoMap.keys u.Update, GoMap.keys u.Delete,
        GoMap.keys u.FinalConnectionState)) = some (["d"], ["C", "old"], ["d"]) ∧
    ∃ out u,
      NewConnectionUpdates ConnectionState.Equals sampleDigest sampleConnections
        samplePlugins samplePlugins
        { acquireError := none, foreignSchemaNames := Except.ok ["C"],
          currentConnectionState := Except.ok [("d", 2), ("old", 4)],
          requiredConnectionState := Except.ok ([("d", 1)], []), modTime := 7 }
        driftHeap [] = some out ∧
      out.updates = some u ∧
      u.FinalConnectionState = [("d", 1)] ∧
      (∀ n ∈ GoMap.keys u.Update, n ∈ GoMap.keys u.FinalConnectionState) ∧
      (∀ n ∈ GoMap.keys u.Delete, n ∉ GoMap.keys u.FinalConnectionState) ∧
      ∀ n, ¬ (n ∈ GoMap.keys u.Update ∧ n ∈ GoMap.keys u.Delete) := by
  refine ⟨by decide, ?_⟩
  have hsome : ((NewConnectionUpdates ConnectionState.Equals sampleDigest sampleConnections
      samplePlugins samplePlugins
      { acquireError := none, foreignSchemaNames := Except.ok ["C"],
        currentConnectionState := Except.ok [("d", 2), ("old", 4)],
        requiredConnectionState := Except.ok ([("d", 1)], []), modTime := 7 }
      driftHeap []).bind (fun out => out.updates)).isSome = true := by decide
  cases hrun : NewConnectionUpdates ConnectionState.Equals sampleDigest sampleConnections
      samplePlugins samplePlugins
      { acquireError := none, foreignSchemaNames := Except.ok ["C"],
        currentConnectionState := Except.ok [("d", 2), ("old", 4)],
        requiredConnectionState := Except.ok ([("d", 1)], []), modTime := 7 }
      driftHeap [] with
  | none =>
    rw [hrun] at hsome
    cases hsome
  | some out =>
    rw [hrun] at hsome
    cases hup : out.updates with
    | none =>
      rw [Option.some_bind, hup] at hsome
      cases hsome
    | some u =>
      exact ⟨out, u, rfl, hup,
        (NewConnectionUpdates_update_delete_final ConnectionState.Equals sampleDigest
          sampleConnections samplePlugins samplePlugins ["C"] [("d", 2), ("old", 4)]
          [("d", 1)] [] 7 driftHeap [] out u hrun hup
          (getSchemaHashes_keys_required sampleDigest sampleConnections samplePlugins
            driftHeap [("d", 1)] [("d", 2), ("old", 4)] samplePlugins_returnsOnlyAsked
            sampleConnections_namesFromKeys)).1⟩

/-! ## Failed connections after plugin loading -/

/-- The keys of the dynamic hash map that `getSchemaHashesForDynamicSchemas` returns are
the names of the plugins it returns. -/
theorem getSchemaHashes_keys_plugins (GetMD5Hash : String → String)
    (Connections : Heap → ConnectionStateMap → List Connection)
    (probePlugins : List Connection → GoMap ConnectionPlugin × RefreshConnectionResult)
    (heap : Heap) (required current : ConnectionStateMap)
    (dyn : GoMap String) (plugins : GoMap ConnectionPlugin)
    (h : getSchemaHashesForDynamicSchemas GetMD5Hash Connections probePlugins heap required
      current = some (Except.ok (dyn, plugins))) :
    ∀ n, n ∈ GoMap.keys dyn ↔ n ∈ GoMap.keys plugins := by
  intro n
  simp only [getSchemaHashesForDynamicSchemas] at h
  split at h
  · cases h
  · split at h
    · cases h
    · rename_i hashMap hmap
      cases h
      rw [schemaHashMap_keys GetMD5Hash _ [] dyn hmap n]
      simp [GoMap.keys]

/-- C11: `NewConnectionUpdates` runs `populateConnectionPlugins` on the value `acc` of the
diff stage, with the plugins of the probe as the plugins already created, whose names are
the keys of the dynamic hash map. When plugin loading reports in `FailedConnections`,
without duplicate, only connections that it was asked to load, a connection `x` that it
reports with the reason `reason` is not a key of Update after
`populateConnectionPlugins`; and if `x` is a key of FinalConnectionState, with a state
object that no other failed connection shares, that state is `error` with the error
`reason`. -/
theorem populateConnectionPlugins_failed
    (Equals : ConnectionState → ConnectionState → Bool)
    (Connections : Heap → ConnectionStateMap → List Connection)
    (CreateConnectionPlugins : List Connection → GoMap ConnectionPlugin × RefreshConnectionResult)
    (required current : ConnectionStateMap) (missing : GoMap (List Connection))
    (force : List String) (dyn : GoMap String) (foreign : List String) (modTime : Nat)
    (heap : Heap) (already : GoMap ConnectionPlugin)
    (acc : ConnectionUpdates × Heap) (failed : GoMap String)
    (hacc : acc = diffStage Equals required current missing force dyn foreign modTime heap)
    (hfailed : failed = (CreateConnectionPlugins
      (getConnectionsToCreate Connections acc.2 acc.1 already)).2.FailedConnections)
    (hdyn : ∀ n ∈ GoMap.keys dyn, n ∈ GoMap.keys already)
    (hasked : ∀ n ∈ GoMap.keys failed,
      n ∈ connectionNames (getConnectionsToCreate Connections acc.2 acc.1 already))
    (hnd : (GoMap.keys failed).Nodup)
    (x reason : String) (hfail : failed.get? x = some reason) :
    x ∉ GoMap.keys
      (populateConnectionPlugins Connections CreateConnectionPlugins acc already).1.1.Update ∧
    (∀ p, (populateConnectionPlugins Connections CreateConnectionPlugins acc
        already).1.1.FinalConnectionState.get? x = some p →
      (∀ y ∈ GoMap.keys failed, y ≠ x → required.get? y ≠ some p) →
      ((populateConnectionPlugins Connections CreateConnectionPlugins acc already).1.2 p).State =
        ConnectionStateError ∧
      ((populateConnectionPlugins Connections CreateConnectionPlugins acc
        already).1.2 p).ConnectionError = some reason) ∧
    (∀ (GetMD5Hash : String → String)
      (probePlugins : List Connection → GoMap ConnectionPlugin × RefreshConnectionResult)
      (heap0 : Heap) (dyn0 : GoMap String) (plugins0 : GoMap ConnectionPlugin),
      getSchemaHashesForDynamicSchemas GetMD5Hash Connections probePlugins heap0 required
        current = some (Except.ok (dyn0, plugins0)) →
      ∀ n ∈ GoMap.keys dyn0, n ∈ GoMap.keys plugins0) := by
  obtain ⟨hupd, hheap⟩ := populateConnectionPlugins_fst Connections CreateConnectionPlugins
    acc already
  have hfinal : acc.1.FinalConnectionState = required := by rw [hacc]; rfl
  have hxfailed : x ∈ GoMap.keys failed := GoMap.mem_keys_of_get? hfail
  refine ⟨?_, fun p hp hobj => ?_, fun GetMD5Hash probePlugins heap0 dyn0 plugins0 hg n hn =>
    (getSchemaHashes_keys_plugins GetMD5Hash Connections probePlugins heap0 required current
      dyn0 plugins0 hg n).1 hn⟩
  · rw [hupd, setError_foldl_update_keys, ← hfailed]
    rintro ⟨hmem, hnot⟩
    have hnotalready : x ∉ GoMap.keys already :=
      ((getConnectionsToCreate_mem_names Connections acc.2 acc.1 already x).1
        (hasked x hxfailed)).2
    rw [hacc] at hmem
    rcases diffStage_update_keys_cases Equals required current missing force dyn foreign
      modTime heap x hmem with h | h
    · exact hnot ⟨hxfailed, by rw [hfinal]; exact h⟩
    · exact hnotalready (hdyn x h)
  · rw [populateConnectionPlugins_final] at hp
    rw [hheap, ← hfailed]
    exact setError_foldl_heap_failed failed acc x reason p (GoMap.mem_of_get? hfail) hnd hp
      (fun y hy hyx => by rw [hfinal]; exact hobj y hy hyx)

/-- C11 (witness): the connection `A` is unchanged and `B` is new, and loading the plugin
of `B` fails with the reason `boom`; `B`, which the diff stage put in Update, is not a key
of Update after `populateConnectionPlugins`, and its final state, the object 3, is `error`
with the error `boom`; so it is at the end of the run of `NewConnectionUpdates`. -/
theorem populateConnectionPlugins_failed_witness :
    "B" ∈ GoMap.keys (diffStage ConnectionState.Equals [("A", 1), ("B", 3)] [("A", 2)] []
      [] [] ["C"] 7 scenarioHeap).1.Update ∧
    connectionNames (getConnectionsToCreate sampleConnections
      (diffStage ConnectionState.Equals [("A", 1), ("B", 3)] [("A", 2)] [] [] [] ["C"] 7
        scenarioHeap).2
      (diffStage ConnectionState.Equals [("A", 1), ("B", 3)] [("A", 2)] [] [] [] ["C"] 7
        scenarioHeap).1 []) = ["B"] ∧
    "B" ∉ GoMap.keys (populateConnectionPlugins sampleConnections (failingPlugins "B" "boom")
      (diffStage ConnectionState.Equals [("A", 1), ("B", 3)] [("A", 2)] [] [] [] ["C"] 7
        scenarioHeap) []).1.1.Update ∧
    ((populateConnectionPlugins sampleConnections (failingPlugins "B" "boom")
      (diffStage ConnectionState.Equals [("A", 1), ("B", 3)] [("A", 2)] [] [] [] ["C"] 7
        scenarioHeap) []).1.2 3).State = "error" ∧
    ((populateConnectionPlugins sampleConnections (failingPlugins "B" "boom")
      (diffStage ConnectionState.Equals [("A", 1), ("B", 3)] [("A", 2)] [] [] [] ["C"] 7
        scenarioHeap) []).1.2 3).ConnectionError = some "boom" ∧
    (NewConnectionUpdates ConnectionState.Equals sampleDigest sampleConnections
        samplePlugins (failingPlugins "B" "boom")
        { acquireError := none, foreignSchemaNames := Except.ok ["C"],
          currentConnectionState := Except.ok [("A", 2)],
          requiredConnectionState := Except.ok ([("A", 1), ("B", 3)], []), modTime := 7 }
        scenarioHeap []).map
      (fun out => (out.updates.map (fun u => (GoMap.keys u.Update,
        GoMap.keys u.FinalConnectionState)), (out.heap 3).State,
        (out.heap 3).ConnectionError)) =
      some (some ([], ["A", "B"]), "error", some "boom") :=
  have h := populateConnectionPlugins_failed ConnectionState.Equals sampleConnections
    (failingPlugins "B" "boom") [("A", 1), ("B", 3)] [("A", 2)] [] [] [] ["C"] 7
    scenarioHeap [] _ [("B", "boom")] rfl rfl (by decide) (by decide) (by decide)
    "B" "boom" (by decide)
  ⟨by decide, by decide, h.1, (h.2.1 3 (by decide) (by decide)).1,
    (h.2.1 3 (by decide) (by decide)).2, by decide⟩

end Steampipe
